import Mathlib

/-!
# Token lifecycle of the auth service

A shallow embedding of `internal/services/auth_service.go`,
`internal/services/jwt_service.go`, `pkg/redis/redis.go` and the handler `AuthRequired` of
`internal/api/middleware.go`, and statements about the lifecycle of access and refresh
tokens: login, rotation, reuse detection, logout, verification.

* Wall-clock instants and `time.Duration` values are integers counting nanoseconds.
* Go `string` values are `String`; Go `error` values are terms of `Error`.
* Every effectful function is written in state-passing style over `World`, which holds the
  wall clock, the Redis keyspace, and the outcome of the Redis commands still to come.
  `World.log` is a ghost trace of the calls made on the token service and on Redis.
* The third-party libraries (golang-jwt, go-redis, bcrypt) are not part of the repository.
  What the service relies on is described by `Parse` and `SignedString` over the text layer
  `JWTCodec`, by the `redis*` commands, and by the `bcryptCompare` field of `Deps`.
  The Redis server is a keyspace with optional absolute deadlines, read on the clock of the
  service; a command that fails leaves the keyspace as it was; the rounding of an expiration
  to whole milliseconds is not modelled.
* The user repository is an interface of the service; `Login` uses its `FindByEmail`.
* A Go call returns or panics (`Go`); `len` of a string is its number of bytes.
* Concurrent calls of `RefreshToken` are interleavings of their steps, a step being one call
  on the token service or on the store, executed atomically (`refreshStep`, `interleave`).
-/

namespace AuthService

/-! ## Errors -/

/-- Sentinel errors of `github.com/golang-jwt/jwt/v5`. -/
inductive JwtErr
  | ErrTokenMalformed
  | ErrTokenUnverifiable
  | ErrTokenSignatureInvalid
  | ErrTokenInvalidClaims
  | ErrTokenExpired
  | ErrTokenNotValidYet
  | ErrInvalidType
  | ErrSignatureInvalid
  | ErrInvalidKey
  | ErrInvalidKeyType
  deriving DecidableEq, Repr

/-- Go `error` values that occur in the service. -/
inductive Error
  /-- Value of `errors.New(msg)`. -/
  | New (msg : String)
  /-- Value of `fmt.Errorf(msg + ": %w", cause)`. -/
  | Errorf (msg : String) (cause : Error)
  /-- The sentinel `redis.Nil` (key does not exist). -/
  | RedisNil
  /-- Any other error of a Redis command (connection refused, timeout, ...). -/
  | RedisDown
  /-- An error of the jwt library: the sentinels joined in it, outermost first. -/
  | Jwt (chain : List JwtErr)
  deriving DecidableEq, Repr

/-- Model of `errors.Is(err, target)` for a sentinel of the jwt library. -/
def Error.IsJwt : Error → JwtErr → Bool
  | .Errorf _ cause, t => cause.IsJwt t
  | .Jwt chain, t => decide (t ∈ chain)
  | _, _ => false

/-- Model of `errors.Is(err, redis.Nil)`. -/
def Error.IsRedisNil : Error → Bool
  | .Errorf _ cause => cause.IsRedisNil
  | .RedisNil => true
  | _ => false

/-! ## Wall clock, Redis keyspace and the world -/

/-- One second, in nanoseconds (`time.Second`). -/
def Second : Int := 1000000000

/-- Model of `time.Time.Unix`: whole seconds since the epoch, rounded down. -/
def Unix (t : Int) : Int := t / Second

/-- A key of the Redis keyspace: its value and its absolute expiry deadline, if any. -/
structure RedisEntry where
  value : String
  expireAt : Option Int
  deriving DecidableEq, Repr

/-- Interface calls recorded in the ghost trace. -/
inductive Call
  | GenerateAccessToken (userID : String)
  | GenerateRefreshToken (userID : String)
  | Set (key value : String) (expiration : Int)
  | Get (key : String)
  | Del (key : String)
  | Exists (key : String)
  deriving DecidableEq, Repr

/-- The environment the service runs in.
`ticks` lists by how many nanoseconds the clock has advanced at each of the coming clock
readings (none left: the clock stands still); `faults` lists, for each of the coming Redis
commands, whether it fails with a connection-level error (none left: it succeeds). -/
structure World where
  now : Int
  ticks : List Nat
  faults : List Bool
  keys : String → Option RedisEntry
  log : List Call

/-- Model of `time.Now()`: the clock advances by the next tick and is read. -/
def timeNow (w : World) : Int × World :=
  match w.ticks with
  | [] => (w.now, w)
  | d :: ds => (w.now + d, { w with now := w.now + d, ticks := ds })

/-- Whether the next Redis command fails, and the world with that outcome consumed. -/
def nextFault (w : World) : Bool × World :=
  match w.faults with
  | [] => (false, w)
  | f :: fs => (f, { w with faults := fs })

/-- Record a call in the ghost trace. -/
def record (c : Call) (w : World) : World :=
  { w with log := w.log ++ [c] }

/-- The entry of `key` that a command executed at instant `t` sees: a key whose deadline has
been reached does not exist. -/
def liveAt (keys : String → Option RedisEntry) (t : Int) (key : String) : Option RedisEntry :=
  match keys key with
  | none => none
  | some e =>
    match e.expireAt with
    | none => some e
    | some d => if t < d then some e else none

/-- The constant `redis.KeepTTL` of go-redis. -/
def KeepTTL : Int := -1

/-- Deadline given by `SET key value` with go-redis expiration argument `expiration`, executed
at instant `t`: a positive expiration sets the deadline, `KeepTTL` keeps the deadline of the
key if it exists, any other value makes the key persistent. -/
def setDeadline (keys : String → Option RedisEntry) (t : Int) (key : String)
    (expiration : Int) : Option Int :=
  if expiration > 0 then some (t + expiration)
  else if expiration = KeepTTL then
    match liveAt keys t key with
    | none => none
    | some e => e.expireAt
  else none

/-- Model of `client.Set(ctx, key, value, expiration).Err()` of go-redis. -/
def redisSET (key value : String) (expiration : Int) (w : World) : Option Error × World :=
  let w1 := record (.Set key value expiration) w
  let (t, w2) := timeNow w1
  let (fault, w3) := nextFault w2
  if fault then (some .RedisDown, w3)
  else
    let e : RedisEntry := { value := value, expireAt := setDeadline w3.keys t key expiration }
    (none, { w3 with keys := fun k => if k = key then some e else w3.keys k })

/-- Model of `client.Get(ctx, key).Result()` of go-redis. -/
def redisGET (key : String) (w : World) : Except Error String × World :=
  let w1 := record (.Get key) w
  let (t, w2) := timeNow w1
  let (fault, w3) := nextFault w2
  if fault then (.error .RedisDown, w3)
  else
    (match liveAt w3.keys t key with
      | none => .error .RedisNil
      | some e => .ok e.value, w3)

/-- Model of `client.Del(ctx, key).Err()` of go-redis. -/
def redisDEL (key : String) (w : World) : Option Error × World :=
  let w1 := record (.Del key) w
  let (_, w2) := timeNow w1
  let (fault, w3) := nextFault w2
  if fault then (some .RedisDown, w3)
  else (none, { w3 with keys := fun k => if k = key then none else w3.keys k })

/-- Model of `client.Exists(ctx, key).Result()` of go-redis: the number of existing keys. -/
def redisEXISTS (key : String) (w : World) : (Int × Option Error) × World :=
  let w1 := record (.Exists key) w
  let (t, w2) := timeNow w1
  let (fault, w3) := nextFault w2
  if fault then ((0, some .RedisDown), w3)
  else
    (match liveAt w3.keys t key with
      | none => (0, none)
      | some _ => (1, none), w3)

/-! ## `pkg/redis/redis.go` -/

/-- `RedisClient.Set`. -/
def RedisClient.Set (key value : String) (expiration : Int) (w : World) : Option Error × World :=
  redisSET key value expiration w

/-- `RedisClient.Get`. -/
def RedisClient.Get (key : String) (w : World) : Except Error String × World :=
  redisGET key w

/-- `RedisClient.Del`. -/
def RedisClient.Del (key : String) (w : World) : Option Error × World :=
  redisDEL key w

/-- `RedisClient.Exists`: `res > 0, err`. -/
def RedisClient.Exists (key : String) (w : World) : (Bool × Option Error) × World :=
  let ((res, err), w1) := redisEXISTS key w
  ((decide (res > 0), err), w1)

/-- `RedisClient.StoreRefreshToken`. -/
def RedisClient.StoreRefreshToken (userID token : String) (expiry : Int) (w : World) :
    Option Error × World :=
  RedisClient.Set ("refresh:" ++ userID) token expiry w

/-- `RedisClient.GetRefreshToken`. -/
def RedisClient.GetRefreshToken (userID : String) (w : World) : Except Error String × World :=
  RedisClient.Get ("refresh:" ++ userID) w

/-- `RedisClient.DeleteRefreshToken`. -/
def RedisClient.DeleteRefreshToken (userID : String) (w : World) : Option Error × World :=
  RedisClient.Del ("refresh:" ++ userID) w

/-- `RedisClient.BlacklistToken`. -/
def RedisClient.BlacklistToken (token : String) (expiry : Int) (w : World) :
    Option Error × World :=
  RedisClient.Set ("blacklist:" ++ token) "1" expiry w

/-- `RedisClient.IsTokenBlacklisted`. -/
def RedisClient.IsTokenBlacklisted (token : String) (w : World) :
    (Bool × Option Error) × World :=
  RedisClient.Exists ("blacklist:" ++ token) w

/-! ## The jwt library (`github.com/golang-jwt/jwt/v5`) -/

/-- A JSON value held in a `jwt.MapClaims`: a string, a number, or anything else. -/
inductive ClaimValue
  | str (s : String)
  | num (q : ℚ)
  | other
  deriving DecidableEq

/-- Model of `jwt.MapClaims`. -/
abbrev MapClaims := List (String × ClaimValue)

/-- The signing methods the library registers, by implementing type. -/
inductive SigningMethod
  | HMAC (alg : String)
  | RSA (alg : String)
  | RSAPSS (alg : String)
  | ECDSA (alg : String)
  | Ed25519
  | None
  deriving DecidableEq

/-- The header name of a signing method (`SigningMethod.Alg`). -/
def SigningMethod.Alg : SigningMethod → String
  | .HMAC a => a
  | .RSA a => a
  | .RSAPSS a => a
  | .ECDSA a => a
  | .Ed25519 => "EdDSA"
  | .None => "none"

/-- Model of `jwt.GetSigningMethod`: the registered method of a header `alg` value. -/
def GetSigningMethod (alg : String) : Option SigningMethod :=
  if alg = "HS256" ∨ alg = "HS384" ∨ alg = "HS512" then some (.HMAC alg)
  else if alg = "RS256" ∨ alg = "RS384" ∨ alg = "RS512" then some (.RSA alg)
  else if alg = "PS256" ∨ alg = "PS384" ∨ alg = "PS512" then some (.RSAPSS alg)
  else if alg = "ES256" ∨ alg = "ES384" ∨ alg = "ES512" then some (.ECDSA alg)
  else if alg = "EdDSA" then some .Ed25519
  else if alg = "none" then some .None
  else none

/-- The constant `jwt.SigningMethodHS256`. -/
def SigningMethodHS256 : SigningMethod := .HMAC "HS256"

/-- Model of `jwt.Token`. -/
structure Token where
  Raw : String
  Method : SigningMethod
  Claims : MapClaims
  Signature : String
  Valid : Bool

/-- What `Parser.ParseUnverified` reads off a token text of three segments: the `alg` value
of the header (if it has one that is a string), the claims, the text that was signed (the
first two segments) and the signature segment, still encoded. -/
structure Compact where
  alg : Option String
  claims : MapClaims
  signingInput : String
  signature : String
  deriving DecidableEq

/-- The text layer of the jwt library: base64url, JSON and the MAC primitive. -/
structure JWTCodec where
  /-- The value of `Token.SigningString`: encoded header, a dot, encoded claims. -/
  SigningString : (alg : String) → MapClaims → String
  /-- The MAC of a signing string under a key, for the hash of the given HMAC method. -/
  hmac : (alg : String) → (signingString key : String) → String
  /-- The value of `Token.EncodeSegment`: base64url without padding. -/
  EncodeSegment : String → String
  /-- The value of `Parser.DecodeSegment`: the bytes of a segment, `none` when the segment
  is not base64url. -/
  DecodeSegment : String → Option String
  /-- Splitting a token text into three segments and decoding the first two of them
  (`Parser.ParseUnverified` up to the method lookup); `none` for a text that is malformed. -/
  decode : String → Option Compact

/-- The claims of the tokens the service mints:
`jwt.MapClaims{"sub": sub, "exp": exp, "iat": iat}`. -/
def mintedClaims (sub : String) (exp iat : Int) : MapClaims :=
  [("sub", .str sub), ("exp", .num exp), ("iat", .num iat)]

/-- Model of `SigningMethod.Sign` for a key of type `[]byte`: only the HMAC methods accept
such a key. -/
def SigningMethod.Sign (lib : JWTCodec) (m : SigningMethod) (signingString key : String) :
    Except Error String :=
  match m with
  | .HMAC alg => .ok (lib.hmac alg signingString key)
  | _ => .error (.Jwt [.ErrInvalidKeyType])

/-- Model of `SigningMethod.Verify` for a key of type `[]byte`. -/
def SigningMethod.Verify (lib : JWTCodec) (m : SigningMethod)
    (signingString signature key : String) : Option JwtErr :=
  match m with
  | .HMAC alg =>
    if signature = lib.hmac alg signingString key then none else some .ErrSignatureInvalid
  | _ => some .ErrInvalidKeyType

/-- Model of `Token.SignedString` on `jwt.NewWithClaims(method, claims)`. -/
def SignedString (lib : JWTCodec) (method : SigningMethod) (claims : MapClaims)
    (key : String) : Except Error String :=
  let sstr := lib.SigningString method.Alg claims
  match method.Sign lib sstr key with
  | .error err => .error err
  | .ok sig => .ok (sstr ++ "." ++ lib.EncodeSegment sig)

/-- The assumption made on the text layer: the text of a token signed with HS256 over the
claims `sub`, `exp`, `iat` decodes to that header, those claims, the text that was signed and
the encoded signature; and an encoded segment decodes to the bytes it encodes. (For the real
library this holds as long as `exp` and `iat` are integers a `float64` represents exactly.) -/
structure JWTCodec.Lawful (lib : JWTCodec) : Prop where
  decode_signed : ∀ (sub : String) (exp iat : Int) (sig : String),
    lib.decode (lib.SigningString "HS256" (mintedClaims sub exp iat) ++ "." ++
        lib.EncodeSegment sig)
      = some { alg := some "HS256", claims := mintedClaims sub exp iat,
               signingInput := lib.SigningString "HS256" (mintedClaims sub exp iat),
               signature := lib.EncodeSegment sig }
  decode_segment : ∀ b : String, lib.DecodeSegment (lib.EncodeSegment b) = some b

/-- Model of `MapClaims.parseNumericDate`: an absent claim and the number zero give no date,
a number gives its whole seconds, any other value is an error. -/
def parseNumericDate (m : MapClaims) (key : String) : Except JwtErr (Option Int) :=
  match m.lookup key with
  | none => .ok none
  | some (.num q) => if q = 0 then .ok none else .ok (some ⌊q⌋)
  | some _ => .error .ErrInvalidType

/-- Model of `Validator.verifyExpiresAt` with no leeway, `exp` not required. -/
def verifyExpiresAt (claims : MapClaims) (cmp : Int) : Option JwtErr :=
  match parseNumericDate claims "exp" with
  | .error err => some err
  | .ok none => none
  | .ok (some exp) => if cmp < exp * Second then none else some .ErrTokenExpired

/-- Model of `Validator.verifyNotBefore` with no leeway, `nbf` not required. -/
def verifyNotBefore (claims : MapClaims) (cmp : Int) : Option JwtErr :=
  match parseNumericDate claims "nbf" with
  | .error err => some err
  | .ok none => none
  | .ok (some nbf) => if cmp < nbf * Second then some .ErrTokenNotValidYet else none

/-- Model of `Validator.Validate` of the default validator: the errors found, none for valid
claims. -/
def Validate (claims : MapClaims) (w : World) : List JwtErr × World :=
  let (now, w1) := timeNow w
  ((verifyExpiresAt claims now).toList ++ (verifyNotBefore claims now).toList, w1)

/-- Model of `jwt.Parse(tokenString, keyFunc)` with the default parser options. -/
def Parse (lib : JWTCodec) (tokenString : String) (keyFunc : Token → Except JwtErr String)
    (w : World) : Except Error Token × World :=
  match lib.decode tokenString with
  | none => (.error (.Jwt [.ErrTokenMalformed]), w)
  | some c =>
    match c.alg with
    | none => (.error (.Jwt [.ErrTokenUnverifiable]), w)
    | some alg =>
      match GetSigningMethod alg with
      | none => (.error (.Jwt [.ErrTokenUnverifiable]), w)
      | some method =>
        match lib.DecodeSegment c.signature with
        | none => (.error (.Jwt [.ErrTokenMalformed]), w)
        | some sig =>
          let token : Token :=
            { Raw := tokenString, Method := method, Claims := c.claims,
              Signature := sig, Valid := false }
          match keyFunc token with
          | .error err => (.error (.Jwt [.ErrTokenUnverifiable, err]), w)
          | .ok key =>
            match method.Verify lib c.signingInput sig key with
            | some err => (.error (.Jwt [.ErrTokenSignatureInvalid, err]), w)
            | none =>
              match Validate c.claims w with
              | ([], w1) => (.ok { token with Valid := true }, w1)
              | (errs, w1) => (.error (.Jwt (.ErrTokenInvalidClaims :: errs)), w1)

/-! ## `internal/services/jwt_service.go` -/

/-- The struct `jwtService`. -/
structure jwtService where
  secret : String
  accessExpiry : Int
  refreshExpiry : Int

/-- `jwtService.GenerateAccessToken`. -/
def jwtService.GenerateAccessToken (lib : JWTCodec) (s : jwtService) (userID : String)
    (w : World) : Except Error String × World :=
  let w0 := record (.GenerateAccessToken userID) w
  let (t1, w1) := timeNow w0
  let (t2, w2) := timeNow w1
  let claims : MapClaims := mintedClaims userID (Unix (t1 + s.accessExpiry)) (Unix t2)
  (SignedString lib SigningMethodHS256 claims s.secret, w2)

/-- `jwtService.GenerateRefreshToken`. -/
def jwtService.GenerateRefreshToken (lib : JWTCodec) (s : jwtService) (userID : String)
    (w : World) : Except Error String × World :=
  let w0 := record (.GenerateRefreshToken userID) w
  let (t1, w1) := timeNow w0
  let (t2, w2) := timeNow w1
  let claims : MapClaims := mintedClaims userID (Unix (t1 + s.refreshExpiry)) (Unix t2)
  (SignedString lib SigningMethodHS256 claims s.secret, w2)

/-- The key function `validateToken` passes to `jwt.Parse`. -/
def jwtService.keyFunc (s : jwtService) (token : Token) : Except JwtErr String :=
  match token.Method with
  | .HMAC _ => .ok s.secret
  | _ => .error .ErrSignatureInvalid

/-- `jwtService.validateToken`. -/
def jwtService.validateToken (lib : JWTCodec) (s : jwtService) (token : String) (w : World) :
    Except Error MapClaims × World :=
  match Parse lib token s.keyFunc w with
  | (.error err, w1) => (.error err, w1)
  | (.ok parsedToken, w1) =>
    if parsedToken.Valid then (.ok parsedToken.Claims, w1)
    else (.error (.Jwt [.ErrInvalidKey]), w1)

/-- `jwtService.ValidateAccessToken`. -/
def jwtService.ValidateAccessToken (lib : JWTCodec) (s : jwtService) (token : String)
    (w : World) : Except Error MapClaims × World :=
  s.validateToken lib token w

/-- `jwtService.ValidateRefreshToken`. -/
def jwtService.ValidateRefreshToken (lib : JWTCodec) (s : jwtService) (token : String)
    (w : World) : Except Error MapClaims × World :=
  s.validateToken lib token w

/-- `jwtService.GetAccessExpiry`. -/
def jwtService.GetAccessExpiry (s : jwtService) : Int := s.accessExpiry

/-- `jwtService.GetRefreshExpiry`. -/
def jwtService.GetRefreshExpiry (s : jwtService) : Int := s.refreshExpiry

/-! ## `internal/models/user.go`, `internal/utils/crypto.go` -/

/-- The struct `models.User` (timestamps left out). -/
structure User where
  ID : String
  Email : String
  Password : String
  Active : Bool
  deriving DecidableEq

/-- The struct `models.TokenPair`. -/
structure TokenPair where
  AccessToken : String
  RefreshToken : String
  deriving DecidableEq

/-- The libraries outside the repository: the text layer of the jwt library and
`bcrypt.CompareHashAndPassword(hash, password) == nil`. -/
structure Deps where
  jwt : JWTCodec
  bcryptCompare : (hash password : String) → Bool

/-- `utils.VerifyPassword`. -/
def VerifyPassword (d : Deps) (password hash : String) : Bool :=
  d.bcryptCompare hash password

/-! ## `internal/services/auth_service.go` -/

/-- The struct `authService`. Its `userRepo` is the interface `repositories.UserRepository`,
of which `Login` uses `FindByEmail`; its `redisService` is the `RedisClient` that `main`
passes to `NewAuthService`. -/
structure authService where
  FindByEmail : String → Except Error (Option User)
  jwtService : jwtService

/-- What a Go call does: it returns a value, or it panics. -/
inductive Go (α : Type)
  | ret (a : α)
  | panic
  deriving DecidableEq

/-- `authService.Login`. -/
def authService.Login (d : Deps) (s : authService) (email password : String) (w : World) :
    Except Error TokenPair × World :=
  match s.FindByEmail email with
  | .error err => (.error err, w)
  | .ok none => (.error (.New "invalid credentials"), w)
  | .ok (some user) =>
    if ¬ VerifyPassword d password user.Password then
      (.error (.New "invalid credentials"), w)
    else
      match s.jwtService.GenerateAccessToken d.jwt user.ID w with
      | (.error err, w1) => (.error err, w1)
      | (.ok accessToken, w1) =>
        match s.jwtService.GenerateRefreshToken d.jwt user.ID w1 with
        | (.error err, w2) => (.error err, w2)
        | (.ok refreshToken, w2) =>
          match RedisClient.StoreRefreshToken user.ID refreshToken
              s.jwtService.GetRefreshExpiry w2 with
          | (some err, w3) => (.error err, w3)
          | (none, w3) =>
            (.ok { AccessToken := accessToken, RefreshToken := refreshToken }, w3)

/-- The type assertion `claims[key].(string)`: the value and whether the assertion holds. -/
def claimString (claims : MapClaims) (key : String) : String × Bool :=
  match claims.lookup key with
  | some (.str v) => (v, true)
  | _ => ("", false)

/-- `authService.RefreshToken`. -/
def authService.RefreshToken (d : Deps) (s : authService) (refreshToken : String)
    (w : World) : Except Error TokenPair × World :=
  match s.jwtService.ValidateRefreshToken d.jwt refreshToken w with
  | (.error err, w1) => (.error (.Errorf "invalid refresh token" err), w1)
  | (.ok claims, w1) =>
    let (userID, ok) := claimString claims "sub"
    if ¬ ok ∨ userID = "" then
      (.error (.New "invalid user ID in token claims"), w1)
    else
      match RedisClient.GetRefreshToken userID w1 with
      | (.error err, w2) =>
        if err.IsRedisNil then (.error (.New "refresh token not found or expired"), w2)
        else (.error (.Errorf "failed to verify refresh token" err), w2)
      | (.ok storedToken, w2) =>
        if storedToken ≠ refreshToken then
          let (_, w3) := RedisClient.DeleteRefreshToken userID w2
          (.error (.New "refresh token mismatch - possible token reuse"), w3)
        else
          match s.jwtService.GenerateAccessToken d.jwt userID w2 with
          | (.error err, w3) => (.error (.Errorf "failed to generate access token" err), w3)
          | (.ok newAccessToken, w3) =>
            match s.jwtService.GenerateRefreshToken d.jwt userID w3 with
            | (.error err, w4) =>
              (.error (.Errorf "failed to generate refresh token" err), w4)
            | (.ok newRefreshToken, w4) =>
              match RedisClient.StoreRefreshToken userID newRefreshToken
                  s.jwtService.GetRefreshExpiry w4 with
              | (some err, w5) =>
                (.error (.Errorf "failed to store refresh token" err), w5)
              | (none, w5) =>
                let (_, w6) := RedisClient.BlacklistToken refreshToken
                  s.jwtService.GetRefreshExpiry w5
                (.ok { AccessToken := newAccessToken, RefreshToken := newRefreshToken }, w6)

/-- `authService.Logout`. -/
def authService.Logout (s : authService) (userID accessToken : String) (w : World) :
    Option Error × World :=
  match RedisClient.BlacklistToken accessToken s.jwtService.GetAccessExpiry w with
  | (some err, w1) => (some err, w1)
  | (none, w1) => RedisClient.DeleteRefreshToken userID w1

/-- `authService.VerifyToken`: the user ID, or the error (returned with an empty user ID);
the unchecked type assertion on `claims["sub"]` panics when the claim is not a string. -/
def authService.VerifyToken (d : Deps) (s : authService) (token : String) (w : World) :
    Go (Except Error String) × World :=
  match RedisClient.IsTokenBlacklisted token w with
  | ((_, some err), w1) => (.ret (.error err), w1)
  | ((blacklisted, none), w1) =>
    if blacklisted then (.ret (.error (.New "token is invalidated")), w1)
    else
      match s.jwtService.ValidateAccessToken d.jwt token w1 with
      | (.error err, w2) => (.ret (.error err), w2)
      | (.ok claims, w2) =>
        match claimString claims "sub" with
        | (userID, true) => (.ret (.ok userID), w2)
        | (_, false) => (.panic, w2)

/-! ## Concurrent calls of `RefreshToken` -/

/-- The program points of a call of `RefreshToken`, one before each of its calls on the token
service and on the store, with the local variables that are live there. -/
inductive RefreshPoint
  /-- At entry: `ValidateRefreshToken` and the subject check come next. -/
  | validate
  /-- `GetRefreshToken(userID)` and the comparison with the presented token come next. -/
  | get (userID : String)
  /-- After a mismatch: `DeleteRefreshToken(userID)` comes next. -/
  | delete (userID : String)
  /-- After a match: `GenerateAccessToken(userID)` comes next. -/
  | generateAccess (userID : String)
  /-- `GenerateRefreshToken(userID)` comes next. -/
  | generateRefresh (userID newAccessToken : String)
  /-- `StoreRefreshToken(userID, newRefreshToken, ...)` comes next. -/
  | store (userID newAccessToken newRefreshToken : String)
  /-- `BlacklistToken(refreshToken, ...)` comes next. -/
  | blacklist (newAccessToken newRefreshToken : String)
  /-- The call has returned. -/
  | done (result : Except Error TokenPair)

/-- One step of a call of `RefreshToken(refreshToken)`: from a program point, the next call on
the token service or on the store, executed atomically, and the local code up to the next
program point. A call that has returned stays where it is. -/
def authService.refreshStep (d : Deps) (s : authService) (refreshToken : String) :
    RefreshPoint → World → RefreshPoint × World
  | .validate, w =>
    match s.jwtService.ValidateRefreshToken d.jwt refreshToken w with
    | (.error err, w1) => (.done (.error (.Errorf "invalid refresh token" err)), w1)
    | (.ok claims, w1) =>
      let (userID, ok) := claimString claims "sub"
      if ¬ ok ∨ userID = "" then
        (.done (.error (.New "invalid user ID in token claims")), w1)
      else (.get userID, w1)
  | .get userID, w1 =>
    match RedisClient.GetRefreshToken userID w1 with
    | (.error err, w2) =>
      if err.IsRedisNil then (.done (.error (.New "refresh token not found or expired")), w2)
      else (.done (.error (.Errorf "failed to verify refresh token" err)), w2)
    | (.ok storedToken, w2) =>
      if storedToken ≠ refreshToken then (.delete userID, w2)
      else (.generateAccess userID, w2)
  | .delete userID, w2 =>
    let (_, w3) := RedisClient.DeleteRefreshToken userID w2
    (.done (.error (.New "refresh token mismatch - possible token reuse")), w3)
  | .generateAccess userID, w2 =>
    match s.jwtService.GenerateAccessToken d.jwt userID w2 with
    | (.error err, w3) => (.done (.error (.Errorf "failed to generate access token" err)), w3)
    | (.ok newAccessToken, w3) => (.generateRefresh userID newAccessToken, w3)
  | .generateRefresh userID newAccessToken, w3 =>
    match s.jwtService.GenerateRefreshToken d.jwt userID w3 with
    | (.error err, w4) => (.done (.error (.Errorf "failed to generate refresh token" err)), w4)
    | (.ok newRefreshToken, w4) => (.store userID newAccessToken newRefreshToken, w4)
  | .store userID newAccessToken newRefreshToken, w4 =>
    match RedisClient.StoreRefreshToken userID newRefreshToken
        s.jwtService.GetRefreshExpiry w4 with
    | (some err, w5) => (.done (.error (.Errorf "failed to store refresh token" err)), w5)
    | (none, w5) => (.blacklist newAccessToken newRefreshToken, w5)
  | .blacklist newAccessToken newRefreshToken, w5 =>
    let (_, w6) := RedisClient.BlacklistToken refreshToken s.jwtService.GetRefreshExpiry w5
    (.done (.ok { AccessToken := newAccessToken, RefreshToken := newRefreshToken }), w6)
  | .done result, w => (.done result, w)

/-- Two calls of `RefreshToken` in flight: the program point of each, and the world they
share. -/
structure Concurrent where
  first : RefreshPoint
  second : RefreshPoint
  world : World

/-- Two concurrent calls of `RefreshToken(refreshToken)` under a schedule: each entry of the
schedule lets the first call (`true`) or the second call (`false`) take its next step. -/
def authService.interleave (d : Deps) (s : authService) (refreshToken : String) :
    List Bool → Concurrent → Concurrent
  | [], c => c
  | true :: schedule, c =>
    let (p, w) := s.refreshStep d refreshToken c.first c.world
    authService.interleave d s refreshToken schedule { c with first := p, world := w }
  | false :: schedule, c =>
    let (p, w) := s.refreshStep d refreshToken c.second c.world
    authService.interleave d s refreshToken schedule { c with second := p, world := w }

/-! ## `internal/api/middleware.go` -/

/-- The slice expression `s[low:]` on a Go string, whose length `len(s)` is its number of
bytes: the text from byte `low` on; it panics when `low` exceeds `len(s)`. (When byte `low`
falls inside a character of several bytes, the bytes Go returns are not a text; the empty
text stands for them.) -/
def sliceFrom (s : String) (low : Nat) : Go String :=
  if low ≤ s.utf8ByteSize then .ret (s.extract ⟨low⟩ s.endPos) else .panic

/-- The constant `fiber.StatusUnauthorized`. -/
def StatusUnauthorized : Nat := 401

/-- The constant `fiber.StatusInternalServerError`. -/
def StatusInternalServerError : Nat := 500

/-- What a handler does with the request. -/
inductive Response
  /-- The value of `c.Status(status).JSON(fiber.Map{"error": msg})`. -/
  | JSON (status : Nat) (msg : String)
  /-- The value of `c.Next()`, reached with the locals `userID` and `accessToken` set. -/
  | Next (userID accessToken : String)
  deriving DecidableEq

/-- The struct `Middleware`; its `redisService` is the `RedisClient` that `main` passes to
`NewMiddleware`. -/
structure Middleware where
  jwtService : jwtService

/-- `Middleware.AuthRequired`, on the value `c.Get("Authorization")` of the request. -/
def Middleware.AuthRequired (lib : JWTCodec) (m : Middleware) (authHeader : String)
    (w : World) : Go Response × World :=
  if authHeader = "" then
    (.ret (.JSON StatusUnauthorized "Authorization header missing"), w)
  else
    match sliceFrom authHeader 7 with
    | .panic => (.panic, w)
    | .ret token =>
      match RedisClient.IsTokenBlacklisted token w with
      | ((_, some _), w1) => (.ret (.JSON StatusInternalServerError "Internal server error"), w1)
      | ((blacklisted, none), w1) =>
        if blacklisted then (.ret (.JSON StatusUnauthorized "Token has been invalidated"), w1)
        else
          match m.jwtService.ValidateAccessToken lib token w1 with
          | (.error _, w2) => (.ret (.JSON StatusUnauthorized "Invalid token"), w2)
          | (.ok claims, w2) =>
            let (userID, ok) := claimString claims "sub"
            if ¬ ok then (.ret (.JSON StatusUnauthorized "Invalid token claims"), w2)
            else (.ret (.Next userID token), w2)

/-! ## A reference text layer

An instance of `JWTCodec` with a length-prefixed text format, used to show that the
assumption `JWTCodec.Lawful` can be met and to run the service on concrete inputs. -/

namespace Ref

/-- A natural number in unary, closed by a dot. -/
def encNat (n : Nat) : List Char := List.replicate n 'i' ++ ['.']

/-- Reading back a natural number written by `encNat`. -/
def decNat : List Char → Option (Nat × List Char)
  | [] => none
  | c :: r =>
    if c = '.' then some (0, r)
    else if c = 'i' then (decNat r).map (fun p => (p.1 + 1, p.2))
    else none

/-- An integer: its sign, then its absolute value. -/
def encInt (z : Int) : List Char := (if z < 0 then 'n' else 'p') :: encNat z.natAbs

/-- Reading back an integer written by `encInt`. -/
def decInt : List Char → Option (Int × List Char)
  | [] => none
  | c :: r =>
    if c = 'p' then (decNat r).map (fun p => ((p.1 : Int), p.2))
    else if c = 'n' then (decNat r).map (fun p => (-(p.1 : Int), p.2))
    else none

/-- A string: its length, then its characters. -/
def encStr (s : String) : List Char := encNat s.length ++ s.data

/-- Reading back a string written by `encStr`. -/
def decStr (l : List Char) : Option (String × List Char) :=
  match decNat l with
  | none => none
  | some (n, r) => if n ≤ r.length then some (String.mk (r.take n), r.drop n) else none

/-- A claim value: a tag, then the value. -/
def encValue : ClaimValue → List Char
  | .str s => 's' :: encStr s
  | .num q => 'q' :: (encInt q.num ++ encNat q.den)
  | .other => ['o']

/-- Reading back a claim value written by `encValue`. -/
def decValue : List Char → Option (ClaimValue × List Char)
  | [] => none
  | c :: r =>
    if c = 's' then (decStr r).map (fun p => (.str p.1, p.2))
    else if c = 'q' then
      match decInt r with
      | none => none
      | some (n, r1) => (decNat r1).map (fun p => (.num (mkRat n p.1), p.2))
    else if c = 'o' then some (.other, r)
    else none

/-- The entries of a claims map, one after the other. -/
def encEntries : MapClaims → List Char
  | [] => []
  | (k, v) :: m => encStr k ++ encValue v ++ encEntries m

/-- Reading back the given number of entries written by `encEntries`. -/
def decEntries : Nat → List Char → Option (MapClaims × List Char)
  | 0, l => some ([], l)
  | n + 1, l =>
    match decStr l with
    | none => none
    | some (k, r1) =>
      match decValue r1 with
      | none => none
      | some (v, r2) => (decEntries n r2).map (fun p => ((k, v) :: p.1, p.2))

/-- A claims map: the number of its entries, then the entries. -/
def encClaims (m : MapClaims) : List Char := encNat m.length ++ encEntries m

/-- Reading back a claims map written by `encClaims`. -/
def decClaims (l : List Char) : Option (MapClaims × List Char) :=
  match decNat l with
  | none => none
  | some (n, r) => decEntries n r

/-- Decoding of a token text of the reference format. -/
def decodeChars (l : List Char) : Option Compact :=
  match decStr l with
  | none => none
  | some (alg, r1) =>
    match decClaims r1 with
    | none => none
    | some (claims, r2) =>
      match r2 with
      | [] => none
      | c :: sig =>
        if c = '.' then
          some { alg := some alg, claims := claims,
                 signingInput := String.mk (encStr alg ++ encClaims claims),
                 signature := String.mk sig }
        else none

/-- The reference text layer. -/
def codec : JWTCodec where
  SigningString := fun alg claims => String.mk (encStr alg ++ encClaims claims)
  hmac := fun alg signingString key => alg ++ "/" ++ key ++ "/" ++ signingString
  EncodeSegment := fun b => b
  DecodeSegment := fun seg => some seg
  decode := fun t => decodeChars t.data

/-- The reference libraries: a stored hash verifies the password equal to it. -/
def deps : Deps where
  jwt := codec
  bcryptCompare := fun hash password => decide (hash = password)

end Ref

/-! ## Vocabulary of the statements -/

/-- The text of the token minted with HS256 under `key` for the claims `sub`, `exp`, `iat`. -/
def mint (lib : JWTCodec) (key sub : String) (exp iat : Int) : String :=
  lib.SigningString "HS256" (mintedClaims sub exp iat) ++ "." ++
    lib.EncodeSegment (lib.hmac "HS256" (lib.SigningString "HS256" (mintedClaims sub exp iat)) key)

/-- The world `w` as a single Redis command sees it that is issued `d` nanoseconds after the
last clock reading and does not fail. -/
def later (w : World) (d : Nat) : World :=
  { w with ticks := [d], faults := [] }

/-- The last instant the clock schedule of `w` reaches. -/
def horizon (w : World) : Int := w.now + (w.ticks.sum : Nat)

/-- Whether the next Redis command issued in `w` fails. -/
def fails (w : World) : Bool := (nextFault w).1

/-- A step from `w` to `w'` of a call: the clock does not go back and stays on the schedule
of `w`. -/
structure Step (w w' : World) : Prop where
  now_le : w.now ≤ w'.now
  le_horizon : w'.now ≤ horizon w
  horizon_eq : horizon w' = horizon w

/-- The state in which the session of `u` holds the refresh token `r`, all clock readings
still to come fall into the second `σ`, and Redis does not fail. -/
structure SameSecond (w : World) (u r : String) (σ : Int) : Prop where
  faults : w.faults = []
  low : σ * Second ≤ w.now
  high : horizon w < (σ + 1) * Second
  session : ∃ dl, (σ + 1) * Second ≤ dl ∧
    w.keys ("refresh:" ++ u) = some { value := r, expireAt := some dl }

/-- The setting of the concurrent calls: the presented token `r0` was minted under the secret
of the service for the subject `u` with expiry `exp`; the clock stays between `lo` and `hi`;
`r0` does not expire by `hi`, and the refresh lifetime is longer than the run. -/
structure Refreshing (d : Deps) (s : authService) (u r0 : String) (exp lo hi : Int) : Prop where
  lawful : d.jwt.Lawful
  subject : u ≠ ""
  minted : ∃ iat, r0 = mint d.jwt s.jwtService.secret u exp iat
  unexpired : exp = 0 ∨ hi < exp * Second
  lifetime : hi < lo + s.jwtService.refreshExpiry

/-- A world of the run: Redis does not fail, and the clock is past `lo` on a schedule that
ends at `hi`. -/
structure Running (lo hi : Int) (w : World) : Prop where
  faults : w.faults = []
  now_ge : lo ≤ w.now
  horizon_eq : horizon w = hi

/-- The session record of `u` holds `v`, with no deadline or a deadline after `hi`. -/
def Holds (hi : Int) (w : World) (u v : String) : Prop :=
  ∃ dl, w.keys ("refresh:" ++ u) = some { value := v, expireAt := dl } ∧
    ∀ x, dl = some x → hi < x

/-- The call has not read the session record of `u` yet. -/
def RefreshPoint.before (u : String) : RefreshPoint → Prop
  | .validate => True
  | .get v => v = u
  | _ => False

/-- The call has found the presented token in the session record of `u` and has not stored
its new token yet. -/
def RefreshPoint.matched (u : String) : RefreshPoint → Prop
  | .generateAccess v => v = u
  | .generateRefresh v _ => v = u
  | .store v _ _ => v = u
  | _ => False

/-- The call has stored its new refresh token `r`; it returns, or has returned, its pair. -/
def RefreshPoint.stored (r : String) : RefreshPoint → Prop
  | .blacklist _ r1 => r1 = r
  | .done (.ok pair) => pair.RefreshToken = r
  | _ => False

/-- The call has found another token in the session record of `u` and deletes the record
next. -/
def RefreshPoint.mismatched (u : String) : RefreshPoint → Prop
  | .delete v => v = u
  | _ => False

/-- The call has returned the mismatch error. -/
def RefreshPoint.failed : RefreshPoint → Prop
  | .done (.error e) => e = .New "refresh token mismatch - possible token reuse"
  | _ => False

/-- The call is under way or has returned a pair. -/
def RefreshPoint.alive (u : String) (p : RefreshPoint) : Prop :=
  p.before u ∨ p.matched u ∨ p.mismatched u ∨ ∃ r, p.stored r

/-- The number of steps a call has left at most. -/
def RefreshPoint.rank : RefreshPoint → Nat
  | .validate => 6
  | .get _ => 5
  | .generateAccess _ => 4
  | .generateRefresh _ _ => 3
  | .store _ _ _ => 2
  | .blacklist _ _ => 1
  | .delete _ => 1
  | .done _ => 0

/-- The invariant of two concurrent calls presenting `r0`: either no call has stored yet and
the session record holds `r0`; or the record holds the token of a call that has stored, and
the other call is under way or has returned a pair; or the record is absent, one call has
stored and the other has returned the mismatch error. -/
def Concurrent.Inv (lo hi : Int) (u r0 : String) (c : Concurrent) : Prop :=
  Running lo hi c.world ∧
  (((c.first.before u ∨ c.first.matched u) ∧ (c.second.before u ∨ c.second.matched u) ∧
      Holds hi c.world u r0) ∨
    (∃ v, Holds hi c.world u v ∧
      ((c.first.stored v ∧ c.second.alive u) ∨ (c.second.stored v ∧ c.first.alive u))) ∨
    (c.world.keys ("refresh:" ++ u) = none ∧
      (((∃ v, c.first.stored v) ∧ c.second.failed) ∨
        ((∃ v, c.second.stored v) ∧ c.first.failed))))

/-! ## Concrete inputs -/

namespace Demo

/-- One millisecond, in nanoseconds. -/
def ms : Nat := 1000000

/-- A registered user. -/
def ann : User := { ID := "u1", Email := "ann@example.org", Password := "pw-ann", Active := true }

/-- A service with the default lifetimes of `config.LoadConfig` (15 minutes, 168 hours) whose
user repository holds `ann`. -/
def svc : authService where
  FindByEmail := fun email => if email = "ann@example.org" then .ok (some ann) else .ok none
  jwtService := { secret := "k", accessExpiry := 900 * Second, refreshExpiry := 604800 * Second }

/-- An empty store at 2023-11-14 22:13:20 UTC, Redis reachable, the clock advancing by one
millisecond between consecutive readings. -/
def w0 : World where
  now := 1700000000 * Second
  ticks := [ms, ms, ms, ms, ms, ms, ms, ms, ms, ms, ms, ms, ms, ms, ms, ms, ms, ms, ms, ms, ms, ms,
    ms, ms]
  faults := []
  keys := fun _ => none
  log := []

/-- The token pair `Login` returns to `ann` in `w0`. -/
def pair0 : TokenPair where
  AccessToken := mint Ref.codec "k" "u1" 1700000900 1700000000
  RefreshToken := mint Ref.codec "k" "u1" 1700604800 1700000000

/-- The world after the login of `ann` in `w0`. -/
def afterLogin : World := (svc.Login Ref.deps "ann@example.org" "pw-ann" w0).2

/-- The world after `RefreshToken` has validated `pair0.RefreshToken` in `afterLogin`: the
validation has read the clock once. -/
def afterValidate : World := (timeNow afterLogin).2

/-- The world after `RefreshToken` has then read the session of `ann`. -/
def afterGet : World := (RedisClient.GetRefreshToken "u1" afterValidate).2

/-- The world after `RefreshToken` has then minted the access token. -/
def afterAccess : World := (svc.jwtService.GenerateAccessToken Ref.deps.jwt "u1" afterGet).2

/-- The world after `RefreshToken` has then minted the refresh token. -/
def afterRefresh : World := (svc.jwtService.GenerateRefreshToken Ref.deps.jwt "u1" afterAccess).2

/-- The world after `RefreshToken` has then stored the refresh token. -/
def afterStore : World :=
  (RedisClient.StoreRefreshToken "u1" pair0.RefreshToken svc.jwtService.GetRefreshExpiry afterRefresh).2

/-- The refresh token of a rotation 50 seconds after the login in `w0`. -/
def rotated : String := mint Ref.codec "k" "u1" 1700604850 1700000050

/-- The store 100 seconds after the login in `w0`: the session of `ann` holds `rotated`;
`faults` gives the outcomes of the coming Redis commands. -/
def stale (faults : List Bool) : World where
  now := 1700000100 * Second
  ticks := [ms, ms, ms]
  faults := faults
  keys := fun k =>
    if k = "refresh:u1" then some { value := rotated, expireAt := some (1700604850 * Second) }
    else none
  log := []

/-- An unsigned token: header `alg` is `none`, the claims name `u1`, the signature segment
is empty. -/
def noneToken : String :=
  Ref.codec.SigningString "none" (mintedClaims "u1" 1700604800 1700000000) ++ "." ++ ""

/-- A token service whose two lifetimes are equal. -/
def svcEq : jwtService := { secret := "k", accessExpiry := 900 * Second, refreshExpiry := 900 * Second }

/-- A clock one millisecond before the second 1700000000 that advances by half a millisecond
and then by one millisecond. -/
def wEdge : World where
  now := 1699999999 * Second + 999 * ms
  ticks := [500000, ms]
  faults := []
  keys := fun _ => none
  log := []

/-- A clock standing at half past the second 1700000899. -/
def wLate : World where
  now := 1700000899 * Second + 500 * ms
  ticks := []
  faults := []
  keys := fun _ => none
  log := []

/-- The text of the token signed with HS256 under the secret of `svc` over the given claims. -/
def signed (claims : MapClaims) : String :=
  Ref.codec.SigningString "HS256" claims ++ "." ++
    Ref.codec.EncodeSegment
      (Ref.codec.hmac "HS256" (Ref.codec.SigningString "HS256" claims) "k")

/-- Claims with an expiry and no subject. -/
def noSubClaims : MapClaims := [("exp", .num 1700604800), ("iat", .num 1700000000)]

/-- Claims whose subject is a number. -/
def numSubClaims : MapClaims :=
  [("sub", .num 42), ("exp", .num 1700604800), ("iat", .num 1700000000)]

/-- The store after `BlacklistToken("tok", 1 s)` in `w0`. -/
def once : World := (RedisClient.BlacklistToken "tok" Second w0).2

/-- The store after a second `BlacklistToken("tok", 1 s)`, one millisecond later. -/
def twice : World := (RedisClient.BlacklistToken "tok" Second once).2

/-- The store 100 seconds after the login in `w0`: the session of `ann` still holds the
refresh token of the login, Redis is reachable, the clock advances by one millisecond between
consecutive readings. -/
def racing : World where
  now := 1700000100 * Second
  ticks := List.replicate 16 ms
  faults := []
  keys := fun k =>
    if k = "refresh:u1" then
      some { value := pair0.RefreshToken, expireAt := some (1700604800 * Second) }
    else none
  log := []

/-- The schedule on which both calls read the session record before either stores. -/
def readFirst : List Bool :=
  [true, true, false, false, true, true, true, true, false, false, false, false]

/-- The schedule on which the first call returns before the second starts. -/
def oneByOne : List Bool :=
  [true, true, true, true, true, true, false, false, false, false, false, false]

/-- The schedule on which the calls take turns. -/
def inTurn : List Bool :=
  [true, false, true, false, true, false, true, false, true, false, true, false]

end Demo

/-! ## Lemmas on the reference text layer -/

namespace Ref

theorem decNat_encNat (n : Nat) (r : List Char) : decNat (encNat n ++ r) = some (n, r) := by
  induction n with
  | zero => simp [encNat, decNat]
  | succ n ih =>
    have h : encNat (n + 1) ++ r = 'i' :: (encNat n ++ r) := by
      simp [encNat, List.replicate_succ]
    rw [h]
    simp [decNat, ih]

theorem decInt_encInt (z : Int) (r : List Char) : decInt (encInt z ++ r) = some (z, r) := by
  by_cases hz : z < 0
  · simp [encInt, hz, decInt, decNat_encNat]
    rw [abs_of_neg hz]; omega
  · simp [encInt, hz, decInt, decNat_encNat]
    exact le_of_not_lt hz

theorem decStr_encStr (s : String) (r : List Char) : decStr (encStr s ++ r) = some (s, r) := by
  have h : encStr s ++ r = encNat s.length ++ (s.data ++ r) := by
    simp [encStr, List.append_assoc]
  unfold decStr
  rw [h, decNat_encNat]
  have hl : s.length = s.data.length := rfl
  rw [hl]
  simp

theorem decValue_encValue (v : ClaimValue) (r : List Char) :
    decValue (encValue v ++ r) = some (v, r) := by
  cases v with
  | str s => simp [encValue, decValue, decStr_encStr]
  | num q => simp [encValue, decValue, decInt_encInt, decNat_encNat, Rat.mkRat_self]
  | other => simp [encValue, decValue]

theorem decEntries_encEntries (m : MapClaims) (r : List Char) :
    decEntries m.length (encEntries m ++ r) = some (m, r) := by
  induction m with
  | nil => simp [encEntries, decEntries]
  | cons e m ih =>
    obtain ⟨k, v⟩ := e
    simp [encEntries, decEntries, decStr_encStr, decValue_encValue, ih]

theorem decClaims_encClaims (m : MapClaims) (r : List Char) :
    decClaims (encClaims m ++ r) = some (m, r) := by
  simp [encClaims, decClaims, decNat_encNat, decEntries_encEntries]

theorem decodeChars_enc (alg : String) (claims : MapClaims) (sig : List Char) :
    decodeChars (encStr alg ++ encClaims claims ++ '.' :: sig)
      = some { alg := some alg, claims := claims,
               signingInput := String.mk (encStr alg ++ encClaims claims),
               signature := String.mk sig } := by
  simp only [decodeChars, List.append_assoc, decStr_encStr, decClaims_encClaims]
  rfl

/-- The reference text layer meets the assumption `JWTCodec.Lawful`. -/
theorem codec_lawful : codec.Lawful := by
  constructor
  · intro sub exp iat sig
    simp only [codec, decodeChars, String.data_append, List.append_assoc,
      decStr_encStr, decClaims_encClaims]
    rfl
  · intro b
    rfl

end Ref

/-! ## Lemmas on keys and arithmetic -/

theorem refresh_key_ne_blacklist_key (a b : String) : "refresh:" ++ a ≠ "blacklist:" ++ b := by
  intro h
  have h1 := congrArg String.data h
  simp [String.data_append] at h1

theorem refresh_key_inj {a b : String} : "refresh:" ++ a = "refresh:" ++ b ↔ a = b := by
  constructor
  · intro h
    have h1 := congrArg String.data h
    simp [String.data_append] at h1
    exact String.ext h1
  · intro h; rw [h]

theorem Unix_add_seconds (t n : Int) : Unix (t + n * Second) = Unix t + n := by
  unfold Unix Second
  exact Int.add_mul_ediv_right t n (by decide)

/-! ## Lemmas on the clock and the Redis commands -/

section primitives

variable (w : World) (c : Call)

@[simp] theorem timeNow_keys : (timeNow w).2.keys = w.keys := by
  unfold timeNow; split <;> rfl

@[simp] theorem timeNow_faults : (timeNow w).2.faults = w.faults := by
  unfold timeNow; split <;> rfl

@[simp] theorem timeNow_log : (timeNow w).2.log = w.log := by
  unfold timeNow; split <;> rfl

@[simp] theorem timeNow_now : (timeNow w).2.now = (timeNow w).1 := by
  unfold timeNow; split <;> rfl

theorem timeNow_ge : w.now ≤ (timeNow w).1 := by
  unfold timeNow; split <;> simp

@[simp] theorem timeNow_horizon : horizon (timeNow w).2 = horizon w := by
  unfold timeNow horizon
  split
  · rfl
  · rename_i d ds h
    simp only [h, List.sum_cons]
    push_cast
    ring

@[simp] theorem timeNow_ticks : (timeNow w).2.ticks = w.ticks.tail := by
  unfold timeNow; split <;> simp_all

theorem horizon_congr {w1 w2 : World} (h1 : w1.now = w2.now) (h2 : w1.ticks = w2.ticks) :
    horizon w1 = horizon w2 := by
  unfold horizon
  rw [h1, h2]

theorem now_le_horizon : w.now ≤ horizon w := by
  unfold horizon
  omega

@[simp] theorem timeNow_later (d : Nat) : timeNow (later w d) =
    (w.now + d, { w with now := w.now + d, ticks := [], faults := [] }) := rfl

@[simp] theorem fails_later (d : Nat) : fails (later w d) = false := rfl

@[simp] theorem later_keys (d : Nat) : (later w d).keys = w.keys := rfl

theorem fails_congr {w1 w2 : World} (h : w1.faults = w2.faults) : fails w1 = fails w2 := by
  unfold fails nextFault
  rw [h]
  cases w2.faults <;> rfl

@[simp] theorem fails_timeNow : fails (timeNow w).2 = fails w :=
  fails_congr (timeNow_faults w)

@[simp] theorem fails_record : fails (record c w) = fails w :=
  fails_congr rfl

theorem fails_of_faults_nil (h : w.faults = []) : fails w = false := by
  unfold fails nextFault
  rw [h]

end primitives

section redisSET_lemmas

variable (key value : String) (expiration : Int) (w : World)

theorem redisSET_fst : (redisSET key value expiration w).1 = if fails w then some .RedisDown else none := by
  rcases w with ⟨now, ticks, faults, keys, log⟩
  rcases ticks with _ | ⟨d, ds⟩ <;> rcases faults with _ | ⟨f, fs⟩ <;>
    (try cases f) <;> simp [redisSET, timeNow, nextFault, record, fails]

@[simp] theorem redisSET_log : (redisSET key value expiration w).2.log = w.log ++ [.Set key value expiration] := by
  rcases w with ⟨now, ticks, faults, keys, log⟩
  rcases ticks with _ | ⟨d, ds⟩ <;> rcases faults with _ | ⟨f, fs⟩ <;>
    (try cases f) <;> simp [redisSET, timeNow, nextFault, record, fails]

@[simp] theorem redisSET_faults : (redisSET key value expiration w).2.faults = w.faults.tail := by
  rcases w with ⟨now, ticks, faults, keys, log⟩
  rcases ticks with _ | ⟨d, ds⟩ <;> rcases faults with _ | ⟨f, fs⟩ <;>
    (try cases f) <;> simp [redisSET, timeNow, nextFault, record, fails]

@[simp] theorem redisSET_now : (redisSET key value expiration w).2.now = (timeNow w).1 := by
  rcases w with ⟨now, ticks, faults, keys, log⟩
  rcases ticks with _ | ⟨d, ds⟩ <;> rcases faults with _ | ⟨f, fs⟩ <;>
    (try cases f) <;> simp [redisSET, timeNow, nextFault, record, fails]

@[simp] theorem redisSET_ticks : (redisSET key value expiration w).2.ticks = w.ticks.tail := by
  rcases w with ⟨now, ticks, faults, keys, log⟩
  rcases ticks with _ | ⟨d, ds⟩ <;> rcases faults with _ | ⟨f, fs⟩ <;>
    (try cases f) <;> simp [redisSET, timeNow, nextFault, record, fails]

@[simp] theorem redisSET_horizon : horizon (redisSET key value expiration w).2 = horizon w :=
  (horizon_congr (by simp) (by simp)).trans (timeNow_horizon w)

theorem redisSET_keys : (redisSET key value expiration w).2.keys = if fails w then w.keys
      else fun k =>
        if k = key then
          some { value := value, expireAt := setDeadline w.keys (timeNow w).1 key expiration }
        else w.keys k := by
  rcases w with ⟨now, ticks, faults, keys, log⟩
  rcases ticks with _ | ⟨d, ds⟩ <;> rcases faults with _ | ⟨f, fs⟩ <;>
    (try cases f) <;> simp [redisSET, timeNow, nextFault, record, fails]

end redisSET_lemmas

section redisGET_lemmas

variable (key : String) (w : World)

theorem redisGET_fst : (redisGET key w).1 = if fails w then .error .RedisDown
      else match liveAt w.keys (timeNow w).1 key with
        | none => .error .RedisNil
        | some e => .ok e.value := by
  rcases w with ⟨now, ticks, faults, keys, log⟩
  rcases ticks with _ | ⟨d, ds⟩ <;> rcases faults with _ | ⟨f, fs⟩ <;>
    (try cases f) <;> simp [redisGET, timeNow, nextFault, record, fails]

@[simp] theorem redisGET_log : (redisGET key w).2.log = w.log ++ [.Get key] := by
  rcases w with ⟨now, ticks, faults, keys, log⟩
  rcases ticks with _ | ⟨d, ds⟩ <;> rcases faults with _ | ⟨f, fs⟩ <;>
    (try cases f) <;> simp [redisGET, timeNow, nextFault, record, fails]

@[simp] theorem redisGET_faults : (redisGET key w).2.faults = w.faults.tail := by
  rcases w with ⟨now, ticks, faults, keys, log⟩
  rcases ticks with _ | ⟨d, ds⟩ <;> rcases faults with _ | ⟨f, fs⟩ <;>
    (try cases f) <;> simp [redisGET, timeNow, nextFault, record, fails]

@[simp] theorem redisGET_now : (redisGET key w).2.now = (timeNow w).1 := by
  rcases w with ⟨now, ticks, faults, keys, log⟩
  rcases ticks with _ | ⟨d, ds⟩ <;> rcases faults with _ | ⟨f, fs⟩ <;>
    (try cases f) <;> simp [redisGET, timeNow, nextFault, record, fails]

@[simp] theorem redisGET_ticks : (redisGET key w).2.ticks = w.ticks.tail := by
  rcases w with ⟨now, ticks, faults, keys, log⟩
  rcases ticks with _ | ⟨d, ds⟩ <;> rcases faults with _ | ⟨f, fs⟩ <;>
    (try cases f) <;> simp [redisGET, timeNow, nextFault, record, fails]

@[simp] theorem redisGET_horizon : horizon (redisGET key w).2 = horizon w :=
  (horizon_congr (by simp) (by simp)).trans (timeNow_horizon w)

theorem redisGET_keys : (redisGET key w).2.keys = w.keys := by
  rcases w with ⟨now, ticks, faults, keys, log⟩
  rcases ticks with _ | ⟨d, ds⟩ <;> rcases faults with _ | ⟨f, fs⟩ <;>
    (try cases f) <;> simp [redisGET, timeNow, nextFault, record, fails]

end redisGET_lemmas

section redisDEL_lemmas

variable (key : String) (w : World)

theorem redisDEL_fst : (redisDEL key w).1 = if fails w then some .RedisDown else none := by
  rcases w with ⟨now, ticks, faults, keys, log⟩
  rcases ticks with _ | ⟨d, ds⟩ <;> rcases faults with _ | ⟨f, fs⟩ <;>
    (try cases f) <;> simp [redisDEL, timeNow, nextFault, record, fails]

@[simp] theorem redisDEL_log : (redisDEL key w).2.log = w.log ++ [.Del key] := by
  rcases w with ⟨now, ticks, faults, keys, log⟩
  rcases ticks with _ | ⟨d, ds⟩ <;> rcases faults with _ | ⟨f, fs⟩ <;>
    (try cases f) <;> simp [redisDEL, timeNow, nextFault, record, fails]

@[simp] theorem redisDEL_faults : (redisDEL key w).2.faults = w.faults.tail := by
  rcases w with ⟨now, ticks, faults, keys, log⟩
  rcases ticks with _ | ⟨d, ds⟩ <;> rcases faults with _ | ⟨f, fs⟩ <;>
    (try cases f) <;> simp [redisDEL, timeNow, nextFault, record, fails]

@[simp] theorem redisDEL_now : (redisDEL key w).2.now = (timeNow w).1 := by
  rcases w with ⟨now, ticks, faults, keys, log⟩
  rcases ticks with _ | ⟨d, ds⟩ <;> rcases faults with _ | ⟨f, fs⟩ <;>
    (try cases f) <;> simp [redisDEL, timeNow, nextFault, record, fails]

@[simp] theorem redisDEL_ticks : (redisDEL key w).2.ticks = w.ticks.tail := by
  rcases w with ⟨now, ticks, faults, keys, log⟩
  rcases ticks with _ | ⟨d, ds⟩ <;> rcases faults with _ | ⟨f, fs⟩ <;>
    (try cases f) <;> simp [redisDEL, timeNow, nextFault, record, fails]

@[simp] theorem redisDEL_horizon : horizon (redisDEL key w).2 = horizon w :=
  (horizon_congr (by simp) (by simp)).trans (timeNow_horizon w)

theorem redisDEL_keys : (redisDEL key w).2.keys = if fails w then w.keys else fun k => if k = key then none else w.keys k := by
  rcases w with ⟨now, ticks, faults, keys, log⟩
  rcases ticks with _ | ⟨d, ds⟩ <;> rcases faults with _ | ⟨f, fs⟩ <;>
    (try cases f) <;> simp [redisDEL, timeNow, nextFault, record, fails]

end redisDEL_lemmas

section redisEXISTS_lemmas

variable (key : String) (w : World)

theorem redisEXISTS_fst : (redisEXISTS key w).1 =
    if fails w then ((0 : Int), some Error.RedisDown)
      else match liveAt w.keys (timeNow w).1 key with
        | none => ((0 : Int), (none : Option Error))
        | some _ => ((1 : Int), (none : Option Error)) := by
  rcases w with ⟨now, ticks, faults, keys, log⟩
  rcases ticks with _ | ⟨d, ds⟩ <;> rcases faults with _ | ⟨f, fs⟩ <;>
    (try cases f) <;> simp [redisEXISTS, timeNow, nextFault, record, fails]

@[simp] theorem redisEXISTS_log : (redisEXISTS key w).2.log = w.log ++ [.Exists key] := by
  rcases w with ⟨now, ticks, faults, keys, log⟩
  rcases ticks with _ | ⟨d, ds⟩ <;> rcases faults with _ | ⟨f, fs⟩ <;>
    (try cases f) <;> simp [redisEXISTS, timeNow, nextFault, record, fails]

@[simp] theorem redisEXISTS_faults : (redisEXISTS key w).2.faults = w.faults.tail := by
  rcases w with ⟨now, ticks, faults, keys, log⟩
  rcases ticks with _ | ⟨d, ds⟩ <;> rcases faults with _ | ⟨f, fs⟩ <;>
    (try cases f) <;> simp [redisEXISTS, timeNow, nextFault, record, fails]

@[simp] theorem redisEXISTS_now : (redisEXISTS key w).2.now = (timeNow w).1 := by
  rcases w with ⟨now, ticks, faults, keys, log⟩
  rcases ticks with _ | ⟨d, ds⟩ <;> rcases faults with _ | ⟨f, fs⟩ <;>
    (try cases f) <;> simp [redisEXISTS, timeNow, nextFault, record, fails]

@[simp] theorem redisEXISTS_ticks : (redisEXISTS key w).2.ticks = w.ticks.tail := by
  rcases w with ⟨now, ticks, faults, keys, log⟩
  rcases ticks with _ | ⟨d, ds⟩ <;> rcases faults with _ | ⟨f, fs⟩ <;>
    (try cases f) <;> simp [redisEXISTS, timeNow, nextFault, record, fails]

@[simp] theorem redisEXISTS_horizon : horizon (redisEXISTS key w).2 = horizon w :=
  (horizon_congr (by simp) (by simp)).trans (timeNow_horizon w)

theorem redisEXISTS_keys : (redisEXISTS key w).2.keys = w.keys := by
  rcases w with ⟨now, ticks, faults, keys, log⟩
  rcases ticks with _ | ⟨d, ds⟩ <;> rcases faults with _ | ⟨f, fs⟩ <;>
    (try cases f) <;> simp [redisEXISTS, timeNow, nextFault, record, fails]

end redisEXISTS_lemmas

/-! ## Lemmas on the token service -/

@[simp] theorem SignedString_mintedClaims (lib : JWTCodec) (key sub : String) (exp iat : Int) :
    SignedString lib SigningMethodHS256 (mintedClaims sub exp iat) key
      = .ok (mint lib key sub exp iat) := rfl

section GenerateAccessToken_lemmas

variable (lib : JWTCodec) (s : jwtService) (userID : String) (w : World)

theorem GenerateAccessToken_fst : ∃ t1 : Int, w.now ≤ t1 ∧ t1 ≤ (s.GenerateAccessToken lib userID w).2.now ∧
    (s.GenerateAccessToken lib userID w).1
      = .ok (mint lib s.secret userID (Unix (t1 + s.accessExpiry))
          (Unix (s.GenerateAccessToken lib userID w).2.now)) := by
  refine ⟨(timeNow (record (.GenerateAccessToken userID) w)).1, ?_, ?_, ?_⟩
  · exact timeNow_ge (record (.GenerateAccessToken userID) w)
  · simpa [jwtService.GenerateAccessToken] using
      timeNow_ge (timeNow (record (.GenerateAccessToken userID) w)).2
  · simp [jwtService.GenerateAccessToken]

theorem GenerateAccessToken_now_ge : w.now ≤ (s.GenerateAccessToken lib userID w).2.now :=
  le_trans (timeNow_ge (record (.GenerateAccessToken userID) w))
    (by simpa [jwtService.GenerateAccessToken] using
      timeNow_ge (timeNow (record (.GenerateAccessToken userID) w)).2)

@[simp] theorem GenerateAccessToken_keys : (s.GenerateAccessToken lib userID w).2.keys = w.keys := by
  simp [jwtService.GenerateAccessToken, record]

@[simp] theorem GenerateAccessToken_faults : (s.GenerateAccessToken lib userID w).2.faults = w.faults := by
  simp [jwtService.GenerateAccessToken, record]

@[simp] theorem GenerateAccessToken_log :
    (s.GenerateAccessToken lib userID w).2.log = w.log ++ [.GenerateAccessToken userID] := by
  simp [jwtService.GenerateAccessToken, record]

@[simp] theorem GenerateAccessToken_horizon : horizon (s.GenerateAccessToken lib userID w).2 = horizon w := by
  simp only [jwtService.GenerateAccessToken, timeNow_horizon]
  exact horizon_congr rfl rfl

@[simp] theorem GenerateAccessToken_fails : fails (s.GenerateAccessToken lib userID w).2 = fails w :=
  fails_congr (GenerateAccessToken_faults lib s userID w)

end GenerateAccessToken_lemmas

section GenerateRefreshToken_lemmas

variable (lib : JWTCodec) (s : jwtService) (userID : String) (w : World)

theorem GenerateRefreshToken_fst : ∃ t1 : Int, w.now ≤ t1 ∧ t1 ≤ (s.GenerateRefreshToken lib userID w).2.now ∧
    (s.GenerateRefreshToken lib userID w).1
      = .ok (mint lib s.secret userID (Unix (t1 + s.refreshExpiry))
          (Unix (s.GenerateRefreshToken lib userID w).2.now)) := by
  refine ⟨(timeNow (record (.GenerateRefreshToken userID) w)).1, ?_, ?_, ?_⟩
  · exact timeNow_ge (record (.GenerateRefreshToken userID) w)
  · simpa [jwtService.GenerateRefreshToken] using
      timeNow_ge (timeNow (record (.GenerateRefreshToken userID) w)).2
  · simp [jwtService.GenerateRefreshToken]

theorem GenerateRefreshToken_now_ge : w.now ≤ (s.GenerateRefreshToken lib userID w).2.now :=
  le_trans (timeNow_ge (record (.GenerateRefreshToken userID) w))
    (by simpa [jwtService.GenerateRefreshToken] using
      timeNow_ge (timeNow (record (.GenerateRefreshToken userID) w)).2)

@[simp] theorem GenerateRefreshToken_keys : (s.GenerateRefreshToken lib userID w).2.keys = w.keys := by
  simp [jwtService.GenerateRefreshToken, record]

@[simp] theorem GenerateRefreshToken_faults : (s.GenerateRefreshToken lib userID w).2.faults = w.faults := by
  simp [jwtService.GenerateRefreshToken, record]

@[simp] theorem GenerateRefreshToken_log :
    (s.GenerateRefreshToken lib userID w).2.log = w.log ++ [.GenerateRefreshToken userID] := by
  simp [jwtService.GenerateRefreshToken, record]

@[simp] theorem GenerateRefreshToken_horizon : horizon (s.GenerateRefreshToken lib userID w).2 = horizon w := by
  simp only [jwtService.GenerateRefreshToken, timeNow_horizon]
  exact horizon_congr rfl rfl

@[simp] theorem GenerateRefreshToken_fails : fails (s.GenerateRefreshToken lib userID w).2 = fails w :=
  fails_congr (GenerateRefreshToken_faults lib s userID w)

end GenerateRefreshToken_lemmas

section validateToken_lemmas

variable (lib : JWTCodec) (s : jwtService) (token : String) (w : World)

theorem Parse_world (keyFunc : Token → Except JwtErr String) :
    (Parse lib token keyFunc w).2 = w ∨ (Parse lib token keyFunc w).2 = (timeNow w).2 := by
  unfold Parse
  rcases lib.decode token with _ | c
  · exact Or.inl rfl
  · dsimp only
    rcases c.alg with _ | alg
    · exact Or.inl rfl
    · dsimp only
      rcases GetSigningMethod alg with _ | method
      · exact Or.inl rfl
      · dsimp only
        rcases lib.DecodeSegment c.signature with _ | sig
        · exact Or.inl rfl
        · dsimp only
          rcases keyFunc _ with err | key
          · exact Or.inl rfl
          · dsimp only
            rcases SigningMethod.Verify lib method c.signingInput sig key with _ | err
            · dsimp only
              rcases hv : Validate c.claims w with ⟨errs, w1⟩
              have hw : w1 = (timeNow w).2 := by
                have := congrArg Prod.snd hv
                simpa [Validate] using this.symm
              cases errs <;> exact Or.inr hw
            · exact Or.inl rfl

theorem validateToken_snd :
    (s.validateToken lib token w).2 = (Parse lib token s.keyFunc w).2 := by
  unfold jwtService.validateToken
  rcases Parse lib token s.keyFunc w with ⟨r, w1⟩
  cases r
  · rfl
  · simp only
    split <;> rfl

theorem validateToken_world :
    (s.validateToken lib token w).2 = w ∨ (s.validateToken lib token w).2 = (timeNow w).2 := by
  rw [validateToken_snd]
  exact Parse_world lib token w s.keyFunc

@[simp] theorem validateToken_keys : (s.validateToken lib token w).2.keys = w.keys := by
  rcases validateToken_world lib s token w with h | h <;> simp [h]

@[simp] theorem validateToken_faults : (s.validateToken lib token w).2.faults = w.faults := by
  rcases validateToken_world lib s token w with h | h <;> simp [h]

@[simp] theorem validateToken_log : (s.validateToken lib token w).2.log = w.log := by
  rcases validateToken_world lib s token w with h | h <;> simp [h]

@[simp] theorem validateToken_horizon : horizon (s.validateToken lib token w).2 = horizon w := by
  rcases validateToken_world lib s token w with h | h <;> simp [h]

theorem validateToken_now_ge : w.now ≤ (s.validateToken lib token w).2.now := by
  rcases validateToken_world lib s token w with h | h <;> rw [h]
  simpa using timeNow_ge w

@[simp] theorem validateToken_fails : fails (s.validateToken lib token w).2 = fails w :=
  fails_congr (validateToken_faults lib s token w)

end validateToken_lemmas

@[simp] theorem claimString_mintedClaims (sub : String) (exp iat : Int) :
    claimString (mintedClaims sub exp iat) "sub" = (sub, true) := by
  simp [claimString, mintedClaims, List.lookup]

theorem verifyExpiresAt_mintedClaims (sub : String) (exp iat : Int) (now : Int) :
    verifyExpiresAt (mintedClaims sub exp iat) now =
      if exp = 0 ∨ now < exp * Second then none else some .ErrTokenExpired := by
  have h1 : List.lookup "exp" (mintedClaims sub exp iat) = some (.num exp) := by
    simp [mintedClaims, List.lookup]
  unfold verifyExpiresAt parseNumericDate
  rw [h1]
  by_cases h0 : exp = 0
  · simp [h0]
  · simp [h0]

theorem verifyNotBefore_mintedClaims (sub : String) (exp iat : Int) (now : Int) :
    verifyNotBefore (mintedClaims sub exp iat) now = none := by
  have h1 : List.lookup "nbf" (mintedClaims sub exp iat) = none := by
    simp [mintedClaims, List.lookup]
  unfold verifyNotBefore parseNumericDate
  rw [h1]

/-- Validation of a token minted under the service's own secret: it is accepted with its
claims while the clock is before `exp` (or `exp` is zero), and rejected as expired otherwise. -/
theorem validateToken_mint (lib : JWTCodec) (hl : lib.Lawful) (s : jwtService)
    (sub : String) (exp iat : Int) (w : World) :
    s.validateToken lib (mint lib s.secret sub exp iat) w =
      (if exp = 0 ∨ (timeNow w).1 < exp * Second then .ok (mintedClaims sub exp iat)
       else .error (.Jwt [.ErrTokenInvalidClaims, .ErrTokenExpired]), (timeNow w).2) := by
  unfold jwtService.validateToken Parse mint
  rw [hl.decode_signed]
  have hm : GetSigningMethod "HS256" = some (.HMAC "HS256") := by decide
  simp only [hm, hl.decode_segment, jwtService.keyFunc, SigningMethod.Verify, if_true, Validate,
    verifyExpiresAt_mintedClaims, verifyNotBefore_mintedClaims]
  by_cases h : exp = 0 ∨ (timeNow w).1 < exp * Second
  · simp [h]
  · simp [h]

/-! ## Lemmas on the lifecycle manager -/

/-- Tokens minted for different claims are different texts. -/
theorem mint_inj (lib : JWTCodec) (hl : lib.Lawful) {key key' sub sub' : String}
    {exp exp' iat iat' : Int}
    (h : mint lib key sub exp iat = mint lib key' sub' exp' iat') :
    sub = sub' ∧ exp = exp' ∧ iat = iat' := by
  have h1 := congrArg lib.decode h
  unfold mint at h1
  rw [hl.decode_signed, hl.decode_signed] at h1
  simp only [Option.some.injEq, Compact.mk.injEq] at h1
  have hc := h1.2.1
  simp only [mintedClaims, List.cons.injEq, Prod.mk.injEq, ClaimValue.str.injEq,
    ClaimValue.num.injEq, Int.cast_inj, true_and, and_true] at hc
  exact hc

section refresh_lemmas

variable (d : Deps) (s : authService) (t : String) (w w1 w2 : World)
  (claims : MapClaims) (sub : String)

/-- The rotation path of `RefreshToken`, step by step. -/
theorem refreshToken_rotate (w3 w4 w5 : World) (a r : String)
    (hv : s.jwtService.ValidateRefreshToken d.jwt t w = (.ok claims, w1))
    (hsub : claimString claims "sub" = (sub, true)) (hne : sub ≠ "")
    (hg : RedisClient.GetRefreshToken sub w1 = (.ok t, w2))
    (ha : s.jwtService.GenerateAccessToken d.jwt sub w2 = (.ok a, w3))
    (hr : s.jwtService.GenerateRefreshToken d.jwt sub w3 = (.ok r, w4))
    (hs : RedisClient.StoreRefreshToken sub r s.jwtService.GetRefreshExpiry w4 = (none, w5)) :
    s.RefreshToken d t w =
      (.ok { AccessToken := a, RefreshToken := r },
        (RedisClient.BlacklistToken t s.jwtService.GetRefreshExpiry w5).2) := by
  unfold authService.RefreshToken
  simp only [hv, hsub, hne, hg, ha, hr, hs]
  simp

/-- The mismatch path of `RefreshToken`. -/
theorem refreshToken_mismatch (stored : String)
    (hv : s.jwtService.ValidateRefreshToken d.jwt t w = (.ok claims, w1))
    (hsub : claimString claims "sub" = (sub, true)) (hne : sub ≠ "")
    (hg : RedisClient.GetRefreshToken sub w1 = (.ok stored, w2))
    (hdiff : stored ≠ t) :
    s.RefreshToken d t w =
      (.error (.New "refresh token mismatch - possible token reuse"),
        (RedisClient.DeleteRefreshToken sub w2).2) := by
  unfold authService.RefreshToken
  simp only [hv, hsub, hne, hg]
  simp [hdiff]

/-- The path of `RefreshToken` on which the session record is not found. -/
theorem refreshToken_not_found
    (hv : s.jwtService.ValidateRefreshToken d.jwt t w = (.ok claims, w1))
    (hsub : claimString claims "sub" = (sub, true)) (hne : sub ≠ "")
    (hg : RedisClient.GetRefreshToken sub w1 = (.error .RedisNil, w2)) :
    s.RefreshToken d t w = (.error (.New "refresh token not found or expired"), w2) := by
  unfold authService.RefreshToken
  simp only [hv, hsub, hne, hg]
  simp [Error.IsRedisNil]

end refresh_lemmas

section login_lemmas

variable (d : Deps) (s : authService) (email password : String) (w : World)

/-- What a successful `Login` did: the user was found, the password verified, both tokens
were minted and the refresh token was stored. -/
theorem login_ok_inv (pair : TokenPair) (h : (s.Login d email password w).1 = .ok pair) :
    ∃ user, s.FindByEmail email = .ok (some user) ∧
      VerifyPassword d password user.Password = true ∧
      (s.jwtService.GenerateAccessToken d.jwt user.ID w).1 = .ok pair.AccessToken ∧
      (s.jwtService.GenerateRefreshToken d.jwt user.ID
        (s.jwtService.GenerateAccessToken d.jwt user.ID w).2).1 = .ok pair.RefreshToken ∧
      (RedisClient.StoreRefreshToken user.ID pair.RefreshToken s.jwtService.GetRefreshExpiry
        (s.jwtService.GenerateRefreshToken d.jwt user.ID
          (s.jwtService.GenerateAccessToken d.jwt user.ID w).2).2).1 = none ∧
      (s.Login d email password w).2 =
        (RedisClient.StoreRefreshToken user.ID pair.RefreshToken s.jwtService.GetRefreshExpiry
          (s.jwtService.GenerateRefreshToken d.jwt user.ID
            (s.jwtService.GenerateAccessToken d.jwt user.ID w).2).2).2 := by
  unfold authService.Login at h ⊢
  rcases hf : s.FindByEmail email with err | ou
  · simp [hf] at h
  · rcases ou with _ | user
    · simp [hf] at h
    · refine ⟨user, rfl, ?_⟩
      simp only [hf] at h ⊢
      by_cases hp : VerifyPassword d password user.Password = true
      · simp only [hp, not_true_eq_false, if_false] at h ⊢
        rcases hg1 : s.jwtService.GenerateAccessToken d.jwt user.ID w with ⟨r1, w1⟩
        simp only [hg1] at h ⊢
        rcases r1 with e1 | a
        · simp at h
        · simp only at h ⊢
          rcases hg2 : s.jwtService.GenerateRefreshToken d.jwt user.ID w1 with ⟨r2, w2⟩
          simp only [hg2] at h ⊢
          rcases r2 with e2 | r
          · simp at h
          · simp only at h ⊢
            rcases hst : RedisClient.StoreRefreshToken user.ID r
              s.jwtService.GetRefreshExpiry w2 with ⟨o, w3⟩
            simp only [hst] at h ⊢
            rcases o with _ | e3
            · simp only [Except.ok.injEq] at h
              subst h
              simp [hst]
            · simp at h
      · simp [hp] at h

/-- The success path of `Login`, step by step. -/
theorem login_steps (user : User) (w1 w2 w3 : World) (a r : String)
    (hf : s.FindByEmail email = .ok (some user))
    (hp : VerifyPassword d password user.Password = true)
    (ha : s.jwtService.GenerateAccessToken d.jwt user.ID w = (.ok a, w1))
    (hr : s.jwtService.GenerateRefreshToken d.jwt user.ID w1 = (.ok r, w2))
    (hs : RedisClient.StoreRefreshToken user.ID r s.jwtService.GetRefreshExpiry w2
      = (none, w3)) :
    s.Login d email password w = (.ok { AccessToken := a, RefreshToken := r }, w3) := by
  unfold authService.Login
  simp only [hf, hp, ha, hr, hs]
  simp

end login_lemmas

theorem setDeadline_live (keys : String → Option RedisEntry) (t : Int) (key : String)
    (expiration dl : Int) (h : setDeadline keys t key expiration = some dl) : t < dl := by
  unfold setDeadline at h
  by_cases h1 : expiration > 0
  · simp only [h1, if_true, Option.some.injEq] at h
    omega
  · simp only [h1, if_false] at h
    by_cases h2 : expiration = KeepTTL
    · simp only [h2, if_true] at h
      unfold liveAt at h
      rcases hk : keys key with _ | e
      · simp [hk] at h
      · simp only [hk] at h
        rcases he : e.expireAt with _ | dl'
        · simp [he] at h
        · simp only [he] at h
          by_cases hlt : t < dl'
          · simp only [hlt, if_true] at h
            rw [he] at h
            simp only [Option.some.injEq] at h
            omega
          · simp [hlt] at h
    · simp [h2] at h

/-- A key written by `SET` exists for a command executed at the same instant. -/
theorem liveAt_of_setDeadline (keys : String → Option RedisEntry) (t : Int) (key value : String)
    (expiration : Int) :
    liveAt (fun k => if k = key then
        some { value := value, expireAt := setDeadline keys t key expiration } else keys k) t key
      = some { value := value, expireAt := setDeadline keys t key expiration } := by
  unfold liveAt
  simp only [if_true]
  rcases hd : setDeadline keys t key expiration with _ | dl
  · rfl
  · have := setDeadline_live keys t key expiration dl hd
    simp [this]

/-- A key whose deadline has not been reached exists. -/
theorem liveAt_of_entry (keys : String → Option RedisEntry) (t : Int) (key : String)
    (e : RedisEntry) (hk : keys key = some e) (hl : ∀ dl, e.expireAt = some dl → t < dl) :
    liveAt keys t key = some e := by
  unfold liveAt
  rw [hk]
  rcases hd : e.expireAt with _ | dl
  · simp [hd]
  · have := hl dl hd
    simp [hd, this]

theorem getRefreshToken_later (userID : String) (w : World) (d : Nat) :
    (RedisClient.GetRefreshToken userID (later w d)).1 =
      match liveAt w.keys (w.now + d) ("refresh:" ++ userID) with
      | none => .error .RedisNil
      | some e => .ok e.value := by
  simp [RedisClient.GetRefreshToken, RedisClient.Get, redisGET_fst]

theorem redisSET_ok (key value : String) (expiration : Int) (w : World)
    (h : (redisSET key value expiration w).1 = none) : fails w = false := by
  rw [redisSET_fst] at h
  by_contra hc
  simp [hc] at h

theorem timeNow_le_horizon (w : World) : (timeNow w).1 ≤ horizon w := by
  have h := now_le_horizon (timeNow w).2
  simpa using h

theorem Unix_eq_of_bounds {t σ : Int} (h1 : σ * Second ≤ t) (h2 : t < (σ + 1) * Second) :
    Unix t = σ := by
  unfold Unix Second at *
  have hlow : σ ≤ t / 1000000000 := by
    rw [Int.le_ediv_iff_mul_le (by decide)]
    exact h1
  have hup : t / 1000000000 < σ + 1 := by
    rw [Int.ediv_lt_iff_lt_mul (by decide)]
    exact h2
  omega

/-! ## The steps of a call, one world at a time -/

theorem Step.of_now (w w' : World) (h1 : w.now ≤ w'.now) (h2 : horizon w' = horizon w) :
    Step w w' :=
  ⟨h1, h2 ▸ now_le_horizon w', h2⟩

theorem GenerateAccessToken_step (lib : JWTCodec) (s : jwtService) (u : String)
    (w w' : World) (r : Except Error String) (h : s.GenerateAccessToken lib u w = (r, w')) :
    Step w w' ∧ w'.keys = w.keys ∧ w'.faults = w.faults ∧
      w'.log = w.log ++ [.GenerateAccessToken u] ∧
      ∃ t1 : Int, w.now ≤ t1 ∧ t1 ≤ w'.now ∧
        r = .ok (mint lib s.secret u (Unix (t1 + s.accessExpiry)) (Unix w'.now)) := by
  have h1 : r = (s.GenerateAccessToken lib u w).1 := by rw [h]
  have h2 : w' = (s.GenerateAccessToken lib u w).2 := by rw [h]
  subst h1 h2
  exact ⟨Step.of_now _ _ (GenerateAccessToken_now_ge lib s u w) (by simp), by simp, by simp,
    by simp, GenerateAccessToken_fst lib s u w⟩

theorem GenerateRefreshToken_step (lib : JWTCodec) (s : jwtService) (u : String)
    (w w' : World) (r : Except Error String) (h : s.GenerateRefreshToken lib u w = (r, w')) :
    Step w w' ∧ w'.keys = w.keys ∧ w'.faults = w.faults ∧
      w'.log = w.log ++ [.GenerateRefreshToken u] ∧
      ∃ t1 : Int, w.now ≤ t1 ∧ t1 ≤ w'.now ∧
        r = .ok (mint lib s.secret u (Unix (t1 + s.refreshExpiry)) (Unix w'.now)) := by
  have h1 : r = (s.GenerateRefreshToken lib u w).1 := by rw [h]
  have h2 : w' = (s.GenerateRefreshToken lib u w).2 := by rw [h]
  subst h1 h2
  exact ⟨Step.of_now _ _ (GenerateRefreshToken_now_ge lib s u w) (by simp), by simp, by simp,
    by simp, GenerateRefreshToken_fst lib s u w⟩

theorem redisSET_step (key value : String) (expiration : Int) (w w' : World)
    (r : Option Error) (h : redisSET key value expiration w = (r, w')) :
    Step w w' ∧ w'.faults = w.faults.tail ∧ w'.log = w.log ++ [.Set key value expiration] ∧
      r = (if fails w then some .RedisDown else none) ∧
      w'.keys = (if fails w then w.keys
        else fun k =>
          if k = key then
            some { value := value, expireAt := setDeadline w.keys w'.now key expiration }
          else w.keys k) := by
  have h1 : r = (redisSET key value expiration w).1 := by rw [h]
  have h2 : w' = (redisSET key value expiration w).2 := by rw [h]
  subst h1 h2
  exact ⟨Step.of_now _ _ (by simpa using timeNow_ge w) (by simp), by simp, by simp,
    redisSET_fst _ _ _ _, by simpa using redisSET_keys key value expiration w⟩

theorem redisGET_step (key : String) (w w' : World)
    (r : Except Error String) (h : redisGET key w = (r, w')) :
    Step w w' ∧ w'.faults = w.faults.tail ∧ w'.log = w.log ++ [.Get key] ∧
      w'.keys = w.keys ∧
      r = (if fails w then .error .RedisDown
        else match liveAt w.keys w'.now key with
          | none => .error .RedisNil
          | some e => .ok e.value) := by
  have h1 : r = (redisGET key w).1 := by rw [h]
  have h2 : w' = (redisGET key w).2 := by rw [h]
  subst h1 h2
  exact ⟨Step.of_now _ _ (by simpa using timeNow_ge w) (by simp), by simp, by simp,
    redisGET_keys _ _, by simpa using redisGET_fst key w⟩

theorem redisDEL_step (key : String) (w w' : World)
    (r : Option Error) (h : redisDEL key w = (r, w')) :
    Step w w' ∧ w'.faults = w.faults.tail ∧ w'.log = w.log ++ [.Del key] ∧
      r = (if fails w then some .RedisDown else none) ∧
      w'.keys = (if fails w then w.keys else fun k => if k = key then none else w.keys k) := by
  have h1 : r = (redisDEL key w).1 := by rw [h]
  have h2 : w' = (redisDEL key w).2 := by rw [h]
  subst h1 h2
  exact ⟨Step.of_now _ _ (by simpa using timeNow_ge w) (by simp), by simp, by simp,
    redisDEL_fst _ _, redisDEL_keys key w⟩

theorem validateToken_mint_step (lib : JWTCodec) (hl : lib.Lawful) (s : jwtService)
    (sub : String) (exp iat : Int) (w : World)
    (hexp : horizon w < exp * Second) :
    s.validateToken lib (mint lib s.secret sub exp iat) w
        = (.ok (mintedClaims sub exp iat), (timeNow w).2) ∧
      Step w (timeNow w).2 := by
  refine ⟨?_, Step.of_now _ _ (by simpa using timeNow_ge w) (by simp)⟩
  rw [validateToken_mint lib hl]
  have := timeNow_le_horizon w
  have hlt : (timeNow w).1 < exp * Second := by omega
  simp [hlt]

/-! ## Rotation within one wall-clock second -/

section same_second

variable (d : Deps) (s : authService) (u : String) (n m σ : Int)

/-- Minting and storing within the second `σ`: the tokens carry `exp = σ + lifetime` and
`iat = σ`, and the session holds the refresh token. -/
theorem mint_and_store_same_second (hn : 0 < n) (hE : s.jwtService.refreshExpiry = n * Second)
    (hA : s.jwtService.accessExpiry = m * Second) (w : World) (hf : w.faults = [])
    (hlow : σ * Second ≤ w.now) (hhigh : horizon w < (σ + 1) * Second) :
    ∃ w3 w4 w5,
      s.jwtService.GenerateAccessToken d.jwt u w
        = (.ok (mint d.jwt s.jwtService.secret u (σ + m) σ), w3) ∧
      s.jwtService.GenerateRefreshToken d.jwt u w3
        = (.ok (mint d.jwt s.jwtService.secret u (σ + n) σ), w4) ∧
      RedisClient.StoreRefreshToken u (mint d.jwt s.jwtService.secret u (σ + n) σ)
        s.jwtService.GetRefreshExpiry w4 = (none, w5) ∧
      SameSecond w5 u (mint d.jwt s.jwtService.secret u (σ + n) σ) σ ∧
      ∀ k, k ≠ "refresh:" ++ u → w5.keys k = w.keys k := by
  have hsec : (0 : Int) < Second := by decide
  rcases hga : s.jwtService.GenerateAccessToken d.jwt u w with ⟨ra, w3⟩
  obtain ⟨st3, hk3, hf3, -, t1, h1a, h1b, h1c⟩ := GenerateAccessToken_step _ _ _ _ _ _ hga
  rcases hgr : s.jwtService.GenerateRefreshToken d.jwt u w3 with ⟨rr, w4⟩
  obtain ⟨st4, hk4, hf4, -, t2, h2a, h2b, h2c⟩ := GenerateRefreshToken_step _ _ _ _ _ _ hgr
  rcases hst : redisSET ("refresh:" ++ u) (mint d.jwt s.jwtService.secret u (σ + n) σ)
    s.jwtService.GetRefreshExpiry w4 with ⟨rs, w5⟩
  obtain ⟨st5, hf5, -, hr5, hk5⟩ := redisSET_step _ _ _ _ _ _ hst
  have b3 := st3.now_le; have c3 := st3.le_horizon; have e3 := st3.horizon_eq
  have b4 := st4.now_le; have c4 := st4.le_horizon; have e4 := st4.horizon_eq
  have b5 := st5.now_le; have c5 := st5.le_horizon; have e5 := st5.horizon_eq
  have hfl : fails w4 = false := fails_of_faults_nil _ (by rw [hf4, hf3, hf])
  have ht1 : Unix t1 = σ := Unix_eq_of_bounds (by omega) (by omega)
  have hw3 : Unix w3.now = σ := Unix_eq_of_bounds (by omega) (by omega)
  have ht2 : Unix t2 = σ := Unix_eq_of_bounds (by omega) (by omega)
  have hw4 : Unix w4.now = σ := Unix_eq_of_bounds (by omega) (by omega)
  rw [hA, Unix_add_seconds, ht1, hw3] at h1c
  rw [hE, Unix_add_seconds, ht2, hw4] at h2c
  subst h1c h2c
  simp only [hfl, Bool.false_eq_true, if_false] at hr5 hk5
  subst hr5
  have hpos : s.jwtService.GetRefreshExpiry > 0 := by
    unfold jwtService.GetRefreshExpiry
    rw [hE]
    positivity
  refine ⟨w3, w4, w5, rfl, hgr, ?_, ?_, ?_⟩
  · simpa [RedisClient.StoreRefreshToken, RedisClient.Set] using hst
  · refine ⟨by rw [hf5, hf4, hf3, hf]; rfl, by omega, by omega, w5.now + n * Second, ?_, ?_⟩
    · have h1 : Second ≤ n * Second := by nlinarith
      have h2 : (σ + 1) * Second = σ * Second + Second := by ring
      omega
    · rw [hk5]
      simp only [if_true, setDeadline, hpos]
      simp [jwtService.GetRefreshExpiry, hE]
  · intro k hk
    rw [hk5]
    simp [hk, hk4, hk3]

/-- `Login` within the second `σ`. -/
theorem login_same_second (hn : 0 < n) (hE : s.jwtService.refreshExpiry = n * Second)
    (hA : s.jwtService.accessExpiry = m * Second) (w : World) (hf : w.faults = [])
    (hlow : σ * Second ≤ w.now) (hhigh : horizon w < (σ + 1) * Second)
    (email password : String) (user : User)
    (hfind : s.FindByEmail email = .ok (some user))
    (hp : VerifyPassword d password user.Password = true) :
    ∃ w', s.Login d email password w =
        (.ok { AccessToken := mint d.jwt s.jwtService.secret user.ID (σ + m) σ,
               RefreshToken := mint d.jwt s.jwtService.secret user.ID (σ + n) σ }, w') ∧
      SameSecond w' user.ID (mint d.jwt s.jwtService.secret user.ID (σ + n) σ) σ := by
  obtain ⟨w3, w4, w5, ha, hr, hs, hS, -⟩ :=
    mint_and_store_same_second d s user.ID n m σ hn hE hA w hf hlow hhigh
  exact ⟨w5, login_steps d s email password w user w3 w4 w5 _ _ hfind hp ha hr hs, hS⟩

/-- The steps of `RefreshToken` within the second `σ`, presented with the token the session
holds: every step succeeds, and the token minted is the presented one. -/
theorem refresh_steps_same_second (hl : d.jwt.Lawful) (hn : 0 < n)
    (hE : s.jwtService.refreshExpiry = n * Second)
    (hA : s.jwtService.accessExpiry = m * Second) (w : World)
    (hS : SameSecond w u (mint d.jwt s.jwtService.secret u (σ + n) σ) σ) :
    ∃ w2 w3 w4 w5,
      s.jwtService.ValidateRefreshToken d.jwt (mint d.jwt s.jwtService.secret u (σ + n) σ) w
        = (.ok (mintedClaims u (σ + n) σ), (timeNow w).2) ∧
      RedisClient.GetRefreshToken u (timeNow w).2
        = (.ok (mint d.jwt s.jwtService.secret u (σ + n) σ), w2) ∧
      s.jwtService.GenerateAccessToken d.jwt u w2
        = (.ok (mint d.jwt s.jwtService.secret u (σ + m) σ), w3) ∧
      s.jwtService.GenerateRefreshToken d.jwt u w3
        = (.ok (mint d.jwt s.jwtService.secret u (σ + n) σ), w4) ∧
      RedisClient.StoreRefreshToken u (mint d.jwt s.jwtService.secret u (σ + n) σ)
        s.jwtService.GetRefreshExpiry w4 = (none, w5) ∧
      SameSecond w5 u (mint d.jwt s.jwtService.secret u (σ + n) σ) σ := by
  have hsec : (0 : Int) < Second := by decide
  obtain ⟨hf, hlow, hhigh, dl, hdl, hkey⟩ := hS
  have hexp : horizon w < (σ + n) * Second := by
    have h1 : Second ≤ n * Second := by nlinarith
    have h2 : (σ + 1) * Second = σ * Second + Second := by ring
    have h3 : (σ + n) * Second = σ * Second + n * Second := by ring
    omega
  obtain ⟨hv, st1⟩ := validateToken_mint_step d.jwt hl s.jwtService u (σ + n) σ w hexp
  rcases hget : redisGET ("refresh:" ++ u) (timeNow w).2 with ⟨rg, w2⟩
  obtain ⟨st2, hf2, -, hk2, hr2⟩ := redisGET_step _ _ _ _ hget
  have b1 := st1.now_le; have c1 := st1.le_horizon; have e1 := st1.horizon_eq
  have b2 := st2.now_le; have c2 := st2.le_horizon; have e2 := st2.horizon_eq
  have hfl1 : fails (timeNow w).2 = false := fails_of_faults_nil _ (by simp [hf])
  have hlive : liveAt (timeNow w).2.keys w2.now ("refresh:" ++ u)
      = some { value := mint d.jwt s.jwtService.secret u (σ + n) σ, expireAt := some dl } := by
    unfold liveAt
    rw [timeNow_keys, hkey]
    have : w2.now < dl := by omega
    simp [this]
  rw [hfl1, hlive] at hr2
  simp only [Bool.false_eq_true, if_false] at hr2
  subst hr2
  obtain ⟨w3, w4, w5, ha, hr, hs, hS5, -⟩ :=
    mint_and_store_same_second d s u n m σ hn hE hA w2 (by rw [hf2, timeNow_faults, hf]; rfl)
      (by omega) (by omega)
  exact ⟨w2, w3, w4, w5, hv,
    by simpa [RedisClient.GetRefreshToken, RedisClient.Get] using hget, ha, hr, hs, hS5⟩

/-- Blacklisting keeps the state `SameSecond`. -/
theorem blacklist_same_second (r t : String) (expiry : Int) (w : World)
    (hS : SameSecond w u r σ) :
    SameSecond (RedisClient.BlacklistToken t expiry w).2 u r σ := by
  obtain ⟨hf5, hlow5, hhigh5, dl5, hdl5, hkey5⟩ := hS
  rcases hbl : redisSET ("blacklist:" ++ t) "1" expiry w with ⟨rb, w6⟩
  obtain ⟨st6, hf6, -, -, hk6⟩ := redisSET_step _ _ _ _ _ _ hbl
  have hfl5 : fails w = false := fails_of_faults_nil _ hf5
  simp only [RedisClient.BlacklistToken, RedisClient.Set, hbl]
  refine ⟨by rw [hf6, hf5]; rfl, le_trans hlow5 st6.now_le, by rw [st6.horizon_eq]; exact hhigh5,
    dl5, hdl5, ?_⟩
  rw [hk6]
  simp [hfl5, refresh_key_ne_blacklist_key, hkey5]

/-- `RefreshToken` within the second `σ`, presented with the token the session holds: it
succeeds and mints the presented token again. -/
theorem refresh_same_second (hl : d.jwt.Lawful) (hu : u ≠ "") (hn : 0 < n)
    (hE : s.jwtService.refreshExpiry = n * Second)
    (hA : s.jwtService.accessExpiry = m * Second) (w : World)
    (hS : SameSecond w u (mint d.jwt s.jwtService.secret u (σ + n) σ) σ) :
    ∃ w', s.RefreshToken d (mint d.jwt s.jwtService.secret u (σ + n) σ) w =
        (.ok { AccessToken := mint d.jwt s.jwtService.secret u (σ + m) σ,
               RefreshToken := mint d.jwt s.jwtService.secret u (σ + n) σ }, w') ∧
      SameSecond w' u (mint d.jwt s.jwtService.secret u (σ + n) σ) σ := by
  obtain ⟨w2, w3, w4, w5, hv, hg, ha, hr, hs, hS5⟩ :=
    refresh_steps_same_second d s u n m σ hl hn hE hA w hS
  exact ⟨_, refreshToken_rotate d s _ w _ w2 (mintedClaims u (σ + n) σ) u w3 w4 w5 _ _ hv
    (claimString_mintedClaims _ _ _) hu hg ha hr hs,
    blacklist_same_second u σ _ _ _ w5 hS5⟩

end same_second

/-! ## Claims -/

/-- C1: after a successful `Login`, `GetRefreshToken` issued right afterwards for the matched
user returns the refresh token of the returned pair; the session key holds that token, with
the deadline of a `SET` whose expiration is `GetRefreshExpiry()`, whatever the key held
before; that `SET` is the last call of `Login`, and no other key has changed. -/
theorem C1_login_stores_refresh_token (d : Deps) (s : authService) (email password : String)
    (w : World) (pair : TokenPair) (h : (s.Login d email password w).1 = .ok pair) :
    ∃ user, s.FindByEmail email = .ok (some user) ∧
      (RedisClient.GetRefreshToken user.ID (later (s.Login d email password w).2 0)).1
        = .ok pair.RefreshToken ∧
      (s.Login d email password w).2.keys ("refresh:" ++ user.ID)
        = some { value := pair.RefreshToken,
                 expireAt := setDeadline w.keys (s.Login d email password w).2.now
                   ("refresh:" ++ user.ID) s.jwtService.GetRefreshExpiry } ∧
      (s.Login d email password w).2.log.getLast?
        = some (.Set ("refresh:" ++ user.ID) pair.RefreshToken s.jwtService.GetRefreshExpiry) ∧
      ∀ k, k ≠ "refresh:" ++ user.ID → (s.Login d email password w).2.keys k = w.keys k := by
  obtain ⟨user, hf, -, -, -, hst, hw⟩ := login_ok_inv d s email password w pair h
  refine ⟨user, hf, ?_⟩
  rw [hw]
  simp only [RedisClient.StoreRefreshToken, RedisClient.Set] at hst ⊢
  have hfl := redisSET_ok _ _ _ _ hst
  have hkeys := redisSET_keys ("refresh:" ++ user.ID) pair.RefreshToken
    s.jwtService.GetRefreshExpiry (s.jwtService.GenerateRefreshToken d.jwt user.ID
      (s.jwtService.GenerateAccessToken d.jwt user.ID w).2).2
  simp only [hfl, Bool.false_eq_true, if_false, GenerateRefreshToken_keys,
    GenerateAccessToken_keys] at hkeys
  refine ⟨?_, ?_, ?_, ?_⟩
  · rw [getRefreshToken_later, hkeys]
    simp only [Nat.cast_zero, add_zero, redisSET_now]
    rw [liveAt_of_setDeadline]
  · rw [hkeys]; simp
  · simp
  · intro k hk
    rw [hkeys]; simp [hk]

/-- In the empty store `w0`, `Login` with the credentials of `ann` returns `pair0`. -/
theorem Demo.login_w0 :
    (Demo.svc.Login Ref.deps "ann@example.org" "pw-ann" Demo.w0).1 = .ok Demo.pair0 := by
  simp [authService.Login, Demo.svc, Demo.w0, Demo.ann, VerifyPassword, Ref.deps,
    jwtService.GenerateAccessToken, jwtService.GenerateRefreshToken, timeNow, record, nextFault,
    RedisClient.StoreRefreshToken, RedisClient.Set, redisSET, jwtService.GetRefreshExpiry,
    Demo.pair0, Unix, Second, Demo.ms]

/-- Witness of C1: the login of `ann` in the empty store `w0`. -/
theorem C1_witness :
    (Demo.svc.Login Ref.deps "ann@example.org" "pw-ann" Demo.w0).1 = .ok Demo.pair0 ∧
    ∃ user, Demo.svc.FindByEmail "ann@example.org" = .ok (some user) ∧
      (RedisClient.GetRefreshToken user.ID
        (later (Demo.svc.Login Ref.deps "ann@example.org" "pw-ann" Demo.w0).2 0)).1
        = .ok Demo.pair0.RefreshToken ∧
      (Demo.svc.Login Ref.deps "ann@example.org" "pw-ann" Demo.w0).2.keys ("refresh:" ++ user.ID)
        = some { value := Demo.pair0.RefreshToken,
                 expireAt := setDeadline Demo.w0.keys
                   (Demo.svc.Login Ref.deps "ann@example.org" "pw-ann" Demo.w0).2.now
                   ("refresh:" ++ user.ID) Demo.svc.jwtService.GetRefreshExpiry } ∧
      (Demo.svc.Login Ref.deps "ann@example.org" "pw-ann" Demo.w0).2.log.getLast?
        = some (.Set ("refresh:" ++ user.ID) Demo.pair0.RefreshToken
            Demo.svc.jwtService.GetRefreshExpiry) ∧
      ∀ k, k ≠ "refresh:" ++ user.ID →
        (Demo.svc.Login Ref.deps "ann@example.org" "pw-ann" Demo.w0).2.keys k = Demo.w0.keys k :=
  ⟨Demo.login_w0,
    C1_login_stores_refresh_token Ref.deps Demo.svc "ann@example.org" "pw-ann" Demo.w0
      Demo.pair0 Demo.login_w0⟩

/-- The clock schedule of `w0` stays within the second 1700000000. -/
theorem Demo.w0_same_second :
    Demo.w0.faults = [] ∧ 1700000000 * Second ≤ Demo.w0.now ∧
      horizon Demo.w0 < (1700000000 + 1) * Second := by
  refine ⟨rfl, le_refl _, ?_⟩
  decide

/-- C2, the code at the failing input: `Login` and two calls of `RefreshToken` with the
refresh token of the login, all within one wall-clock second and with every store call
succeeding. The first `RefreshToken` returns the presented refresh token again, and the
second one succeeds too instead of failing with the token-reuse error. -/
theorem C2_refresh_within_one_second_returns_presented_token :
    (Demo.svc.Login Ref.deps "ann@example.org" "pw-ann" Demo.w0).1 = .ok Demo.pair0 ∧
    (Demo.svc.RefreshToken Ref.deps Demo.pair0.RefreshToken
      (Demo.svc.Login Ref.deps "ann@example.org" "pw-ann" Demo.w0).2).1 = .ok Demo.pair0 ∧
    (Demo.svc.RefreshToken Ref.deps Demo.pair0.RefreshToken
      (Demo.svc.RefreshToken Ref.deps Demo.pair0.RefreshToken
        (Demo.svc.Login Ref.deps "ann@example.org" "pw-ann" Demo.w0).2).2).1
      = .ok Demo.pair0 := by
  obtain ⟨hf, hlow, hhigh⟩ := Demo.w0_same_second
  have hE : Demo.svc.jwtService.refreshExpiry = 604800 * Second := rfl
  have hA : Demo.svc.jwtService.accessExpiry = 900 * Second := rfl
  obtain ⟨w1, h1, hS1⟩ := login_same_second Ref.deps Demo.svc 604800 900 1700000000
    (by decide) hE hA Demo.w0 hf hlow hhigh "ann@example.org" "pw-ann" Demo.ann rfl rfl
  obtain ⟨w2, h2, hS2⟩ := refresh_same_second Ref.deps Demo.svc Demo.ann.ID 604800 900
    1700000000 Ref.codec_lawful (by decide) (by decide) hE hA w1 hS1
  obtain ⟨w3, h3, -⟩ := refresh_same_second Ref.deps Demo.svc Demo.ann.ID 604800 900
    1700000000 Ref.codec_lawful (by decide) (by decide) hE hA w2 hS2
  have e1 : (Demo.svc.Login Ref.deps "ann@example.org" "pw-ann" Demo.w0).2 = w1 := by rw [h1]
  rw [e1]
  have e2 : (Demo.svc.RefreshToken Ref.deps Demo.pair0.RefreshToken w1).2 = w2 :=
    congrArg Prod.snd h2
  rw [e2]
  exact ⟨congrArg Prod.fst h1, congrArg Prod.fst h2, congrArg Prod.fst h3⟩

/-- C3 (amended): when the presented token verifies with a non-empty subject and the session
record of the subject holds a different value, `RefreshToken` returns the token-reuse error;
its only calls are the `GET` and the `DEL` of the session key (nothing is minted, nothing is
written); no other key changes; and the session record is absent afterwards provided the
`DEL` itself succeeds. The error of `DeleteRefreshToken` is discarded: when it fails, the
same error is returned and the session record is left as it was. -/
theorem C3_mismatch_deletes_session (d : Deps) (s : authService) (t : String)
    (w w1 w2 : World) (claims : MapClaims) (sub stored : String)
    (hv : s.jwtService.ValidateRefreshToken d.jwt t w = (.ok claims, w1))
    (hsub : claimString claims "sub" = (sub, true)) (hne : sub ≠ "")
    (hg : RedisClient.GetRefreshToken sub w1 = (.ok stored, w2))
    (hdiff : stored ≠ t) :
    (s.RefreshToken d t w).1 = .error (.New "refresh token mismatch - possible token reuse") ∧
    (s.RefreshToken d t w).2.log
      = w.log ++ [.Get ("refresh:" ++ sub), .Del ("refresh:" ++ sub)] ∧
    (∀ k, k ≠ "refresh:" ++ sub → (s.RefreshToken d t w).2.keys k = w.keys k) ∧
    ((RedisClient.DeleteRefreshToken sub w2).1 = none →
      (s.RefreshToken d t w).2.keys ("refresh:" ++ sub) = none ∧
      ∀ dt, (RedisClient.GetRefreshToken sub (later (s.RefreshToken d t w).2 dt)).1
        = .error .RedisNil) ∧
    ((RedisClient.DeleteRefreshToken sub w2).1 ≠ none →
      (s.RefreshToken d t w).2.keys ("refresh:" ++ sub) = w.keys ("refresh:" ++ sub)) := by
  rw [refreshToken_mismatch d s t w w1 w2 claims sub stored hv hsub hne hg hdiff]
  have hw1 : w1 = (s.jwtService.validateToken d.jwt t w).2 := by
    have := congrArg Prod.snd hv
    exact this.symm
  have hk1 : w1.keys = w.keys := by rw [hw1]; simp
  have hl1 : w1.log = w.log := by rw [hw1]; simp
  obtain ⟨-, -, hl2, hk2, -⟩ := redisGET_step ("refresh:" ++ sub) w1 w2 (.ok stored)
    (by simpa [RedisClient.GetRefreshToken, RedisClient.Get] using hg)
  simp only [RedisClient.DeleteRefreshToken, RedisClient.Del, redisDEL_fst, redisDEL_log,
    redisDEL_keys, hl2, hl1, hk2, hk1]
  refine ⟨trivial, by simp, ?_, ?_, ?_⟩
  · intro k hk
    by_cases hf : fails w2 = true <;> simp [hf, hk]
  · intro h
    have hf : fails w2 = false := by
      by_contra hc
      simp [hc] at h
    refine ⟨by simp [hf], ?_⟩
    intro dt
    rw [getRefreshToken_later]
    simp [redisDEL_keys, hf, liveAt]
  · intro h
    have hf : fails w2 = true := by
      by_contra hc
      simp [hc] at h
    simp [hf]

theorem Demo.stale_session (fs : List Bool) : (Demo.stale fs).keys ("refresh:" ++ "u1")
    = some { value := Demo.rotated, expireAt := some (1700604850 * Second) } := by
  show (if ("refresh:" ++ "u1") = "refresh:u1" then
      some ({ value := Demo.rotated, expireAt := some (1700604850 * Second) } : RedisEntry)
    else none) = _
  exact if_pos (by decide)

theorem Demo.stale_validate (fs : List Bool) :
    Demo.svc.jwtService.ValidateRefreshToken Ref.codec Demo.pair0.RefreshToken (Demo.stale fs)
      = (.ok (mintedClaims "u1" 1700604800 1700000000), (timeNow (Demo.stale fs)).2) := by
  have h := validateToken_mint Ref.codec Ref.codec_lawful Demo.svc.jwtService "u1" 1700604800
    1700000000 (Demo.stale fs)
  have ht : (timeNow (Demo.stale fs)).1 = 1700000100 * Second + (Demo.ms : Int) := rfl
  have hlt : (timeNow (Demo.stale fs)).1 < 1700604800 * Second := by
    rw [ht]
    decide
  rw [if_pos (Or.inr hlt)] at h
  exact h

theorem Demo.stale_get (fs : List Bool) (hf : fails (Demo.stale fs) = false) :
    RedisClient.GetRefreshToken "u1" (timeNow (Demo.stale fs)).2
      = (.ok Demo.rotated, (redisGET ("refresh:" ++ "u1") (timeNow (Demo.stale fs)).2).2) := by
  refine Prod.ext ?_ rfl
  show (redisGET ("refresh:" ++ "u1") (timeNow (Demo.stale fs)).2).1 = _
  rw [redisGET_fst]
  have hf' : fails (timeNow (Demo.stale fs)).2 = false := by rw [fails_timeNow]; exact hf
  have hlive : liveAt (timeNow (Demo.stale fs)).2.keys (timeNow (timeNow (Demo.stale fs)).2).1
      ("refresh:" ++ "u1")
      = some { value := Demo.rotated, expireAt := some (1700604850 * Second) } := by
    have hk : (timeNow (Demo.stale fs)).2.keys ("refresh:" ++ "u1")
        = some { value := Demo.rotated, expireAt := some (1700604850 * Second) } := by
      rw [timeNow_keys]
      exact Demo.stale_session fs
    have ht : (timeNow (timeNow (Demo.stale fs)).2).1
        = 1700000100 * Second + (Demo.ms : Int) + (Demo.ms : Int) := rfl
    have hlt : (timeNow (timeNow (Demo.stale fs)).2).1 < 1700604850 * Second := by
      rw [ht]
      decide
    unfold liveAt
    rw [hk]
    exact if_pos hlt
  rw [hf', hlive]
  rfl

theorem Demo.rotated_ne : Demo.rotated ≠ Demo.pair0.RefreshToken := by
  intro h
  have := (mint_inj Ref.codec Ref.codec_lawful h).2.1
  exact absurd this (by decide)

theorem Demo.stale_delete_fails :
    fails (redisGET ("refresh:" ++ "u1") (timeNow (Demo.stale [false, true])).2).2 = true := by
  have h : (redisGET ("refresh:" ++ "u1") (timeNow (Demo.stale [false, true])).2).2.faults
      = (Demo.stale [true]).faults := by
    rw [redisGET_faults, timeNow_faults]
    rfl
  exact (fails_congr h).trans rfl

/-- C3 as stated fails: the stale token `pair0.RefreshToken` verifies with subject `u1`, the
session of `u1` holds the different token `rotated`, and the `GET` succeeds but the `DEL`
fails. `RefreshToken` returns the token-reuse error, and the session record is still there
afterwards. -/
theorem C3_counterexample_delete_fails :
    (Demo.svc.jwtService.ValidateRefreshToken Ref.codec Demo.pair0.RefreshToken (Demo.stale [false, true])).1
      = .ok (mintedClaims "u1" 1700604800 1700000000) ∧
    claimString (mintedClaims "u1" 1700604800 1700000000) "sub" = ("u1", true) ∧
    (RedisClient.GetRefreshToken "u1" (Demo.svc.jwtService.ValidateRefreshToken Ref.codec
      Demo.pair0.RefreshToken (Demo.stale [false, true])).2).1 = .ok Demo.rotated ∧
    Demo.rotated ≠ Demo.pair0.RefreshToken ∧
    (Demo.svc.RefreshToken Ref.deps Demo.pair0.RefreshToken (Demo.stale [false, true])).1
      = .error (.New "refresh token mismatch - possible token reuse") ∧
    (RedisClient.GetRefreshToken "u1"
      (later (Demo.svc.RefreshToken Ref.deps Demo.pair0.RefreshToken (Demo.stale [false, true])).2 0)).1
      = .ok Demo.rotated := by
  have hv := Demo.stale_validate [false, true]
  have hg := Demo.stale_get [false, true] rfl
  have hm := refreshToken_mismatch Ref.deps Demo.svc Demo.pair0.RefreshToken (Demo.stale [false, true]) _ _
    (mintedClaims "u1" 1700604800 1700000000) "u1" Demo.rotated hv
    (claimString_mintedClaims _ _ _) (by decide) hg Demo.rotated_ne
  refine ⟨congrArg Prod.fst hv, claimString_mintedClaims _ _ _, ?_, Demo.rotated_ne,
    by rw [hm], ?_⟩
  · rw [show (Demo.svc.jwtService.ValidateRefreshToken Ref.codec Demo.pair0.RefreshToken
      (Demo.stale [false, true])).2 = (timeNow (Demo.stale [false, true])).2 from congrArg Prod.snd hv, hg]
  · rw [hm, getRefreshToken_later]
    simp only [RedisClient.DeleteRefreshToken, RedisClient.Del, redisDEL_keys,
      Demo.stale_delete_fails, if_true, redisGET_keys, timeNow_keys, redisDEL_now]
    have hlive : liveAt (Demo.stale [false, true]).keys
        ((timeNow (redisGET ("refresh:" ++ "u1") (timeNow (Demo.stale [false, true])).2).2).1
          + ((0 : Nat) : Int))
        ("refresh:" ++ "u1")
        = some { value := Demo.rotated, expireAt := some (1700604850 * Second) } := by
      have hk := Demo.stale_session [false, true]
      have hlt : (timeNow (redisGET ("refresh:" ++ "u1")
          (timeNow (Demo.stale [false, true])).2).2).1
          + ((0 : Nat) : Int) < 1700604850 * Second := by decide
      unfold liveAt
      rw [hk]
      exact if_pos hlt
    rw [hlive]

/-- Witness of C3: the stale token `pair0.RefreshToken` presented against the session that
holds `rotated`, with Redis reachable. -/
theorem C3_witness :
    (Demo.svc.jwtService.ValidateRefreshToken Ref.codec Demo.pair0.RefreshToken (Demo.stale [])
        = (.ok (mintedClaims "u1" 1700604800 1700000000), (timeNow (Demo.stale [])).2) ∧
      claimString (mintedClaims "u1" 1700604800 1700000000) "sub" = ("u1", true) ∧
      "u1" ≠ "" ∧
      RedisClient.GetRefreshToken "u1" (timeNow (Demo.stale [])).2
        = (.ok Demo.rotated, (redisGET ("refresh:" ++ "u1") (timeNow (Demo.stale [])).2).2) ∧
      Demo.rotated ≠ Demo.pair0.RefreshToken) ∧
    (Demo.svc.RefreshToken Ref.deps Demo.pair0.RefreshToken (Demo.stale [])).1
      = .error (.New "refresh token mismatch - possible token reuse") ∧
    (Demo.svc.RefreshToken Ref.deps Demo.pair0.RefreshToken (Demo.stale [])).2.log
      = (Demo.stale []).log ++ [.Get ("refresh:" ++ "u1"), .Del ("refresh:" ++ "u1")] :=
  ⟨⟨Demo.stale_validate [], claimString_mintedClaims _ _ _, by decide, Demo.stale_get [] rfl,
      Demo.rotated_ne⟩,
    (C3_mismatch_deletes_session Ref.deps Demo.svc Demo.pair0.RefreshToken (Demo.stale []) _ _
      (mintedClaims "u1" 1700604800 1700000000) "u1" Demo.rotated (Demo.stale_validate [])
      (claimString_mintedClaims _ _ _) (by decide) (Demo.stale_get [] rfl) Demo.rotated_ne).1,
    (C3_mismatch_deletes_session Ref.deps Demo.svc Demo.pair0.RefreshToken (Demo.stale []) _ _
      (mintedClaims "u1" 1700604800 1700000000) "u1" Demo.rotated (Demo.stale_validate [])
      (claimString_mintedClaims _ _ _) (by decide) (Demo.stale_get [] rfl) Demo.rotated_ne).2.1⟩

theorem isTokenBlacklisted_later (token : String) (w : World) (d : Nat) :
    (RedisClient.IsTokenBlacklisted token (later w d)).1 =
      (decide ((match liveAt w.keys (w.now + d) ("blacklist:" ++ token) with
        | none => ((0 : Int), (none : Option Error))
        | some _ => ((1 : Int), (none : Option Error))).1 > 0),
       (match liveAt w.keys (w.now + d) ("blacklist:" ++ token) with
        | none => ((0 : Int), (none : Option Error))
        | some _ => ((1 : Int), (none : Option Error))).2) := by
  have h := redisEXISTS_fst ("blacklist:" ++ token) (later w d)
  simp only [fails_later, Bool.false_eq_true, if_false, later_keys, timeNow_later] at h
  simp only [RedisClient.IsTokenBlacklisted, RedisClient.Exists]
  rw [← h]

/-- C4: when the presented token verifies with subject `sub` and equals the stored session
value, and minting and `StoreRefreshToken` succeed, `RefreshToken` returns the newly minted
pair, whatever the outcome of `BlacklistToken`. The session key then holds the new refresh
token with the deadline of its `SET`, a `GET` before that deadline returns it, and no key
other than the session key and the blacklist key of the presented token has changed. When
`BlacklistToken` succeeded, `IsTokenBlacklisted` of the presented token is true right
afterwards. -/
theorem C4_rotation_stores_new_refresh_token (d : Deps) (s : authService) (t : String)
    (w w1 w2 w3 w4 w5 : World) (claims : MapClaims) (sub a r : String)
    (hv : s.jwtService.ValidateRefreshToken d.jwt t w = (.ok claims, w1))
    (hsub : claimString claims "sub" = (sub, true)) (hne : sub ≠ "")
    (hg : RedisClient.GetRefreshToken sub w1 = (.ok t, w2))
    (ha : s.jwtService.GenerateAccessToken d.jwt sub w2 = (.ok a, w3))
    (hr : s.jwtService.GenerateRefreshToken d.jwt sub w3 = (.ok r, w4))
    (hs : RedisClient.StoreRefreshToken sub r s.jwtService.GetRefreshExpiry w4 = (none, w5)) :
    (s.RefreshToken d t w).1 = .ok { AccessToken := a, RefreshToken := r } ∧
    (s.RefreshToken d t w).2.keys ("refresh:" ++ sub)
      = some { value := r,
               expireAt := setDeadline w.keys w5.now ("refresh:" ++ sub)
                 s.jwtService.GetRefreshExpiry } ∧
    (∀ dt : Nat,
      (∀ dl, setDeadline w.keys w5.now ("refresh:" ++ sub) s.jwtService.GetRefreshExpiry
          = some dl → (s.RefreshToken d t w).2.now + dt < dl) →
      (RedisClient.GetRefreshToken sub (later (s.RefreshToken d t w).2 dt)).1 = .ok r) ∧
    (∀ k, k ≠ "refresh:" ++ sub → k ≠ "blacklist:" ++ t →
      (s.RefreshToken d t w).2.keys k = w.keys k) ∧
    ((RedisClient.BlacklistToken t s.jwtService.GetRefreshExpiry w5).1 = none →
      (RedisClient.IsTokenBlacklisted t (later (s.RefreshToken d t w).2 0)).1
        = (true, none)) := by
  rw [refreshToken_rotate d s t w w1 w2 claims sub w3 w4 w5 a r hv hsub hne hg ha hr hs]
  have hw1 : w1 = (s.jwtService.validateToken d.jwt t w).2 := (congrArg Prod.snd hv).symm
  have hk1 : w1.keys = w.keys := by rw [hw1]; simp
  obtain ⟨-, -, -, hk2, -⟩ := redisGET_step ("refresh:" ++ sub) w1 w2 (.ok t)
    (by simpa [RedisClient.GetRefreshToken, RedisClient.Get] using hg)
  obtain ⟨-, hk3, -, -, -⟩ := GenerateAccessToken_step _ _ _ _ _ _ ha
  obtain ⟨-, hk4, -, -, -⟩ := GenerateRefreshToken_step _ _ _ _ _ _ hr
  obtain ⟨-, -, -, hr5, hk5⟩ := redisSET_step ("refresh:" ++ sub) r
    s.jwtService.GetRefreshExpiry w4 w5 none
    (by simpa [RedisClient.StoreRefreshToken, RedisClient.Set] using hs)
  have hf4 : fails w4 = false := by
    by_contra hc
    simp [hc] at hr5
  simp only [hf4, Bool.false_eq_true, if_false, hk4, hk3, hk2, hk1] at hk5
  rcases hbl : redisSET ("blacklist:" ++ t) "1" s.jwtService.GetRefreshExpiry w5 with ⟨rb, w6⟩
  obtain ⟨-, -, -, hr6, hk6⟩ := redisSET_step _ _ _ _ _ _ hbl
  simp only [RedisClient.BlacklistToken, RedisClient.Set, hbl]
  have hkey6 : w6.keys ("refresh:" ++ sub) = some ⟨r, setDeadline w.keys w5.now
      ("refresh:" ++ sub) s.jwtService.GetRefreshExpiry⟩ := by
    rw [hk6]
    by_cases hf5 : fails w5 = true
    · simp [hf5, hk5]
    · simp [hf5, hk5, refresh_key_ne_blacklist_key]
  refine ⟨trivial, hkey6, ?_, ?_, ?_⟩
  · intro dt hlive
    rw [getRefreshToken_later]
    unfold liveAt
    rw [hkey6]
    rcases hd : setDeadline w.keys w5.now ("refresh:" ++ sub) s.jwtService.GetRefreshExpiry
      with _ | dl
    · rfl
    · have := hlive dl hd
      simp [this]
  · intro k hk1' hk2'
    rw [hk6]
    by_cases hf5 : fails w5 = true
    · simp [hf5, hk5, hk1']
    · simp [hf5, hk5, hk1', hk2']
  · intro hok
    have hf5 : fails w5 = false := by
      rw [hr6] at hok
      by_contra hc
      simp [hc] at hok
    rw [isTokenBlacklisted_later]
    simp only [hf5, Bool.false_eq_true, if_false] at hk6
    rw [hk6]
    simp only [Nat.cast_zero, add_zero]
    rw [liveAt_of_setDeadline]
    rfl

theorem Demo.refresh_token_eq :
    mint Ref.deps.jwt Demo.svc.jwtService.secret "u1" (1700000000 + 604800) 1700000000
      = Demo.pair0.RefreshToken :=
  congrArg (fun e => mint Ref.codec "k" "u1" e 1700000000)
    (by decide : (1700000000 : Int) + 604800 = 1700604800)

theorem Demo.access_token_eq :
    mint Ref.deps.jwt Demo.svc.jwtService.secret "u1" (1700000000 + 900) 1700000000
      = Demo.pair0.AccessToken :=
  congrArg (fun e => mint Ref.codec "k" "u1" e 1700000000)
    (by decide : (1700000000 : Int) + 900 = 1700000900)

/-- After the login of `ann` in `w0`, the session holds `pair0.RefreshToken` and the clock
schedule stays within the second 1700000000. -/
theorem Demo.afterLogin_same_second :
    SameSecond Demo.afterLogin "u1" Demo.pair0.RefreshToken 1700000000 := by
  obtain ⟨hf, hlow, hhigh⟩ := Demo.w0_same_second
  have hE : Demo.svc.jwtService.refreshExpiry = 604800 * Second := rfl
  have hA : Demo.svc.jwtService.accessExpiry = 900 * Second := rfl
  obtain ⟨w', h1, hS1⟩ := login_same_second Ref.deps Demo.svc 604800 900 1700000000
    (by decide) hE hA Demo.w0 hf hlow hhigh "ann@example.org" "pw-ann" Demo.ann rfl rfl
  have e0 : w' = (Demo.svc.Login Ref.deps "ann@example.org" "pw-ann" Demo.w0).2 :=
    (congrArg Prod.snd h1).symm
  have hS2 : SameSecond w' "u1" (mint Ref.deps.jwt Demo.svc.jwtService.secret "u1"
      (1700000000 + 604800) 1700000000) 1700000000 := hS1
  rw [Demo.refresh_token_eq] at hS2
  rw [e0] at hS2
  exact hS2

/-- The steps of `RefreshToken` on the refresh token of the login, right after the login of
`ann` in `w0`. -/
theorem Demo.rotation_steps :
    Demo.svc.jwtService.ValidateRefreshToken Ref.deps.jwt Demo.pair0.RefreshToken Demo.afterLogin
      = (.ok (mintedClaims "u1" 1700604800 1700000000), Demo.afterValidate) ∧
    RedisClient.GetRefreshToken "u1" Demo.afterValidate
      = (.ok Demo.pair0.RefreshToken, Demo.afterGet) ∧
    Demo.svc.jwtService.GenerateAccessToken Ref.deps.jwt "u1" Demo.afterGet
      = (.ok Demo.pair0.AccessToken, Demo.afterAccess) ∧
    Demo.svc.jwtService.GenerateRefreshToken Ref.deps.jwt "u1" Demo.afterAccess
      = (.ok Demo.pair0.RefreshToken, Demo.afterRefresh) ∧
    RedisClient.StoreRefreshToken "u1" Demo.pair0.RefreshToken
      Demo.svc.jwtService.GetRefreshExpiry Demo.afterRefresh = (none, Demo.afterStore) := by
  have hE : Demo.svc.jwtService.refreshExpiry = 604800 * Second := rfl
  have hA : Demo.svc.jwtService.accessExpiry = 900 * Second := rfl
  have hS := Demo.afterLogin_same_second
  rw [← Demo.refresh_token_eq] at hS
  obtain ⟨w2, w3, w4, w5, hv, hg, ha, hr, hs, -⟩ :=
    refresh_steps_same_second Ref.deps Demo.svc "u1" 604800 900 1700000000
      Ref.codec_lawful (by decide) hE hA Demo.afterLogin hS
  rw [Demo.refresh_token_eq] at hv hg hr hs
  rw [Demo.access_token_eq] at ha
  have hc : mintedClaims "u1" (1700000000 + 604800) 1700000000
      = mintedClaims "u1" 1700604800 1700000000 :=
    congrArg (fun e => mintedClaims "u1" e 1700000000)
      (by decide : (1700000000 : Int) + 604800 = 1700604800)
  rw [hc] at hv
  have e2 : w2 = Demo.afterGet := (congrArg Prod.snd hg).symm
  rw [e2] at hg ha
  have e3 : w3 = Demo.afterAccess := (congrArg Prod.snd ha).symm
  rw [e3] at ha hr
  have e4 : w4 = Demo.afterRefresh := (congrArg Prod.snd hr).symm
  rw [e4] at hr hs
  have e5 : w5 = Demo.afterStore := (congrArg Prod.snd hs).symm
  rw [e5] at hs
  exact ⟨hv, hg, ha, hr, hs⟩

/-- Witness of C4: `RefreshToken` on the refresh token of the login, right after the login of
`ann` in `w0`. -/
theorem C4_witness :
    (Demo.svc.jwtService.ValidateRefreshToken Ref.deps.jwt Demo.pair0.RefreshToken Demo.afterLogin
        = (.ok (mintedClaims "u1" 1700604800 1700000000), Demo.afterValidate) ∧
      claimString (mintedClaims "u1" 1700604800 1700000000) "sub" = ("u1", true) ∧
      "u1" ≠ "" ∧
      RedisClient.GetRefreshToken "u1" Demo.afterValidate
        = (.ok Demo.pair0.RefreshToken, Demo.afterGet) ∧
      Demo.svc.jwtService.GenerateAccessToken Ref.deps.jwt "u1" Demo.afterGet
        = (.ok Demo.pair0.AccessToken, Demo.afterAccess) ∧
      Demo.svc.jwtService.GenerateRefreshToken Ref.deps.jwt "u1" Demo.afterAccess
        = (.ok Demo.pair0.RefreshToken, Demo.afterRefresh) ∧
      RedisClient.StoreRefreshToken "u1" Demo.pair0.RefreshToken
        Demo.svc.jwtService.GetRefreshExpiry Demo.afterRefresh = (none, Demo.afterStore)) ∧
    (Demo.svc.RefreshToken Ref.deps Demo.pair0.RefreshToken Demo.afterLogin).1
      = .ok { AccessToken := Demo.pair0.AccessToken,
              RefreshToken := Demo.pair0.RefreshToken } ∧
    (Demo.svc.RefreshToken Ref.deps Demo.pair0.RefreshToken Demo.afterLogin).2.keys
        ("refresh:" ++ "u1")
      = some { value := Demo.pair0.RefreshToken,
               expireAt := setDeadline Demo.afterLogin.keys Demo.afterStore.now
                 ("refresh:" ++ "u1") Demo.svc.jwtService.GetRefreshExpiry } :=
  ⟨⟨Demo.rotation_steps.1, claimString_mintedClaims _ _ _, by decide, Demo.rotation_steps.2.1,
      Demo.rotation_steps.2.2.1, Demo.rotation_steps.2.2.2.1, Demo.rotation_steps.2.2.2.2⟩,
    (C4_rotation_stores_new_refresh_token Ref.deps Demo.svc Demo.pair0.RefreshToken
      Demo.afterLogin Demo.afterValidate Demo.afterGet Demo.afterAccess Demo.afterRefresh
      Demo.afterStore (mintedClaims "u1" 1700604800 1700000000) "u1" Demo.pair0.AccessToken
      Demo.pair0.RefreshToken Demo.rotation_steps.1 (claimString_mintedClaims _ _ _)
      (by decide) Demo.rotation_steps.2.1 Demo.rotation_steps.2.2.1
      Demo.rotation_steps.2.2.2.1 Demo.rotation_steps.2.2.2.2).1,
    (C4_rotation_stores_new_refresh_token Ref.deps Demo.svc Demo.pair0.RefreshToken
      Demo.afterLogin Demo.afterValidate Demo.afterGet Demo.afterAccess Demo.afterRefresh
      Demo.afterStore (mintedClaims "u1" 1700604800 1700000000) "u1" Demo.pair0.AccessToken
      Demo.pair0.RefreshToken Demo.rotation_steps.1 (claimString_mintedClaims _ _ _)
      (by decide) Demo.rotation_steps.2.1 Demo.rotation_steps.2.2.1
      Demo.rotation_steps.2.2.2.1 Demo.rotation_steps.2.2.2.2).2.1⟩

section logout_lemmas

variable (s : authService) (userID accessToken : String) (w : World)

/-- `Logout` when `BlacklistToken` fails: its error is returned and nothing else is done. -/
theorem logout_blacklist_fails (err : Error)
    (h : (RedisClient.BlacklistToken accessToken s.jwtService.GetAccessExpiry w).1 = some err) :
    s.Logout userID accessToken w =
      (some err, (RedisClient.BlacklistToken accessToken s.jwtService.GetAccessExpiry w).2) := by
  unfold authService.Logout
  rcases hb : RedisClient.BlacklistToken accessToken s.jwtService.GetAccessExpiry w with ⟨r, w1⟩
  rw [hb] at h
  simp only at h
  subst h
  rfl

/-- `Logout` when `BlacklistToken` succeeds: `DeleteRefreshToken` decides the outcome. -/
theorem logout_blacklist_ok
    (h : (RedisClient.BlacklistToken accessToken s.jwtService.GetAccessExpiry w).1 = none) :
    s.Logout userID accessToken w =
      RedisClient.DeleteRefreshToken userID
        (RedisClient.BlacklistToken accessToken s.jwtService.GetAccessExpiry w).2 := by
  unfold authService.Logout
  rcases hb : RedisClient.BlacklistToken accessToken s.jwtService.GetAccessExpiry w with ⟨r, w1⟩
  rw [hb] at h
  simp only at h
  subst h
  rfl

/-- A `Logout` that returns no error has run both store steps with success. -/
theorem logout_ok_inv (h : (s.Logout userID accessToken w).1 = none) :
    (RedisClient.BlacklistToken accessToken s.jwtService.GetAccessExpiry w).1 = none ∧
    (RedisClient.DeleteRefreshToken userID
      (RedisClient.BlacklistToken accessToken s.jwtService.GetAccessExpiry w).2).1 = none := by
  rcases hb : (RedisClient.BlacklistToken accessToken s.jwtService.GetAccessExpiry w).1
    with _ | err
  · rw [logout_blacklist_ok s userID accessToken w hb] at h
    exact ⟨rfl, h⟩
  · rw [logout_blacklist_fails s userID accessToken w err hb] at h
    simp at h

end logout_lemmas

theorem redisDEL_ok (key : String) (w : World) (h : (redisDEL key w).1 = none) :
    fails w = false := by
  rw [redisDEL_fst] at h
  by_contra hc
  simp [hc] at h

/-- The outcome of `IsTokenBlacklisted` when Redis executes the command: whether the blacklist
key of the token exists at the instant of the command. -/
theorem isTokenBlacklisted_fst (token : String) (w : World) (hf : fails w = false) :
    (RedisClient.IsTokenBlacklisted token w).1
      = ((liveAt w.keys (timeNow w).1 ("blacklist:" ++ token)).isSome, none) := by
  have h := redisEXISTS_fst ("blacklist:" ++ token) w
  rw [hf] at h
  simp only [Bool.false_eq_true, if_false] at h
  simp only [RedisClient.IsTokenBlacklisted, RedisClient.Exists]
  rcases hx : redisEXISTS ("blacklist:" ++ token) w with ⟨⟨n, oe⟩, w1⟩
  rw [hx] at h
  simp only at h
  rcases hl : liveAt w.keys (timeNow w).1 ("blacklist:" ++ token) with _ | e
  · rw [hl] at h
    simp only [Prod.mk.injEq] at h
    simp [h.1, h.2]
  · rw [hl] at h
    simp only [Prod.mk.injEq] at h
    simp [h.1, h.2]

theorem isTokenBlacklisted_snd (token : String) (w : World) :
    (RedisClient.IsTokenBlacklisted token w).2 = (redisEXISTS ("blacklist:" ++ token) w).2 := by
  simp only [RedisClient.IsTokenBlacklisted, RedisClient.Exists]

/-- The blacklist lookup issued `dt` nanoseconds after the last clock reading finds the token
as long as its blacklist key exists and has not reached its deadline. -/
theorem isTokenBlacklisted_of_entry (token : String) (w : World) (dt : Nat) (e : RedisEntry)
    (hk : w.keys ("blacklist:" ++ token) = some e)
    (hl : ∀ dl, e.expireAt = some dl → w.now + dt < dl) :
    (RedisClient.IsTokenBlacklisted token (later w dt)).1 = (true, none) := by
  rw [isTokenBlacklisted_fst token (later w dt) (fails_later w dt)]
  simp only [timeNow_later, later_keys]
  rw [liveAt_of_entry w.keys (w.now + dt) _ e hk hl]
  rfl

/-- The blacklist lookup issued once the deadline of the blacklist key has been reached does
not find the token. -/
theorem isTokenBlacklisted_expired (token : String) (w : World) (dt : Nat) (v : String)
    (dl : Int) (hk : w.keys ("blacklist:" ++ token) = some { value := v, expireAt := some dl })
    (hl : dl ≤ w.now + dt) :
    (RedisClient.IsTokenBlacklisted token (later w dt)).1 = (false, none) := by
  rw [isTokenBlacklisted_fst token (later w dt) (fails_later w dt)]
  simp only [timeNow_later, later_keys]
  have : liveAt w.keys (w.now + dt) ("blacklist:" ++ token) = none := by
    unfold liveAt
    rw [hk]
    have hn : ¬ (w.now + (dt : Int) < dl) := by omega
    simp [hn]
  rw [this]
  rfl

/-- `VerifyToken` on a token whose blacklist key exists: the token is rejected before it is
looked at. -/
theorem verifyToken_blacklisted (d : Deps) (s : authService) (token : String) (w : World)
    (dt : Nat) (e : RedisEntry)
    (h : liveAt w.keys (w.now + dt) ("blacklist:" ++ token) = some e) :
    (s.VerifyToken d token (later w dt)).1 = .ret (.error (.New "token is invalidated")) := by
  have hb := isTokenBlacklisted_later token w dt
  rw [h] at hb
  unfold authService.VerifyToken
  rcases hx : RedisClient.IsTokenBlacklisted token (later w dt) with ⟨⟨b, oe⟩, w1⟩
  rw [hx] at hb
  simp only [Prod.mk.injEq] at hb
  obtain ⟨hb1, hb2⟩ := hb
  subst hb1 hb2
  simp

/-- C5 (amended): when `Logout` returns no error, the session record of the subject is absent
(a `GET` at any later instant finds nothing), and the blacklist key of the access token holds
the marker `1` with the deadline of its `SET`, which is the instant of that `SET` plus
`GetAccessExpiry()` when that lifetime is positive. Until that deadline `VerifyToken` of that
token, valid or not, returns the error `token is invalidated`: the blacklist lookup comes
first and decides. From that deadline on the blacklist lookup no longer finds the token. -/
theorem C5_logout_invalidates_until_blacklist_deadline (d : Deps) (s : authService)
    (userID accessToken : String) (w : World)
    (h : (s.Logout userID accessToken w).1 = none) :
    (s.Logout userID accessToken w).2.keys ("refresh:" ++ userID) = none ∧
    (∀ dt : Nat,
      (RedisClient.GetRefreshToken userID (later (s.Logout userID accessToken w).2 dt)).1
        = .error .RedisNil) ∧
    (s.Logout userID accessToken w).2.keys ("blacklist:" ++ accessToken)
      = some { value := "1",
               expireAt := setDeadline w.keys
                 (RedisClient.BlacklistToken accessToken s.jwtService.GetAccessExpiry w).2.now
                 ("blacklist:" ++ accessToken) s.jwtService.GetAccessExpiry } ∧
    (∀ dt : Nat,
      (∀ dl, setDeadline w.keys
          (RedisClient.BlacklistToken accessToken s.jwtService.GetAccessExpiry w).2.now
          ("blacklist:" ++ accessToken) s.jwtService.GetAccessExpiry = some dl →
        (s.Logout userID accessToken w).2.now + dt < dl) →
      (s.VerifyToken d accessToken (later (s.Logout userID accessToken w).2 dt)).1
        = .ret (.error (.New "token is invalidated"))) ∧
    (0 < s.jwtService.GetAccessExpiry →
      setDeadline w.keys
          (RedisClient.BlacklistToken accessToken s.jwtService.GetAccessExpiry w).2.now
          ("blacklist:" ++ accessToken) s.jwtService.GetAccessExpiry
        = some ((RedisClient.BlacklistToken accessToken s.jwtService.GetAccessExpiry w).2.now
            + s.jwtService.GetAccessExpiry)) ∧
    (∀ (dt : Nat) (dl : Int),
      setDeadline w.keys
          (RedisClient.BlacklistToken accessToken s.jwtService.GetAccessExpiry w).2.now
          ("blacklist:" ++ accessToken) s.jwtService.GetAccessExpiry = some dl →
      dl ≤ (s.Logout userID accessToken w).2.now + dt →
      (RedisClient.IsTokenBlacklisted accessToken
        (later (s.Logout userID accessToken w).2 dt)).1 = (false, none)) := by
  have hpos : 0 < s.jwtService.GetAccessExpiry →
      setDeadline w.keys
          (RedisClient.BlacklistToken accessToken s.jwtService.GetAccessExpiry w).2.now
          ("blacklist:" ++ accessToken) s.jwtService.GetAccessExpiry
        = some ((RedisClient.BlacklistToken accessToken s.jwtService.GetAccessExpiry w).2.now
            + s.jwtService.GetAccessExpiry) := by
    intro hp
    have hp1 : s.jwtService.GetAccessExpiry > 0 := hp
    simp [setDeadline, hp1]
  obtain ⟨hb, hd⟩ := logout_ok_inv s userID accessToken w h
  rw [logout_blacklist_ok s userID accessToken w hb]
  simp only [RedisClient.BlacklistToken, RedisClient.DeleteRefreshToken, RedisClient.Set,
    RedisClient.Del] at hb hd hpos ⊢
  have hf1 := redisSET_ok _ _ _ _ hb
  have hf2 := redisDEL_ok _ _ hd
  have hk1 := redisSET_keys ("blacklist:" ++ accessToken) "1" s.jwtService.GetAccessExpiry w
  simp only [hf1, Bool.false_eq_true, if_false] at hk1
  have hk2 := redisDEL_keys ("refresh:" ++ userID)
    (redisSET ("blacklist:" ++ accessToken) "1" s.jwtService.GetAccessExpiry w).2
  simp only [hf2, Bool.false_eq_true, if_false, hk1] at hk2
  have hne : "blacklist:" ++ accessToken ≠ "refresh:" ++ userID :=
    fun hc => refresh_key_ne_blacklist_key _ _ hc.symm
  have hbl : (redisDEL ("refresh:" ++ userID)
      (redisSET ("blacklist:" ++ accessToken) "1" s.jwtService.GetAccessExpiry w).2).2.keys
      ("blacklist:" ++ accessToken)
      = some ⟨"1", setDeadline w.keys
          (redisSET ("blacklist:" ++ accessToken) "1" s.jwtService.GetAccessExpiry w).2.now
          ("blacklist:" ++ accessToken) s.jwtService.GetAccessExpiry⟩ := by
    rw [hk2]
    simp [hne]
  refine ⟨by rw [hk2]; simp, ?_, hbl, ?_, hpos, ?_⟩
  · intro dt
    rw [getRefreshToken_later, hk2]
    simp [liveAt]
  · intro dt hlive
    apply verifyToken_blacklisted d s accessToken _ dt
      ⟨"1", setDeadline w.keys
        (redisSET ("blacklist:" ++ accessToken) "1" s.jwtService.GetAccessExpiry w).2.now
        ("blacklist:" ++ accessToken) s.jwtService.GetAccessExpiry⟩
    exact liveAt_of_entry _ _ _ _ hbl hlive
  · intro dt dl hdl hle
    rw [hdl] at hbl
    exact isTokenBlacklisted_expired accessToken _ dt "1" dl hbl hle

/-- With Redis reachable, `Logout` returns no error. -/
theorem logout_ok_of_faults_nil (s : authService) (userID accessToken : String) (w : World)
    (hf : w.faults = []) : (s.Logout userID accessToken w).1 = none := by
  have hb : (RedisClient.BlacklistToken accessToken s.jwtService.GetAccessExpiry w).1
      = none := by
    simp [RedisClient.BlacklistToken, RedisClient.Set, redisSET_fst, fails_of_faults_nil w hf]
  rw [logout_blacklist_ok s userID accessToken w hb]
  have hf2 : fails (RedisClient.BlacklistToken accessToken s.jwtService.GetAccessExpiry w).2
      = false :=
    fails_of_faults_nil _ (by simp [RedisClient.BlacklistToken, RedisClient.Set, hf])
  simp [RedisClient.DeleteRefreshToken, RedisClient.Del, redisDEL_fst, hf2]

/-- The instants of the two commands of `Logout`. -/
theorem logout_instants (s : authService) (userID accessToken : String) (w : World)
    (h : (s.Logout userID accessToken w).1 = none) :
    w.now ≤ (RedisClient.BlacklistToken accessToken s.jwtService.GetAccessExpiry w).2.now ∧
    (s.Logout userID accessToken w).2.now ≤ horizon w := by
  obtain ⟨hb, -⟩ := logout_ok_inv s userID accessToken w h
  rw [logout_blacklist_ok s userID accessToken w hb]
  simp only [RedisClient.BlacklistToken, RedisClient.DeleteRefreshToken, RedisClient.Set,
    RedisClient.Del, redisSET_now, redisDEL_now]
  refine ⟨timeNow_ge w, ?_⟩
  have := timeNow_le_horizon (redisSET ("blacklist:" ++ accessToken) "1"
    s.jwtService.GetAccessExpiry w).2
  simpa using this

theorem Demo.logout_ok :
    (Demo.svc.Logout "u1" Demo.pair0.AccessToken Demo.afterLogin).1 = none :=
  logout_ok_of_faults_nil _ _ _ _ Demo.afterLogin_same_second.faults

theorem Demo.logout_window (dt : Nat) (hdt : (dt : Int) ≤ 899 * Second) (dl : Int)
    (h : setDeadline Demo.afterLogin.keys
      (RedisClient.BlacklistToken Demo.pair0.AccessToken Demo.svc.jwtService.GetAccessExpiry
        Demo.afterLogin).2.now
      ("blacklist:" ++ Demo.pair0.AccessToken) Demo.svc.jwtService.GetAccessExpiry = some dl) :
    (Demo.svc.Logout "u1" Demo.pair0.AccessToken Demo.afterLogin).2.now + (dt : Int)
      < dl := by
  obtain ⟨h1, h2⟩ := logout_instants Demo.svc "u1" Demo.pair0.AccessToken Demo.afterLogin
    Demo.logout_ok
  have hlow := Demo.afterLogin_same_second.low
  have hhigh := Demo.afterLogin_same_second.high
  have hA : Demo.svc.jwtService.GetAccessExpiry = 900 * Second := rfl
  rw [hA] at h h1
  have hpos : (900 * Second : Int) > 0 := by decide
  simp only [setDeadline, hpos, if_true, Option.some.injEq] at h
  have e1 : (1700000000 + 1) * Second = 1700000000 * Second + Second := by ring
  have e2 : (0 : Int) < Second := by decide
  have e3 : (900 : Int) * Second = 900 * 1000000000 := rfl
  have e4 : Second = 1000000000 := rfl
  have e5 : (899 : Int) * Second = 899 * 1000000000 := rfl
  omega

/-- The access token of the login still passes validation up to 899 seconds after the
logout. -/
theorem Demo.access_token_valid_after_logout (dt : Nat) (hdt : (dt : Int) ≤ 899 * Second) :
    (Demo.svc.jwtService.ValidateAccessToken Ref.codec Demo.pair0.AccessToken
      (later (Demo.svc.Logout "u1" Demo.pair0.AccessToken Demo.afterLogin).2 dt)).1
      = .ok (mintedClaims "u1" 1700000900 1700000000) := by
  obtain ⟨-, h2⟩ := logout_instants Demo.svc "u1" Demo.pair0.AccessToken Demo.afterLogin
    Demo.logout_ok
  have hhigh := Demo.afterLogin_same_second.high
  have h := validateToken_mint Ref.codec Ref.codec_lawful Demo.svc.jwtService "u1" 1700000900
    1700000000 (later (Demo.svc.Logout "u1" Demo.pair0.AccessToken Demo.afterLogin).2 dt)
  have hlt : (timeNow (later (Demo.svc.Logout "u1" Demo.pair0.AccessToken
      Demo.afterLogin).2 dt)).1 < 1700000900 * Second := by
    rw [timeNow_later]
    have e1 : (1700000000 + 1) * Second = 1700000001 * 1000000000 := by decide
    have e2 : (1700000900 : Int) * Second = 1700000900 * 1000000000 := rfl
    have e5 : (899 : Int) * Second = 899 * 1000000000 := rfl
    simp only
    omega
  rw [if_pos (Or.inr hlt)] at h
  exact congrArg Prod.fst h

/-- Witness of C5: `ann` logs out right after the login in `w0`, with the access token of
the login. Right after the logout and 899 seconds later the token still passes validation,
and `VerifyToken` rejects it as invalidated. -/
theorem C5_witness :
    (Demo.svc.Logout "u1" Demo.pair0.AccessToken Demo.afterLogin).1 = none ∧
    (Demo.svc.jwtService.ValidateAccessToken Ref.codec Demo.pair0.AccessToken
      (later (Demo.svc.Logout "u1" Demo.pair0.AccessToken Demo.afterLogin).2 0)).1
      = .ok (mintedClaims "u1" 1700000900 1700000000) ∧
    (Demo.svc.Logout "u1" Demo.pair0.AccessToken Demo.afterLogin).2.keys ("refresh:" ++ "u1")
      = none ∧
    (Demo.svc.VerifyToken Ref.deps Demo.pair0.AccessToken
      (later (Demo.svc.Logout "u1" Demo.pair0.AccessToken Demo.afterLogin).2 0)).1
      = .ret (.error (.New "token is invalidated")) ∧
    (Demo.svc.jwtService.ValidateAccessToken Ref.codec Demo.pair0.AccessToken
      (later (Demo.svc.Logout "u1" Demo.pair0.AccessToken Demo.afterLogin).2
        899000000000)).1
      = .ok (mintedClaims "u1" 1700000900 1700000000) ∧
    (Demo.svc.VerifyToken Ref.deps Demo.pair0.AccessToken
      (later (Demo.svc.Logout "u1" Demo.pair0.AccessToken Demo.afterLogin).2
        899000000000)).1
      = .ret (.error (.New "token is invalidated")) :=
  ⟨Demo.logout_ok, Demo.access_token_valid_after_logout 0 (by decide),
    (C5_logout_invalidates_until_blacklist_deadline Ref.deps Demo.svc "u1"
      Demo.pair0.AccessToken Demo.afterLogin Demo.logout_ok).1,
    (C5_logout_invalidates_until_blacklist_deadline Ref.deps Demo.svc "u1"
      Demo.pair0.AccessToken Demo.afterLogin Demo.logout_ok).2.2.2.1 0
      (Demo.logout_window 0 (by decide)),
    Demo.access_token_valid_after_logout 899000000000 (by decide),
    (C5_logout_invalidates_until_blacklist_deadline Ref.deps Demo.svc "u1"
      Demo.pair0.AccessToken Demo.afterLogin Demo.logout_ok).2.2.2.1 899000000000
      (Demo.logout_window 899000000000 (by decide))⟩

/-- C6 (amended): `Logout` calls `BlacklistToken` first. When that call returns an error,
`Logout` returns the error at once: `DeleteRefreshToken` is not called and the store is as it
was. When it succeeds, `DeleteRefreshToken` is called and decides the outcome, and the
session record of the subject is absent afterwards whenever the delete succeeds. -/
theorem C6_logout_stops_at_blacklist_error (s : authService) (userID accessToken : String)
    (w : World) :
    (∀ err, (RedisClient.BlacklistToken accessToken s.jwtService.GetAccessExpiry w).1
        = some err →
      s.Logout userID accessToken w =
        (some err, (RedisClient.BlacklistToken accessToken s.jwtService.GetAccessExpiry w).2) ∧
      (s.Logout userID accessToken w).2.log
        = w.log ++ [.Set ("blacklist:" ++ accessToken) "1" s.jwtService.GetAccessExpiry] ∧
      (s.Logout userID accessToken w).2.keys = w.keys) ∧
    ((RedisClient.BlacklistToken accessToken s.jwtService.GetAccessExpiry w).1 = none →
      s.Logout userID accessToken w =
        RedisClient.DeleteRefreshToken userID
          (RedisClient.BlacklistToken accessToken s.jwtService.GetAccessExpiry w).2 ∧
      (s.Logout userID accessToken w).2.log
        = w.log ++ [.Set ("blacklist:" ++ accessToken) "1" s.jwtService.GetAccessExpiry,
            .Del ("refresh:" ++ userID)] ∧
      ((s.Logout userID accessToken w).1 = none →
        (s.Logout userID accessToken w).2.keys ("refresh:" ++ userID) = none)) := by
  constructor
  · intro err herr
    rw [logout_blacklist_fails s userID accessToken w err herr]
    simp only [RedisClient.BlacklistToken, RedisClient.Set] at herr ⊢
    have hf : fails w = true := by
      by_contra hc
      simp [redisSET_fst, hc] at herr
    refine ⟨trivial, by simp, ?_⟩
    simp [redisSET_keys, hf]
  · intro hok
    rw [logout_blacklist_ok s userID accessToken w hok]
    simp only [RedisClient.BlacklistToken, RedisClient.DeleteRefreshToken, RedisClient.Set,
      RedisClient.Del]
    refine ⟨trivial, by simp, ?_⟩
    intro hd
    have hf2 := redisDEL_ok _ _ hd
    simp [redisDEL_keys, hf2]

theorem Demo.stale_blacklist_fails :
    RedisClient.BlacklistToken Demo.pair0.AccessToken Demo.svc.jwtService.GetAccessExpiry
      (Demo.stale [true])
      = (some .RedisDown, (redisSET ("blacklist:" ++ Demo.pair0.AccessToken) "1"
          Demo.svc.jwtService.GetAccessExpiry (Demo.stale [true])).2) := by
  refine Prod.ext ?_ rfl
  show (redisSET _ _ _ _).1 = _
  rw [redisSET_fst]
  have hf : fails (Demo.stale [true]) = true := rfl
  rw [hf]
  rfl

/-- C6 as stated fails: in the store whose session of `u1` holds `rotated`, the next Redis
command fails and the one after it would succeed. `BlacklistToken` returns an error, `Logout`
returns it, its only call is that `SET` (`DeleteRefreshToken` is not called although it would
succeed), and the session record is still there afterwards. -/
theorem C6_counterexample_delete_skipped :
    (RedisClient.BlacklistToken Demo.pair0.AccessToken Demo.svc.jwtService.GetAccessExpiry
      (Demo.stale [true])).1 = some .RedisDown ∧
    (RedisClient.DeleteRefreshToken "u1"
      (RedisClient.BlacklistToken Demo.pair0.AccessToken Demo.svc.jwtService.GetAccessExpiry
        (Demo.stale [true])).2).1 = none ∧
    (Demo.svc.Logout "u1" Demo.pair0.AccessToken (Demo.stale [true])).1 = some .RedisDown ∧
    (Demo.svc.Logout "u1" Demo.pair0.AccessToken (Demo.stale [true])).2.log
      = [.Set ("blacklist:" ++ Demo.pair0.AccessToken) "1"
          Demo.svc.jwtService.GetAccessExpiry] ∧
    (RedisClient.GetRefreshToken "u1"
      (later (Demo.svc.Logout "u1" Demo.pair0.AccessToken (Demo.stale [true])).2 0)).1
      = .ok Demo.rotated := by
  have hb := congrArg Prod.fst Demo.stale_blacklist_fails
  have hl := logout_blacklist_fails Demo.svc "u1" Demo.pair0.AccessToken (Demo.stale [true])
    .RedisDown hb
  refine ⟨hb, ?_, by rw [hl], ?_, ?_⟩
  · simp only [RedisClient.BlacklistToken, RedisClient.DeleteRefreshToken, RedisClient.Set,
      RedisClient.Del, redisDEL_fst]
    have hf : fails (redisSET ("blacklist:" ++ Demo.pair0.AccessToken) "1"
        Demo.svc.jwtService.GetAccessExpiry (Demo.stale [true])).2 = false := by
      have h : (redisSET ("blacklist:" ++ Demo.pair0.AccessToken) "1"
          Demo.svc.jwtService.GetAccessExpiry (Demo.stale [true])).2.faults
          = (Demo.stale []).faults := by
        rw [redisSET_faults]
        rfl
      exact (fails_congr h).trans rfl
    rw [hf]
    rfl
  · rw [hl]
    simp only [RedisClient.BlacklistToken, RedisClient.Set, redisSET_log]
    rfl
  · rw [hl, getRefreshToken_later]
    simp only [RedisClient.BlacklistToken, RedisClient.Set, redisSET_now]
    have hk : (redisSET ("blacklist:" ++ Demo.pair0.AccessToken) "1"
        Demo.svc.jwtService.GetAccessExpiry (Demo.stale [true])).2.keys
        = (Demo.stale [true]).keys := by
      rw [redisSET_keys]
      have hf : fails (Demo.stale [true]) = true := rfl
      rw [hf]
      rfl
    rw [hk]
    have hlive : liveAt (Demo.stale [true]).keys
        ((timeNow (Demo.stale [true])).1 + ((0 : Nat) : Int)) ("refresh:" ++ "u1")
        = some { value := Demo.rotated, expireAt := some (1700604850 * Second) } := by
      apply liveAt_of_entry _ _ _ _ (Demo.stale_session [true])
      intro dl hdl
      simp only [Option.some.injEq] at hdl
      subst hdl
      decide
    rw [hlive]

/-- What a successful `RefreshToken` did, step by step. -/
theorem refreshToken_ok_inv (d : Deps) (s : authService) (t : String) (w : World)
    (pair : TokenPair) (h : (s.RefreshToken d t w).1 = .ok pair) :
    ∃ claims sub w1 w2 w3 w4 w5,
      s.jwtService.ValidateRefreshToken d.jwt t w = (.ok claims, w1) ∧
      claimString claims "sub" = (sub, true) ∧ sub ≠ "" ∧
      RedisClient.GetRefreshToken sub w1 = (.ok t, w2) ∧
      s.jwtService.GenerateAccessToken d.jwt sub w2 = (.ok pair.AccessToken, w3) ∧
      s.jwtService.GenerateRefreshToken d.jwt sub w3 = (.ok pair.RefreshToken, w4) ∧
      RedisClient.StoreRefreshToken sub pair.RefreshToken s.jwtService.GetRefreshExpiry w4
        = (none, w5) ∧
      (s.RefreshToken d t w).2
        = (RedisClient.BlacklistToken t s.jwtService.GetRefreshExpiry w5).2 := by
  unfold authService.RefreshToken at h ⊢
  rcases hv : s.jwtService.ValidateRefreshToken d.jwt t w with ⟨rv, w1⟩
  simp only [hv] at h ⊢
  rcases rv with ev | claims
  · simp at h
  · simp only at h ⊢
    rcases hcs : claimString claims "sub" with ⟨sub, ok⟩
    simp only [hcs] at h ⊢
    cases ok
    · simp at h
    · by_cases hne : sub = ""
      · simp [hne] at h
      simp only [hne, Bool.true_eq_false, not_true_eq_false, or_self, or_false, if_false,
        Bool.not_eq_true] at h ⊢
      rcases hg : RedisClient.GetRefreshToken sub w1 with ⟨rg, w2⟩
      simp only [hg] at h ⊢
      rcases rg with eg | stored
      · simp only at h
        split at h <;> simp at h
      · simp only at h ⊢
        by_cases hst : stored = t
        · subst hst
          simp only [ne_eq, not_true_eq_false, if_false] at h ⊢
          rcases ha : s.jwtService.GenerateAccessToken d.jwt sub w2 with ⟨ra, w3⟩
          simp only [ha] at h ⊢
          rcases ra with ea | a
          · simp at h
          · simp only at h ⊢
            rcases hr : s.jwtService.GenerateRefreshToken d.jwt sub w3 with ⟨rr, w4⟩
            simp only [hr] at h ⊢
            rcases rr with er | r
            · simp at h
            · simp only at h ⊢
              rcases hs : RedisClient.StoreRefreshToken sub r s.jwtService.GetRefreshExpiry w4
                with ⟨rs, w5⟩
              simp only [hs] at h ⊢
              rcases rs with _ | es
              · simp only [Except.ok.injEq] at h
                subst h
                exact ⟨claims, sub, w1, w2, w3, w4, w5, rfl, hcs, hne, hg, ha, hr, hs, rfl⟩
              · simp at h
        · simp [hst] at h

/-- C7 (amended): the expiration `Logout` passes to `BlacklistToken` is the configured access
lifetime `GetAccessExpiry()`, and the expiration a successful `RefreshToken` passes for the
presented token is the configured refresh lifetime `GetRefreshExpiry()`, whatever the `exp`
of the token and whatever the wall clock. -/
theorem C7_blacklist_ttl_is_configured_lifetime (d : Deps) (s : authService) :
    (∀ (userID accessToken : String) (w : World),
      (s.Logout userID accessToken w).2.log
          = w.log ++ [.Set ("blacklist:" ++ accessToken) "1" s.jwtService.GetAccessExpiry] ∨
      (s.Logout userID accessToken w).2.log
          = w.log ++ [.Set ("blacklist:" ++ accessToken) "1" s.jwtService.GetAccessExpiry,
              .Del ("refresh:" ++ userID)]) ∧
    (∀ (t : String) (w : World) (pair : TokenPair),
      (s.RefreshToken d t w).1 = .ok pair →
      (s.RefreshToken d t w).2.log.getLast?
        = some (.Set ("blacklist:" ++ t) "1" s.jwtService.GetRefreshExpiry)) := by
  constructor
  · intro userID accessToken w
    rcases hb : (RedisClient.BlacklistToken accessToken s.jwtService.GetAccessExpiry w).1
      with _ | err
    · right
      rw [logout_blacklist_ok s userID accessToken w hb]
      simp [RedisClient.BlacklistToken, RedisClient.DeleteRefreshToken, RedisClient.Set,
        RedisClient.Del]
    · left
      rw [logout_blacklist_fails s userID accessToken w err hb]
      simp [RedisClient.BlacklistToken, RedisClient.Set]
  · intro t w pair h
    obtain ⟨claims, sub, w1, w2, w3, w4, w5, -, -, -, -, -, -, -, hw⟩ :=
      refreshToken_ok_inv d s t w pair h
    rw [hw]
    simp [RedisClient.BlacklistToken, RedisClient.Set]

/-- C7 as stated fails: `ann` logs out 100 seconds after the login in `w0` with the access
token of the login, whose `exp` is 1700000900. The expiration passed to `BlacklistToken` is
the full 900 seconds, while at every instant of the call the token has less than 900 seconds
left. -/
theorem C7_counterexample_full_lifetime :
    parseNumericDate (mintedClaims "u1" 1700000900 1700000000) "exp"
      = .ok (some 1700000900) ∧
    (Demo.svc.jwtService.ValidateAccessToken Ref.codec Demo.pair0.AccessToken
      (Demo.stale [])).1 = .ok (mintedClaims "u1" 1700000900 1700000000) ∧
    (Demo.svc.Logout "u1" Demo.pair0.AccessToken (Demo.stale [])).2.log
      = [.Set ("blacklist:" ++ Demo.pair0.AccessToken) "1" (900 * Second),
          .Del ("refresh:" ++ "u1")] ∧
    ∀ now : Int, (Demo.stale []).now ≤ now →
      1700000900 * Second - now ≠ 900 * Second := by
  refine ⟨?_, ?_, ?_, ?_⟩
  · have h1 : List.lookup "exp" (mintedClaims "u1" 1700000900 1700000000)
        = some (.num ((1700000900 : Int) : ℚ)) := by
      simp [mintedClaims, List.lookup]
    unfold parseNumericDate
    rw [h1]
    have hne : ((1700000900 : Int) : ℚ) ≠ 0 := by norm_num
    simp only [hne, if_false, Int.floor_intCast]
  · have h := validateToken_mint Ref.codec Ref.codec_lawful Demo.svc.jwtService "u1" 1700000900
      1700000000 (Demo.stale [])
    have ht : (timeNow (Demo.stale [])).1 = 1700000100 * Second + (Demo.ms : Int) := rfl
    have hlt : (timeNow (Demo.stale [])).1 < 1700000900 * Second := by
      rw [ht]
      decide
    rw [if_pos (Or.inr hlt)] at h
    exact congrArg Prod.fst h
  · have hb : (RedisClient.BlacklistToken Demo.pair0.AccessToken
        Demo.svc.jwtService.GetAccessExpiry (Demo.stale [])).1 = none := by
      simp only [RedisClient.BlacklistToken, RedisClient.Set, redisSET_fst]
      have hf : fails (Demo.stale []) = false := rfl
      rw [hf]
      rfl
    rw [logout_blacklist_ok Demo.svc "u1" Demo.pair0.AccessToken (Demo.stale []) hb]
    simp only [RedisClient.BlacklistToken, RedisClient.DeleteRefreshToken, RedisClient.Set,
      RedisClient.Del, redisDEL_log, redisSET_log]
    rfl
  · intro now hnow
    have h0 : (Demo.stale []).now = 1700000100 * 1000000000 := rfl
    have h1 : (1700000900 : Int) * Second = 1700000900 * 1000000000 := rfl
    have h2 : (900 : Int) * Second = 900 * 1000000000 := rfl
    omega

/-- Validation of a minted token, before and after its `exp`. -/
theorem validate_minted (lib : JWTCodec) (hl : lib.Lawful) (s : jwtService) (sub : String)
    (exp iat : Int) (wv : World) :
    ((exp = 0 ∨ (timeNow wv).1 < exp * Second) →
      (s.validateToken lib (mint lib s.secret sub exp iat) wv).1
        = .ok (mintedClaims sub exp iat)) ∧
    (exp ≠ 0 → exp * Second ≤ (timeNow wv).1 →
      ∃ e, (s.validateToken lib (mint lib s.secret sub exp iat) wv).1 = .error e ∧
        e.IsJwt .ErrTokenExpired = true) := by
  rw [validateToken_mint lib hl]
  constructor
  · intro h
    simp [h]
  · intro h0 hge
    have hn : ¬ (exp = 0 ∨ (timeNow wv).1 < exp * Second) := by
      intro hc
      rcases hc with hc | hc
      · exact h0 hc
      · omega
    refine ⟨.Jwt [.ErrTokenInvalidClaims, .ErrTokenExpired], by simp [hn], ?_⟩
    simp [Error.IsJwt]

/-- C8 (amended): a token minted by `GenerateAccessToken` (by `GenerateRefreshToken`) carries
the claims `sub`, `exp`, `iat` and no kind, where `exp` is the Unix second of a clock reading
of the mint plus the access (refresh) lifetime and `iat` the Unix second of the last clock
reading of the mint. Validated under the same secret, it is accepted, with those claims and
that subject, while the wall clock is before the second `exp` or when `exp` is zero, and
rejected with the expired-token error from the second `exp` on when `exp` is not zero. -/
theorem C8_minted_token_validates_until_exp (lib : JWTCodec) (hl : lib.Lawful)
    (s : jwtService) (userID : String) (w : World) :
    (∃ tok t1 exp iat,
      (s.GenerateAccessToken lib userID w).1 = .ok tok ∧
      w.now ≤ t1 ∧ t1 ≤ (s.GenerateAccessToken lib userID w).2.now ∧
      exp = Unix (t1 + s.accessExpiry) ∧
      iat = Unix (s.GenerateAccessToken lib userID w).2.now ∧
      claimString (mintedClaims userID exp iat) "sub" = (userID, true) ∧
      ∀ wv : World,
        ((exp = 0 ∨ (timeNow wv).1 < exp * Second) →
          (s.ValidateAccessToken lib tok wv).1 = .ok (mintedClaims userID exp iat)) ∧
        (exp ≠ 0 → exp * Second ≤ (timeNow wv).1 →
          ∃ e, (s.ValidateAccessToken lib tok wv).1 = .error e ∧ e.IsJwt .ErrTokenExpired = true)) ∧
    (∃ tok t1 exp iat,
      (s.GenerateRefreshToken lib userID w).1 = .ok tok ∧
      w.now ≤ t1 ∧ t1 ≤ (s.GenerateRefreshToken lib userID w).2.now ∧
      exp = Unix (t1 + s.refreshExpiry) ∧
      iat = Unix (s.GenerateRefreshToken lib userID w).2.now ∧
      claimString (mintedClaims userID exp iat) "sub" = (userID, true) ∧
      ∀ wv : World,
        ((exp = 0 ∨ (timeNow wv).1 < exp * Second) →
          (s.ValidateRefreshToken lib tok wv).1 = .ok (mintedClaims userID exp iat)) ∧
        (exp ≠ 0 → exp * Second ≤ (timeNow wv).1 →
          ∃ e, (s.ValidateRefreshToken lib tok wv).1 = .error e ∧ e.IsJwt .ErrTokenExpired = true)) := by
  constructor
  · obtain ⟨t1, h1, h2, h3⟩ := GenerateAccessToken_fst lib s userID w
    refine ⟨_, t1, _, _, h3, h1, h2, rfl, rfl, claimString_mintedClaims _ _ _, ?_⟩
    intro wv
    exact validate_minted lib hl s userID _ _ wv
  · obtain ⟨t1, h1, h2, h3⟩ := GenerateRefreshToken_fst lib s userID w
    refine ⟨_, t1, _, _, h3, h1, h2, rfl, rfl, claimString_mintedClaims _ _ _, ?_⟩
    intro wv
    exact validate_minted lib hl s userID _ _ wv

/-- Witness of C8: the reference text layer and the access token minted for `u1` in `w0`. -/
theorem C8_witness :
    Ref.codec.Lawful ∧
    (∃ tok t1 exp iat,
      (Demo.svc.jwtService.GenerateAccessToken Ref.codec "u1" Demo.w0).1 = .ok tok ∧
      Demo.w0.now ≤ t1 ∧ t1 ≤ (Demo.svc.jwtService.GenerateAccessToken Ref.codec "u1" Demo.w0).2.now ∧
      exp = Unix (t1 + Demo.svc.jwtService.accessExpiry) ∧
      iat = Unix (Demo.svc.jwtService.GenerateAccessToken Ref.codec "u1" Demo.w0).2.now ∧
      claimString (mintedClaims "u1" exp iat) "sub" = ("u1", true) ∧
      ∀ wv : World,
        ((exp = 0 ∨ (timeNow wv).1 < exp * Second) →
          (Demo.svc.jwtService.ValidateAccessToken Ref.codec tok wv).1 = .ok (mintedClaims "u1" exp iat)) ∧
        (exp ≠ 0 → exp * Second ≤ (timeNow wv).1 →
          ∃ e, (Demo.svc.jwtService.ValidateAccessToken Ref.codec tok wv).1 = .error e ∧ e.IsJwt .ErrTokenExpired = true)) :=
  ⟨Ref.codec_lawful,
    (C8_minted_token_validates_until_exp Ref.codec Ref.codec_lawful Demo.svc.jwtService "u1"
      Demo.w0).1⟩

theorem GenerateAccessToken_fst_eq (lib : JWTCodec) (s : jwtService) (u : String) (w : World) :
    (s.GenerateAccessToken lib u w).1
      = .ok (mint lib s.secret u (Unix ((timeNow w).1 + s.accessExpiry))
          (Unix (timeNow (timeNow w).2).1)) := by
  rcases w with ⟨now, ticks, faults, keys, log⟩
  rcases ticks with _ | ⟨a, _ | ⟨b, rest⟩⟩ <;>
    simp [jwtService.GenerateAccessToken, timeNow, record]

theorem GenerateRefreshToken_fst_eq (lib : JWTCodec) (s : jwtService) (u : String)
    (w : World) :
    (s.GenerateRefreshToken lib u w).1
      = .ok (mint lib s.secret u (Unix ((timeNow w).1 + s.refreshExpiry))
          (Unix (timeNow (timeNow w).2).1)) := by
  rcases w with ⟨now, ticks, faults, keys, log⟩
  rcases ticks with _ | ⟨a, _ | ⟨b, rest⟩⟩ <;>
    simp [jwtService.GenerateRefreshToken, timeNow, record]

/-- With equal lifetimes, the access token and the refresh token minted in the same world
are the same text. -/
theorem Demo.svcEq_same_token :
    (Demo.svcEq.GenerateAccessToken Ref.codec "u1" Demo.w0).1
        = .ok (mint Ref.codec "k" "u1" 1700000900 1700000000) ∧
    (Demo.svcEq.GenerateRefreshToken Ref.codec "u1" Demo.w0).1
        = .ok (mint Ref.codec "k" "u1" 1700000900 1700000000) := by
  have h1 : Unix ((timeNow Demo.w0).1 + 900 * Second) = 1700000900 := by decide
  have h2 : Unix (timeNow (timeNow Demo.w0).2).1 = 1700000000 := by decide
  constructor
  · have h := GenerateAccessToken_fst_eq Ref.codec Demo.svcEq "u1" Demo.w0
    have ha : Demo.svcEq.accessExpiry = 900 * Second := rfl
    rw [ha, h1, h2] at h
    exact h
  · have h := GenerateRefreshToken_fst_eq Ref.codec Demo.svcEq "u1" Demo.w0
    have hr : Demo.svcEq.refreshExpiry = 900 * Second := rfl
    rw [hr, h1, h2] at h
    exact h

/-- The access token minted across the turn of the second 1700000000 has `exp` 1700000899
and `iat` 1700000000. -/
theorem Demo.edge_token :
    (Demo.svc.jwtService.GenerateAccessToken Ref.codec "u1" Demo.wEdge).1
      = .ok (mint Ref.codec "k" "u1" 1700000899 1700000000) := by
  have h1 : Unix ((timeNow Demo.wEdge).1 + 900 * Second) = 1700000899 := by decide
  have h2 : Unix (timeNow (timeNow Demo.wEdge).2).1 = 1700000000 := by decide
  have h := GenerateAccessToken_fst_eq Ref.codec Demo.svc.jwtService "u1" Demo.wEdge
  have ha : Demo.svc.jwtService.accessExpiry = 900 * Second := rfl
  rw [ha, h1, h2] at h
  exact h

/-- C8 as stated fails, twice. No kind can be read off the claims: with equal lifetimes the
access token and the refresh token minted for a subject in the same world are the same text
and validate to the same claims. And the token is not valid until `iat` plus its lifetime:
the access token of 15 minutes minted across the turn of the second 1700000000 has `iat`
1700000000 and `exp` 1700000899, and at 1700000899.5 s, before `iat` plus 900 s, its
validation returns the expired-token error. -/
theorem C8_counterexample_no_kind_and_early_expiry :
    (¬ ∃ kindOf : MapClaims → Bool,
      ∀ (s : jwtService) (u : String) (w wv : World) (tok : String) (c : MapClaims),
        ((s.GenerateAccessToken Ref.codec u w).1 = .ok tok →
          (s.ValidateAccessToken Ref.codec tok wv).1 = .ok c → kindOf c = true) ∧
        ((s.GenerateRefreshToken Ref.codec u w).1 = .ok tok →
          (s.ValidateRefreshToken Ref.codec tok wv).1 = .ok c → kindOf c = false)) ∧
    ((Demo.svc.jwtService.GenerateAccessToken Ref.codec "u1" Demo.wEdge).1
        = .ok (mint Ref.codec "k" "u1" 1700000899 1700000000) ∧
      (timeNow Demo.wLate).1 < 1700000000 * Second + Demo.svc.jwtService.accessExpiry ∧
      (Demo.svc.jwtService.ValidateAccessToken Ref.codec
        (mint Ref.codec "k" "u1" 1700000899 1700000000) Demo.wLate).1
        = .error (.Jwt [.ErrTokenInvalidClaims, .ErrTokenExpired])) := by
  constructor
  · rintro ⟨kindOf, hk⟩
    obtain ⟨ha, hr⟩ := Demo.svcEq_same_token
    have hv : (Demo.svcEq.validateToken Ref.codec (mint Ref.codec "k" "u1" 1700000900
        1700000000) Demo.w0).1 = .ok (mintedClaims "u1" 1700000900 1700000000) :=
      (validate_minted Ref.codec Ref.codec_lawful Demo.svcEq "u1" 1700000900 1700000000
        Demo.w0).1 (Or.inr (by decide))
    obtain ⟨h1, h2⟩ := hk Demo.svcEq "u1" Demo.w0 Demo.w0
      (mint Ref.codec "k" "u1" 1700000900 1700000000)
      (mintedClaims "u1" 1700000900 1700000000)
    have e1 := h1 ha hv
    have e2 := h2 hr hv
    rw [e1] at e2
    exact absurd e2 (by decide)
  · refine ⟨Demo.edge_token, by decide, ?_⟩
    have h := validateToken_mint Ref.codec Ref.codec_lawful Demo.svc.jwtService "u1" 1700000899
      1700000000 Demo.wLate
    have hn : ¬ ((1700000899 : Int) = 0 ∨ (timeNow Demo.wLate).1 < 1700000899 * Second) := by
      decide
    rw [if_neg hn] at h
    exact congrArg Prod.fst h

theorem GetSigningMethod_HMAC (alg a : String) (h : GetSigningMethod alg = some (.HMAC a)) :
    alg = "HS256" ∨ alg = "HS384" ∨ alg = "HS512" := by
  unfold GetSigningMethod at h
  by_cases h1 : alg = "HS256" ∨ alg = "HS384" ∨ alg = "HS512"
  · exact h1
  · rw [if_neg h1] at h
    repeat' split at h
    all_goals simp at h

/-- C9: a token whose header names a signing method outside the HMAC family is rejected by
`ValidateAccessToken` and by `ValidateRefreshToken` with an error and no claims, whatever its
claims and its signature segment are, and before the clock is read. For a registered method
the key function returns `ErrSignatureInvalid` instead of the secret, and `jwt.Parse` reports
the token as unverifiable as soon as the signature segment can be decoded at all. -/
theorem C9_non_hmac_method_rejected (lib : JWTCodec) (s : jwtService) (token : String)
    (w : World) (c : Compact) (alg : String)
    (hdec : lib.decode token = some c) (halg : c.alg = some alg)
    (hnot : alg ≠ "HS256" ∧ alg ≠ "HS384" ∧ alg ≠ "HS512") :
    (∃ e, s.ValidateAccessToken lib token w = (.error e, w)) ∧
    (∃ e, s.ValidateRefreshToken lib token w = (.error e, w)) ∧
    (∀ m, GetSigningMethod alg = some m →
      (∀ sig, s.keyFunc { Raw := token, Method := m, Claims := c.claims, Signature := sig,
                          Valid := false } = .error .ErrSignatureInvalid) ∧
      (∀ sig, lib.DecodeSegment c.signature = some sig →
        s.ValidateAccessToken lib token w
          = (.error (.Jwt [.ErrTokenUnverifiable, .ErrSignatureInvalid]), w) ∧
        s.ValidateRefreshToken lib token w
          = (.error (.Jwt [.ErrTokenUnverifiable, .ErrSignatureInvalid]), w))) := by
  have hkey : ∀ m, GetSigningMethod alg = some m →
      ∀ sig, s.keyFunc { Raw := token, Method := m, Claims := c.claims, Signature := sig,
                         Valid := false } = .error .ErrSignatureInvalid := by
    intro m hm sig
    cases m with
    | HMAC a =>
      rcases GetSigningMethod_HMAC alg a hm with h | h | h
      · exact absurd h hnot.1
      · exact absurd h hnot.2.1
      · exact absurd h hnot.2.2
    | _ => rfl
  have hval : (∃ e, s.validateToken lib token w = (.error e, w)) ∧
      ∀ m, GetSigningMethod alg = some m → ∀ sig, lib.DecodeSegment c.signature = some sig →
        s.validateToken lib token w
          = (.error (.Jwt [.ErrTokenUnverifiable, .ErrSignatureInvalid]), w) := by
    unfold jwtService.validateToken Parse
    rw [hdec]
    simp only [halg]
    rcases hm : GetSigningMethod alg with _ | m
    · exact ⟨⟨_, rfl⟩, by simp⟩
    · rcases hs : lib.DecodeSegment c.signature with _ | sig
      · exact ⟨⟨_, rfl⟩, by simp⟩
      · simp only [hkey m hm sig]
        refine ⟨⟨_, rfl⟩, ?_⟩
        intro m' _ sig' _
        trivial
  refine ⟨hval.1, hval.1, ?_⟩
  intro m hm
  exact ⟨hkey m hm, fun sig hs => ⟨hval.2 m hm sig hs, hval.2 m hm sig hs⟩⟩

theorem Ref.codec_decode (alg : String) (claims : MapClaims) (sig : String) :
    Ref.codec.decode (Ref.codec.SigningString alg claims ++ "." ++ sig)
      = some { alg := some alg, claims := claims,
               signingInput := Ref.codec.SigningString alg claims, signature := sig } := by
  simp only [Ref.codec, Ref.decodeChars, String.data_append, List.append_assoc,
    Ref.decStr_encStr, Ref.decClaims_encClaims]
  rfl

/-- Witness of C9: an unsigned token whose header names the method `none`. -/
theorem C9_witness :
    (Ref.codec.decode Demo.noneToken
        = some { alg := some "none", claims := mintedClaims "u1" 1700604800 1700000000,
                 signingInput := Ref.codec.SigningString "none"
                   (mintedClaims "u1" 1700604800 1700000000),
                 signature := "" } ∧
      ("none" ≠ "HS256" ∧ "none" ≠ "HS384" ∧ "none" ≠ "HS512")) ∧
    (∃ e, Demo.svc.jwtService.ValidateAccessToken Ref.codec Demo.noneToken Demo.w0
        = (.error e, Demo.w0)) ∧
    (∃ e, Demo.svc.jwtService.ValidateRefreshToken Ref.codec Demo.noneToken Demo.w0
        = (.error e, Demo.w0)) :=
  ⟨⟨Ref.codec_decode _ _ _, by decide⟩,
    (C9_non_hmac_method_rejected Ref.codec Demo.svc.jwtService Demo.noneToken Demo.w0 _ "none"
      (Ref.codec_decode _ _ _) rfl (by decide)).1,
    (C9_non_hmac_method_rejected Ref.codec Demo.svc.jwtService Demo.noneToken Demo.w0 _ "none"
      (Ref.codec_decode _ _ _) rfl (by decide)).2.1⟩

/-- C10: a `Login` for an email no user has and a `Login` with a password that does not
verify against the stored hash return the same error, `invalid credentials`, and no token
pair, and both leave the world as it was: nothing is minted and the store is unchanged. -/
theorem C10_login_failures_indistinguishable (d : Deps) (s : authService)
    (email1 password1 email2 password2 : String) (w1 w2 : World) (user : User)
    (h1 : s.FindByEmail email1 = .ok none)
    (h2 : s.FindByEmail email2 = .ok (some user))
    (h3 : VerifyPassword d password2 user.Password = false) :
    (s.Login d email1 password1 w1).1 = (s.Login d email2 password2 w2).1 ∧
    (s.Login d email1 password1 w1).1 = .error (.New "invalid credentials") ∧
    (s.Login d email1 password1 w1).2 = w1 ∧
    (s.Login d email2 password2 w2).2 = w2 := by
  have e1 : s.Login d email1 password1 w1 = (.error (.New "invalid credentials"), w1) := by
    unfold authService.Login
    simp [h1]
  have e2 : s.Login d email2 password2 w2 = (.error (.New "invalid credentials"), w2) := by
    unfold authService.Login
    simp [h2, h3]
  rw [e1, e2]
  exact ⟨rfl, rfl, rfl, rfl⟩

theorem Demo.find_bob : Demo.svc.FindByEmail "bob@example.org" = .ok none := by
  simp [Demo.svc]

theorem Demo.find_ann : Demo.svc.FindByEmail "ann@example.org" = .ok (some Demo.ann) := by
  simp [Demo.svc]

/-- Witness of C10: an email nobody has, and the email of `ann` with a wrong password. -/
theorem C10_witness :
    (Demo.svc.FindByEmail "bob@example.org" = .ok none ∧
      Demo.svc.FindByEmail "ann@example.org" = .ok (some Demo.ann) ∧
      VerifyPassword Ref.deps "pw-bob" Demo.ann.Password = false) ∧
    (Demo.svc.Login Ref.deps "bob@example.org" "pw-bob" Demo.w0).1
      = (Demo.svc.Login Ref.deps "ann@example.org" "pw-bob" Demo.afterLogin).1 ∧
    (Demo.svc.Login Ref.deps "bob@example.org" "pw-bob" Demo.w0).1
      = .error (.New "invalid credentials") ∧
    (Demo.svc.Login Ref.deps "bob@example.org" "pw-bob" Demo.w0).2 = Demo.w0 ∧
    (Demo.svc.Login Ref.deps "ann@example.org" "pw-bob" Demo.afterLogin).2
      = Demo.afterLogin :=
  ⟨⟨Demo.find_bob, Demo.find_ann, by decide⟩,
    C10_login_failures_indistinguishable Ref.deps Demo.svc "bob@example.org" "pw-bob"
      "ann@example.org" "pw-bob" Demo.w0 Demo.afterLogin Demo.ann Demo.find_bob Demo.find_ann
      (by decide)⟩

/-! ## The middleware and the unchecked subject -/

theorem sliceFrom_bearer (t : String) : sliceFrom ("Bearer " ++ t) 7 = .ret t := by
  have h1 : "Bearer " ++ t = ⟨"Bearer ".data ++ t.data ++ []⟩ := by
    apply String.ext
    simp [String.data_append]
  have h7 : String.utf8Len "Bearer ".data = 7 := by decide
  have hsz : ("Bearer " ++ t).utf8ByteSize = 7 + String.utf8Len t.data := by
    rw [h1, String.utf8ByteSize_mk]
    simp only [List.append_nil, String.utf8Len_append, h7]
  have hend : ("Bearer " ++ t).endPos = ⟨7 + String.utf8Len t.data⟩ := by
    show (⟨("Bearer " ++ t).utf8ByteSize⟩ : String.Pos) = _
    rw [hsz]
  unfold sliceFrom
  rw [if_pos (by omega), hend]
  have := String.extract_of_valid "Bearer ".data t.data []
  rw [h7, ← h1] at this
  rw [this]

theorem sliceFrom_panic_iff (s : String) (low : Nat) :
    sliceFrom s low = .panic ↔ s.utf8ByteSize < low := by
  unfold sliceFrom
  by_cases h : low ≤ s.utf8ByteSize
  · simp [h]
  · simp [h]
    omega

/-- The paths of `AuthRequired` for a header of at least seven bytes: the handler returns a
response, its first call is the blacklist lookup of the header from byte seven on, and the
token it passes on is that text. -/
theorem authRequired_long (lib : JWTCodec) (m : Middleware) (authHeader : String) (w : World)
    (h7 : 7 ≤ authHeader.utf8ByteSize) :
    (m.AuthRequired lib authHeader w).1 ≠ .panic ∧
    (m.AuthRequired lib authHeader w).2.log
      = w.log ++ [.Exists ("blacklist:" ++ authHeader.extract ⟨7⟩ authHeader.endPos)] ∧
    ∀ userID token, (m.AuthRequired lib authHeader w).1 = .ret (.Next userID token) →
      token = authHeader.extract ⟨7⟩ authHeader.endPos := by
  have hne : authHeader ≠ "" := by
    intro h
    rw [h] at h7
    exact absurd h7 (by decide)
  have hs : sliceFrom authHeader 7 = .ret (authHeader.extract ⟨7⟩ authHeader.endPos) := by
    unfold sliceFrom
    rw [if_pos h7]
  unfold Middleware.AuthRequired
  rw [if_neg hne, hs]
  simp only
  have hlog : (RedisClient.IsTokenBlacklisted (authHeader.extract ⟨7⟩ authHeader.endPos) w).2.log
      = w.log ++ [.Exists ("blacklist:" ++ authHeader.extract ⟨7⟩ authHeader.endPos)] := by
    simp [RedisClient.IsTokenBlacklisted, RedisClient.Exists]
  rcases hb : RedisClient.IsTokenBlacklisted (authHeader.extract ⟨7⟩ authHeader.endPos) w
    with ⟨⟨b, oe⟩, w1⟩
  rw [hb] at hlog
  simp only at hlog
  rcases oe with _ | e
  · cases b
    · simp only [Bool.false_eq_true, if_false]
      have hvl := validateToken_log lib m.jwtService (authHeader.extract ⟨7⟩ authHeader.endPos) w1
      rcases hv : m.jwtService.ValidateAccessToken lib (authHeader.extract ⟨7⟩ authHeader.endPos) w1
        with ⟨r, w2⟩
      have hv2 : m.jwtService.validateToken lib (authHeader.extract ⟨7⟩ authHeader.endPos) w1
          = (r, w2) := hv
      rw [hv2] at hvl
      simp only at hvl
      rcases r with e | claims
      · exact ⟨by simp, by rw [hvl, hlog], by simp⟩
      · simp only
        rcases claimString claims "sub" with ⟨u, ok⟩
        cases ok
        · exact ⟨by simp, by simp [hvl, hlog], by simp⟩
        · refine ⟨by simp, by simp [hvl, hlog], ?_⟩
          intro userID token h
          simp at h
          exact h.2.symm
    · exact ⟨by simp, by simp [hlog], by simp⟩
  · exact ⟨by simp, by simp [hlog], by simp⟩

/-- The path of `AuthRequired` for a header of one to six bytes. -/
theorem authRequired_short (lib : JWTCodec) (m : Middleware) (authHeader : String) (w : World)
    (hne : authHeader ≠ "") (h7 : authHeader.utf8ByteSize < 7) :
    m.AuthRequired lib authHeader w = (.panic, w) := by
  have hs : sliceFrom authHeader 7 = .panic := (sliceFrom_panic_iff _ _).2 h7
  unfold Middleware.AuthRequired
  rw [if_neg hne, hs]

/-- Validation, by the reference text layer, of a token signed under the secret of the
service over any claims that pass the checks of `exp` and `nbf`. -/
theorem Ref.validateToken_signed (s : jwtService) (claims : MapClaims) (w : World)
    (he : verifyExpiresAt claims (timeNow w).1 = none)
    (hn : verifyNotBefore claims (timeNow w).1 = none) :
    s.validateToken Ref.codec
        (Ref.codec.SigningString "HS256" claims ++ "." ++
          Ref.codec.EncodeSegment
            (Ref.codec.hmac "HS256" (Ref.codec.SigningString "HS256" claims) s.secret)) w
      = (.ok claims, (timeNow w).2) := by
  unfold jwtService.validateToken Parse
  rw [Ref.codec_decode]
  have hm : GetSigningMethod "HS256" = some (.HMAC "HS256") := by decide
  simp only [hm, Ref.codec_lawful.decode_segment, jwtService.keyFunc, SigningMethod.Verify,
    if_true, Validate, he, hn]
  rfl

/-- C11 (what the code does): for a token that is not blacklisted and passes validation,
whose claims hold no `sub` or a `sub` that is not a string, `VerifyToken` does not return: its
unchecked type assertion `claims["sub"].(string)` panics, so it gives the caller neither an
error nor a subject. On the same token the handler `AuthRequired`, whose assertion is checked,
answers 401 `Invalid token claims`. -/
theorem C11_verifyToken_panics_without_string_subject (d : Deps) (s : authService)
    (token : String) (w w1 w2 : World) (claims : MapClaims)
    (hb : RedisClient.IsTokenBlacklisted token w = ((false, none), w1))
    (hv : s.jwtService.ValidateAccessToken d.jwt token w1 = (.ok claims, w2))
    (hs : (claimString claims "sub").2 = false) :
    s.VerifyToken d token w = (.panic, w2) ∧
    (∀ r, (s.VerifyToken d token w).1 ≠ .ret r) ∧
    Middleware.AuthRequired d.jwt ⟨s.jwtService⟩ ("Bearer " ++ token) w
      = (.ret (.JSON StatusUnauthorized "Invalid token claims"), w2) := by
  have hp : s.VerifyToken d token w = (.panic, w2) := by
    unfold authService.VerifyToken
    rw [hb]
    simp only [Bool.false_eq_true, if_false]
    rw [hv]
    simp only
    rcases hc : claimString claims "sub" with ⟨u, ok⟩
    rw [hc] at hs
    simp only at hs
    subst hs
    rfl
  refine ⟨hp, ?_, ?_⟩
  · intro r
    rw [hp]
    simp
  · unfold Middleware.AuthRequired
    have hne : "Bearer " ++ token ≠ "" := by
      intro h
      have := congrArg String.length h
      simp only [String.length_append] at this
      have h7 : "Bearer ".length = 7 := rfl
      have h0 : "".length = 0 := rfl
      omega
    rw [if_neg hne, sliceFrom_bearer]
    simp only
    rw [hb]
    simp only [Bool.false_eq_true, if_false]
    rw [hv]
    simp only
    rcases hc : claimString claims "sub" with ⟨u, ok⟩
    rw [hc] at hs
    simp only at hs
    subst hs
    simp

theorem Demo.not_blacklisted_w0 (token : String) :
    RedisClient.IsTokenBlacklisted token Demo.w0
      = ((false, none), (redisEXISTS ("blacklist:" ++ token) Demo.w0).2) := by
  refine Prod.ext ?_ (isTokenBlacklisted_snd token Demo.w0)
  rw [isTokenBlacklisted_fst token Demo.w0 rfl]
  rfl

theorem Demo.validate_noSub (w : World) (h : (timeNow w).1 < 1700604800 * Second) :
    Demo.svc.jwtService.ValidateAccessToken Ref.codec (Demo.signed Demo.noSubClaims) w
      = (.ok Demo.noSubClaims, (timeNow w).2) := by
  apply Ref.validateToken_signed Demo.svc.jwtService Demo.noSubClaims w
  · have h1 : List.lookup "exp" Demo.noSubClaims = some (.num ((1700604800 : Int) : ℚ)) := by
      simp [Demo.noSubClaims, List.lookup]
    unfold verifyExpiresAt parseNumericDate
    rw [h1]
    simp [h]
  · have h1 : List.lookup "nbf" Demo.noSubClaims = none := by
      simp [Demo.noSubClaims, List.lookup]
    unfold verifyNotBefore parseNumericDate
    rw [h1]

theorem Demo.validate_numSub (w : World) (h : (timeNow w).1 < 1700604800 * Second) :
    Demo.svc.jwtService.ValidateAccessToken Ref.codec (Demo.signed Demo.numSubClaims) w
      = (.ok Demo.numSubClaims, (timeNow w).2) := by
  apply Ref.validateToken_signed Demo.svc.jwtService Demo.numSubClaims w
  · have h1 : List.lookup "exp" Demo.numSubClaims = some (.num ((1700604800 : Int) : ℚ)) := by
      simp [Demo.numSubClaims, List.lookup]
    unfold verifyExpiresAt parseNumericDate
    rw [h1]
    simp [h]
  · have h1 : List.lookup "nbf" Demo.numSubClaims = none := by
      simp [Demo.numSubClaims, List.lookup]
    unfold verifyNotBefore parseNumericDate
    rw [h1]

theorem Demo.w0_before_exp (token : String) :
    (timeNow (redisEXISTS ("blacklist:" ++ token) Demo.w0).2).1 < 1700604800 * Second := by
  have h := timeNow_le_horizon (redisEXISTS ("blacklist:" ++ token) Demo.w0).2
  rw [redisEXISTS_horizon] at h
  have h2 : horizon Demo.w0 < 1700604800 * Second := by decide
  omega

/-- Witness of C11: in the empty store `w0`, two tokens signed under the secret of the
service, one whose claims hold an expiry and no subject, one whose subject is a number. -/
theorem C11_witness :
    ((RedisClient.IsTokenBlacklisted (Demo.signed Demo.noSubClaims) Demo.w0).1 = (false, none) ∧
      (claimString Demo.noSubClaims "sub").2 = false ∧
      (Demo.svc.VerifyToken Ref.deps (Demo.signed Demo.noSubClaims) Demo.w0).1 = .panic) ∧
    ((RedisClient.IsTokenBlacklisted (Demo.signed Demo.numSubClaims) Demo.w0).1 = (false, none) ∧
      (claimString Demo.numSubClaims "sub").2 = false ∧
      (Demo.svc.VerifyToken Ref.deps (Demo.signed Demo.numSubClaims) Demo.w0).1 = .panic) :=
  ⟨⟨congrArg Prod.fst (Demo.not_blacklisted_w0 _), by decide,
      congrArg Prod.fst (C11_verifyToken_panics_without_string_subject Ref.deps Demo.svc
        (Demo.signed Demo.noSubClaims) Demo.w0 _ _ Demo.noSubClaims
        (Demo.not_blacklisted_w0 _) (Demo.validate_noSub _ (Demo.w0_before_exp _))
        (by decide)).1⟩,
    ⟨congrArg Prod.fst (Demo.not_blacklisted_w0 _), by decide,
      congrArg Prod.fst (C11_verifyToken_panics_without_string_subject Ref.deps Demo.svc
        (Demo.signed Demo.numSubClaims) Demo.w0 _ _ Demo.numSubClaims
        (Demo.not_blacklisted_w0 _) (Demo.validate_numSub _ (Demo.w0_before_exp _))
        (by decide)).1⟩⟩

/-! ## Two concurrent calls of `RefreshToken` -/

/-- A call of `RefreshToken` that runs alone takes six steps, and they are `RefreshToken`. -/
theorem interleave_alone (d : Deps) (s : authService) (t : String) (b : RefreshPoint)
    (w : World) :
    s.interleave d t [true, true, true, true, true, true]
        { first := .validate, second := b, world := w }
      = { first := .done (s.RefreshToken d t w).1, second := b,
          world := (s.RefreshToken d t w).2 } := by
  unfold authService.RefreshToken
  simp only [authService.interleave, authService.refreshStep]
  rcases s.jwtService.ValidateRefreshToken d.jwt t w with ⟨rv, w1⟩
  rcases rv with e | claims
  · rfl
  · simp only
    rcases claimString claims "sub" with ⟨userID, ok⟩
    cases ok
    · simp [authService.refreshStep]
    · by_cases hu : userID = ""
      · simp [hu, authService.refreshStep]
      · simp only [hu, Bool.true_eq_false, not_true_eq_false, or_self, if_false,
          authService.refreshStep, not_false_eq_true]
        rcases RedisClient.GetRefreshToken userID w1 with ⟨rg, w2⟩
        rcases rg with e | stored
        · simp only
          rcases hn : e.IsRedisNil
          · simp [authService.refreshStep]
          · simp [authService.refreshStep]
        · simp only
          by_cases hm : stored = t
          · simp only [hm, ne_eq, not_true_eq_false, if_false, authService.refreshStep]
            rcases s.jwtService.GenerateAccessToken d.jwt userID w2 with ⟨ra, w3⟩
            rcases ra with e | a
            · simp [authService.refreshStep]
            · simp only [authService.refreshStep]
              rcases s.jwtService.GenerateRefreshToken d.jwt userID w3 with ⟨rr, w4⟩
              rcases rr with e | r
              · simp [authService.refreshStep]
              · simp only [authService.refreshStep]
                rcases RedisClient.StoreRefreshToken userID r s.jwtService.GetRefreshExpiry w4
                  with ⟨rs, w5⟩
                rcases rs with _ | e
                · simp [authService.refreshStep]
                · simp [authService.refreshStep]
          · simp [hm, authService.refreshStep]

section steps

variable {d : Deps} {s : authService} {u r0 : String} {exp lo hi : Int} {w : World}

theorem Running.step {w1 : World} (hR : Running lo hi w) (hs : Step w w1)
    (hf : w1.faults = w.faults ∨ w1.faults = w.faults.tail) : Running lo hi w1 := by
  refine ⟨?_, le_trans hR.now_ge hs.now_le, hs.horizon_eq.trans hR.horizon_eq⟩
  rcases hf with h | h
  · rw [h, hR.faults]
  · rw [h, hR.faults]
    rfl

theorem Running.fails (hR : Running lo hi w) : fails w = false :=
  fails_of_faults_nil w hR.faults

theorem Running.now_le (hR : Running lo hi w) : w.now ≤ hi :=
  hR.horizon_eq ▸ now_le_horizon w

/-- The step of a call that has not read the session record yet. -/
theorem refreshStep_before (hS : Refreshing d s u r0 exp lo hi) (hR : Running lo hi w)
    (p : RefreshPoint) (hp : p.before u) (v : String) (hH : Holds hi w u v) :
    Running lo hi (s.refreshStep d r0 p w).2 ∧
    (s.refreshStep d r0 p w).2.keys = w.keys ∧
    ((s.refreshStep d r0 p w).1.before u ∨
      (v = r0 ∧ (s.refreshStep d r0 p w).1.matched u) ∨
      (v ≠ r0 ∧ (s.refreshStep d r0 p w).1.mismatched u)) := by
  obtain ⟨iat, hr0⟩ := hS.minted
  cases p with
  | validate =>
    have hcond : exp = 0 ∨ (timeNow w).1 < exp * Second := by
      rcases hS.unexpired with h | h
      · exact Or.inl h
      · have h1 := timeNow_le_horizon w
        have h2 := hR.horizon_eq
        exact Or.inr (by omega)
    have hv : s.jwtService.ValidateRefreshToken d.jwt r0 w
        = (.ok (mintedClaims u exp iat), (timeNow w).2) := by
      unfold jwtService.ValidateRefreshToken
      rw [hr0, validateToken_mint d.jwt hS.lawful, if_pos hcond]
    have hst : s.refreshStep d r0 .validate w = (.get u, (timeNow w).2) := by
      simp only [authService.refreshStep, hv, claimString_mintedClaims]
      simp [hS.subject]
    rw [hst]
    refine ⟨hR.step (Step.of_now _ _ (by simpa using timeNow_ge w) (by simp))
      (Or.inl (by simp)), by simp, Or.inl rfl⟩
  | get u1 =>
    have hu : u1 = u := hp
    subst hu
    obtain ⟨dl, hk, hdl⟩ := hH
    rcases hg : redisGET ("refresh:" ++ u1) w with ⟨rg, w2⟩
    obtain ⟨st2, hf2, -, hk2, hr2⟩ := redisGET_step _ _ _ _ hg
    have hlive : liveAt w.keys w2.now ("refresh:" ++ u1)
        = some { value := v, expireAt := dl } := by
      apply liveAt_of_entry _ _ _ _ hk
      intro x hx
      have h1 := st2.le_horizon
      have h2 := hR.horizon_eq
      have h3 := hdl x hx
      omega
    rw [hR.fails, hlive] at hr2
    simp only [Bool.false_eq_true, if_false] at hr2
    subst hr2
    have hR2 : Running lo hi w2 := hR.step st2 (Or.inr hf2)
    have hst : s.refreshStep d r0 (.get u1) w
        = (if v ≠ r0 then (.delete u1, w2) else (.generateAccess u1, w2)) := by
      simp only [authService.refreshStep, RedisClient.GetRefreshToken, RedisClient.Get, hg]
    rw [hst]
    by_cases hv : v = r0
    · rw [if_neg (not_not.mpr hv)]
      exact ⟨hR2, hk2, Or.inr (Or.inl ⟨hv, rfl⟩)⟩
    · rw [if_pos hv]
      exact ⟨hR2, hk2, Or.inr (Or.inr ⟨hv, rfl⟩)⟩
  | _ => exact absurd hp (by simp [RefreshPoint.before])

/-- The step of a call that has found the presented token in the session record: it mints,
or it stores its new refresh token. -/
theorem refreshStep_matched (hS : Refreshing d s u r0 exp lo hi) (hR : Running lo hi w)
    (p : RefreshPoint) (hp : p.matched u) :
    Running lo hi (s.refreshStep d r0 p w).2 ∧
    (((s.refreshStep d r0 p w).1.matched u ∧ (s.refreshStep d r0 p w).2.keys = w.keys) ∨
      (∃ r, (s.refreshStep d r0 p w).1.stored r ∧ Holds hi (s.refreshStep d r0 p w).2 u r)) := by
  cases p with
  | generateAccess u1 =>
    have hu : u1 = u := hp
    subst hu
    rcases hg : s.jwtService.GenerateAccessToken d.jwt u1 w with ⟨ra, w3⟩
    obtain ⟨st3, hk3, hf3, -, t1, -, -, hr3⟩ := GenerateAccessToken_step _ _ _ _ _ _ hg
    subst hr3
    simp only [authService.refreshStep, hg]
    exact ⟨hR.step st3 (Or.inl hf3), Or.inl ⟨rfl, hk3⟩⟩
  | generateRefresh u1 a =>
    have hu : u1 = u := hp
    subst hu
    rcases hg : s.jwtService.GenerateRefreshToken d.jwt u1 w with ⟨rr, w4⟩
    obtain ⟨st4, hk4, hf4, -, t1, -, -, hr4⟩ := GenerateRefreshToken_step _ _ _ _ _ _ hg
    subst hr4
    simp only [authService.refreshStep, hg]
    exact ⟨hR.step st4 (Or.inl hf4), Or.inl ⟨rfl, hk4⟩⟩
  | store u1 a r =>
    have hu : u1 = u := hp
    subst hu
    rcases hg : redisSET ("refresh:" ++ u1) r s.jwtService.GetRefreshExpiry w with ⟨rs, w5⟩
    obtain ⟨st5, hf5, -, hr5, hk5⟩ := redisSET_step _ _ _ _ _ _ hg
    simp only [hR.fails, Bool.false_eq_true, if_false] at hr5 hk5
    subst hr5
    have hR5 : Running lo hi w5 := hR.step st5 (Or.inr hf5)
    have hst : s.refreshStep d r0 (.store u1 a r) w = (.blacklist a r, w5) := by
      simp only [authService.refreshStep, RedisClient.StoreRefreshToken, RedisClient.Set, hg]
    rw [hst]
    refine ⟨hR5, Or.inr ⟨r, rfl, ?_⟩⟩
    have hpos : s.jwtService.GetRefreshExpiry > 0 := by
      have h1 := hS.lifetime
      have h2 := hR.now_ge
      have h3 := hR.now_le
      unfold jwtService.GetRefreshExpiry
      omega
    refine ⟨some (w5.now + s.jwtService.GetRefreshExpiry), ?_, ?_⟩
    · rw [hk5]
      simp [setDeadline, hpos]
    · intro x hx
      simp only [Option.some.injEq] at hx
      have h1 := hS.lifetime
      have h2 := hR5.now_ge
      unfold jwtService.GetRefreshExpiry at hx
      omega
  | _ => exact absurd hp (by simp [RefreshPoint.matched])

/-- The step of a call that has stored its new refresh token: it blacklists the presented
token and returns its pair; the session record stays as it is. -/
theorem refreshStep_stored (hR : Running lo hi w) (p : RefreshPoint) (r : String)
    (hp : p.stored r) :
    Running lo hi (s.refreshStep d r0 p w).2 ∧ (s.refreshStep d r0 p w).1.stored r ∧
    (s.refreshStep d r0 p w).2.keys ("refresh:" ++ u) = w.keys ("refresh:" ++ u) := by
  cases p with
  | blacklist a r1 =>
    have hr : r1 = r := hp
    subst hr
    rcases hg : redisSET ("blacklist:" ++ r0) "1" s.jwtService.GetRefreshExpiry w with ⟨rs, w6⟩
    obtain ⟨st6, hf6, -, -, hk6⟩ := redisSET_step _ _ _ _ _ _ hg
    simp only [hR.fails, Bool.false_eq_true, if_false] at hk6
    have hst : s.refreshStep d r0 (.blacklist a r1) w
        = (.done (.ok { AccessToken := a, RefreshToken := r1 }), w6) := by
      simp only [authService.refreshStep, RedisClient.BlacklistToken, RedisClient.Set, hg]
    rw [hst]
    refine ⟨hR.step st6 (Or.inr hf6), rfl, ?_⟩
    rw [hk6]
    simp [refresh_key_ne_blacklist_key]
  | done res =>
    cases res with
    | ok pair => exact ⟨hR, hp, rfl⟩
    | error e => exact absurd hp (by simp [RefreshPoint.stored])
  | _ => exact absurd hp (by simp [RefreshPoint.stored])

/-- The step of a call that has found another token in the session record: it deletes the
record and returns the mismatch error. -/
theorem refreshStep_mismatched (hR : Running lo hi w) (p : RefreshPoint)
    (hp : p.mismatched u) :
    Running lo hi (s.refreshStep d r0 p w).2 ∧ (s.refreshStep d r0 p w).1.failed ∧
    (s.refreshStep d r0 p w).2.keys ("refresh:" ++ u) = none := by
  cases p with
  | delete u1 =>
    have hu : u1 = u := hp
    subst hu
    rcases hg : redisDEL ("refresh:" ++ u1) w with ⟨rs, w3⟩
    obtain ⟨st3, hf3, -, -, hk3⟩ := redisDEL_step _ _ _ _ hg
    simp only [hR.fails, Bool.false_eq_true, if_false] at hk3
    have hst : s.refreshStep d r0 (.delete u1) w
        = (.done (.error (.New "refresh token mismatch - possible token reuse")), w3) := by
      simp only [authService.refreshStep, RedisClient.DeleteRefreshToken, RedisClient.Del, hg]
    rw [hst]
    refine ⟨hR.step st3 (Or.inr hf3), rfl, ?_⟩
    rw [hk3]
    simp
  | _ => exact absurd hp (by simp [RefreshPoint.mismatched])

/-- A call that has returned takes no step. -/
theorem refreshStep_done (d : Deps) (s : authService) (r0 : String)
    (res : Except Error TokenPair) (w : World) :
    s.refreshStep d r0 (.done res) w = (.done res, w) := rfl

/-- Every step brings a call that has not returned closer to its return. -/
theorem refreshStep_rank (d : Deps) (s : authService) (r0 : String) (p : RefreshPoint)
    (w : World) : (s.refreshStep d r0 p w).1.rank ≤ p.rank - 1 := by
  cases p with
  | validate =>
    simp only [authService.refreshStep]
    rcases s.jwtService.ValidateRefreshToken d.jwt r0 w with ⟨rv, w1⟩
    rcases rv with e | claims
    · simp [RefreshPoint.rank]
    · simp only
      split <;> simp [RefreshPoint.rank]
  | get u1 =>
    simp only [authService.refreshStep]
    rcases RedisClient.GetRefreshToken u1 w with ⟨rg, w1⟩
    rcases rg with e | stored
    · simp only
      split <;> simp [RefreshPoint.rank]
    · simp only
      split <;> simp [RefreshPoint.rank]
  | delete u1 => simp [authService.refreshStep, RefreshPoint.rank]
  | generateAccess u1 =>
    simp only [authService.refreshStep]
    rcases s.jwtService.GenerateAccessToken d.jwt u1 w with ⟨rg, w1⟩
    rcases rg with e | a <;> simp [RefreshPoint.rank]
  | generateRefresh u1 a =>
    simp only [authService.refreshStep]
    rcases s.jwtService.GenerateRefreshToken d.jwt u1 w with ⟨rg, w1⟩
    rcases rg with e | r <;> simp [RefreshPoint.rank]
  | store u1 a r =>
    simp only [authService.refreshStep]
    rcases RedisClient.StoreRefreshToken u1 r s.jwtService.GetRefreshExpiry w with ⟨rg, w1⟩
    rcases rg with _ | e <;> simp [RefreshPoint.rank]
  | blacklist a r => simp [authService.refreshStep, RefreshPoint.rank]
  | done res => simp [authService.refreshStep, RefreshPoint.rank]

theorem RefreshPoint.done_of_rank (p : RefreshPoint) (h : p.rank = 0) : ∃ res, p = .done res := by
  cases p <;> simp [RefreshPoint.rank] at h
  exact ⟨_, rfl⟩

end steps

section invariant

variable {d : Deps} {s : authService} {u r0 : String} {exp lo hi : Int}

theorem Holds.of_key {w w1 : World} {v : String} (h : Holds hi w u v)
    (hk : w1.keys ("refresh:" ++ u) = w.keys ("refresh:" ++ u)) : Holds hi w1 u v := by
  obtain ⟨dl, h1, h2⟩ := h
  exact ⟨dl, hk.trans h1, h2⟩

theorem refreshStep_failed (d : Deps) (s : authService) (r0 : String) (p : RefreshPoint)
    (w : World) (hp : p.failed) : s.refreshStep d r0 p w = (p, w) := by
  cases p with
  | done res => rfl
  | _ => exact absurd hp (by simp [RefreshPoint.failed])

/-- A step of the first call keeps the invariant. -/
theorem Concurrent.Inv.step_first (hS : Refreshing d s u r0 exp lo hi) (c : Concurrent)
    (h : c.Inv lo hi u r0) :
    Concurrent.Inv lo hi u r0
      { first := (s.refreshStep d r0 c.first c.world).1, second := c.second,
        world := (s.refreshStep d r0 c.first c.world).2 } := by
  obtain ⟨hR, h0 | ⟨v, hH, h1 | h1⟩ | ⟨hn, h2 | h2⟩⟩ := h
  · obtain ⟨ha, hb, hH⟩ := h0
    rcases ha with ha | ha
    · obtain ⟨hR1, hk, hcl⟩ := refreshStep_before hS hR c.first ha r0 hH
      have hH1 := hH.of_key (congrFun hk _)
      rcases hcl with hcl | ⟨-, hcl⟩ | ⟨hne, -⟩
      · exact ⟨hR1, Or.inl ⟨Or.inl hcl, hb, hH1⟩⟩
      · exact ⟨hR1, Or.inl ⟨Or.inr hcl, hb, hH1⟩⟩
      · exact absurd rfl hne
    · obtain ⟨hR1, ⟨hm, hk⟩ | ⟨r, hs, hH1⟩⟩ := refreshStep_matched hS hR c.first ha
      · exact ⟨hR1, Or.inl ⟨Or.inr hm, hb, hH.of_key (congrFun hk _)⟩⟩
      · refine ⟨hR1, Or.inr (Or.inl ⟨r, hH1, Or.inl ⟨hs, ?_⟩⟩)⟩
        rcases hb with hb | hb
        · exact Or.inl hb
        · exact Or.inr (Or.inl hb)
  · obtain ⟨ha, hb⟩ := h1
    obtain ⟨hR1, hs, hk⟩ := refreshStep_stored hR c.first v ha
    exact ⟨hR1, Or.inr (Or.inl ⟨v, hH.of_key hk, Or.inl ⟨hs, hb⟩⟩)⟩
  · obtain ⟨hb, ha⟩ := h1
    rcases ha with ha | ha | ha | ⟨r, ha⟩
    · obtain ⟨hR1, hk, hcl⟩ := refreshStep_before hS hR c.first ha v hH
      refine ⟨hR1, Or.inr (Or.inl ⟨v, hH.of_key (congrFun hk _), Or.inr ⟨hb, ?_⟩⟩)⟩
      rcases hcl with hcl | ⟨-, hcl⟩ | ⟨-, hcl⟩
      · exact Or.inl hcl
      · exact Or.inr (Or.inl hcl)
      · exact Or.inr (Or.inr (Or.inl hcl))
    · obtain ⟨hR1, ⟨hm, hk⟩ | ⟨r, hs, hH1⟩⟩ := refreshStep_matched hS hR c.first ha
      · exact ⟨hR1, Or.inr (Or.inl ⟨v, hH.of_key (congrFun hk _),
          Or.inr ⟨hb, Or.inr (Or.inl hm)⟩⟩)⟩
      · exact ⟨hR1, Or.inr (Or.inl ⟨r, hH1,
          Or.inl ⟨hs, Or.inr (Or.inr (Or.inr ⟨v, hb⟩))⟩⟩)⟩
    · obtain ⟨hR1, hfl, hk⟩ := refreshStep_mismatched hR c.first ha
      exact ⟨hR1, Or.inr (Or.inr ⟨hk, Or.inr ⟨⟨v, hb⟩, hfl⟩⟩)⟩
    · obtain ⟨hR1, hs, hk⟩ := refreshStep_stored hR c.first r ha
      exact ⟨hR1, Or.inr (Or.inl ⟨v, hH.of_key hk,
        Or.inr ⟨hb, Or.inr (Or.inr (Or.inr ⟨r, hs⟩))⟩⟩)⟩
  · obtain ⟨⟨v, ha⟩, hb⟩ := h2
    obtain ⟨hR1, hs, hk⟩ := refreshStep_stored hR c.first v ha
    exact ⟨hR1, Or.inr (Or.inr ⟨hk.trans hn, Or.inl ⟨⟨v, hs⟩, hb⟩⟩)⟩
  · obtain ⟨hb, ha⟩ := h2
    rw [refreshStep_failed d s r0 c.first c.world ha]
    exact ⟨hR, Or.inr (Or.inr ⟨hn, Or.inr ⟨hb, ha⟩⟩)⟩

/-- The invariant does not tell the two calls apart. -/
theorem Concurrent.Inv.swap (c : Concurrent) (h : c.Inv lo hi u r0) :
    Concurrent.Inv lo hi u r0 { first := c.second, second := c.first, world := c.world } := by
  obtain ⟨hR, h0 | ⟨v, hH, h1⟩ | ⟨hn, h2⟩⟩ := h
  · exact ⟨hR, Or.inl ⟨h0.2.1, h0.1, h0.2.2⟩⟩
  · exact ⟨hR, Or.inr (Or.inl ⟨v, hH, h1.symm⟩)⟩
  · exact ⟨hR, Or.inr (Or.inr ⟨hn, h2.symm⟩)⟩

/-- A step of the second call keeps the invariant. -/
theorem Concurrent.Inv.step_second (hS : Refreshing d s u r0 exp lo hi) (c : Concurrent)
    (h : c.Inv lo hi u r0) :
    Concurrent.Inv lo hi u r0
      { first := c.first, second := (s.refreshStep d r0 c.second c.world).1,
        world := (s.refreshStep d r0 c.second c.world).2 } :=
  (Concurrent.Inv.step_first hS _ (Concurrent.Inv.swap c h)).swap

theorem interleave_true (d : Deps) (s : authService) (r0 : String) (σ : List Bool)
    (c : Concurrent) :
    s.interleave d r0 (true :: σ) c
      = s.interleave d r0 σ
          { first := (s.refreshStep d r0 c.first c.world).1, second := c.second,
            world := (s.refreshStep d r0 c.first c.world).2 } := rfl

theorem interleave_false (d : Deps) (s : authService) (r0 : String) (σ : List Bool)
    (c : Concurrent) :
    s.interleave d r0 (false :: σ) c
      = s.interleave d r0 σ
          { first := c.first, second := (s.refreshStep d r0 c.second c.world).1,
            world := (s.refreshStep d r0 c.second c.world).2 } := rfl

/-- Every schedule keeps the invariant. -/
theorem interleave_inv (hS : Refreshing d s u r0 exp lo hi) (σ : List Bool) :
    ∀ c : Concurrent, c.Inv lo hi u r0 → (s.interleave d r0 σ c).Inv lo hi u r0 := by
  induction σ with
  | nil => intro c h; exact h
  | cons b σ ih =>
    intro c h
    cases b
    · exact ih _ (Concurrent.Inv.step_second hS c h)
    · exact ih _ (Concurrent.Inv.step_first hS c h)

/-- The steps a schedule gives to a call bring it that much closer to its return. -/
theorem interleave_rank (d : Deps) (s : authService) (r0 : String) (σ : List Bool) :
    ∀ c : Concurrent,
      (s.interleave d r0 σ c).first.rank ≤ c.first.rank - σ.count true ∧
      (s.interleave d r0 σ c).second.rank ≤ c.second.rank - σ.count false := by
  induction σ with
  | nil => intro c; exact ⟨by simp [authService.interleave], by simp [authService.interleave]⟩
  | cons b σ ih =>
    intro c
    cases b
    · have h := ih { first := c.first, second := (s.refreshStep d r0 c.second c.world).1,
                     world := (s.refreshStep d r0 c.second c.world).2 }
      have hr := refreshStep_rank d s r0 c.second c.world
      rw [interleave_false]
      simp only [List.count_cons_self, List.count_cons_of_ne (by decide : false ≠ true)] at *
      exact ⟨h.1, by have := h.2; omega⟩
    · have h := ih { first := (s.refreshStep d r0 c.first c.world).1, second := c.second,
                     world := (s.refreshStep d r0 c.first c.world).2 }
      have hr := refreshStep_rank d s r0 c.first c.world
      rw [interleave_true]
      simp only [List.count_cons_self, List.count_cons_of_ne (by decide : true ≠ false)] at *
      exact ⟨by have := h.1; omega, h.2⟩

end invariant

/-- The setting and the invariant at the start of two concurrent calls. -/
theorem refreshing_start (d : Deps) (hl : d.jwt.Lawful) (s : authService)
    (u : String) (exp iat : Int) (w : World)
    (hu : u ≠ "") (hf : w.faults = [])
    (hexp : exp = 0 ∨ horizon w < exp * Second)
    (hlife : horizon w < w.now + s.jwtService.refreshExpiry)
    (hsess : ∃ dl, w.keys ("refresh:" ++ u)
        = some { value := mint d.jwt s.jwtService.secret u exp iat, expireAt := dl } ∧
      ∀ x, dl = some x → horizon w < x) :
    Refreshing d s u (mint d.jwt s.jwtService.secret u exp iat) exp w.now (horizon w) ∧
    Concurrent.Inv w.now (horizon w) u (mint d.jwt s.jwtService.secret u exp iat)
      { first := .validate, second := .validate, world := w } :=
  ⟨⟨hl, hu, ⟨iat, rfl⟩, hexp, hlife⟩,
    ⟨hf, le_refl _, rfl⟩, Or.inl ⟨Or.inl trivial, Or.inl trivial, hsess⟩⟩

/-- What the invariant says once both calls have returned. -/
theorem Concurrent.Inv.outcome {lo hi : Int} {u r0 : String} (ra rb : Except Error TokenPair)
    (w1 : World)
    (h : Concurrent.Inv lo hi u r0 { first := .done ra, second := .done rb, world := w1 }) :
    (∃ pa pb, ra = .ok pa ∧ rb = .ok pb ∧
      ∃ dl, w1.keys ("refresh:" ++ u) = some { value := pa.RefreshToken, expireAt := dl } ∨
        w1.keys ("refresh:" ++ u) = some { value := pb.RefreshToken, expireAt := dl }) ∨
    (∃ pa, ra = .ok pa ∧
      rb = .error (.New "refresh token mismatch - possible token reuse") ∧
      w1.keys ("refresh:" ++ u) = none) ∨
    (∃ pb, ra = .error (.New "refresh token mismatch - possible token reuse") ∧
      rb = .ok pb ∧ w1.keys ("refresh:" ++ u) = none) := by
  have ok_of_stored : ∀ (r : Except Error TokenPair) (v : String),
      (RefreshPoint.done r).stored v → ∃ p, r = .ok p ∧ p.RefreshToken = v := by
    intro r v hs
    cases r with
    | ok p => exact ⟨p, rfl, hs⟩
    | error e => exact absurd hs (by simp [RefreshPoint.stored])
  have ok_of_alive : ∀ r : Except Error TokenPair,
      (RefreshPoint.done r).alive u → ∃ p, r = .ok p := by
    intro r ha
    rcases ha with ha | ha | ha | ⟨v, ha⟩
    · exact absurd ha (by simp [RefreshPoint.before])
    · exact absurd ha (by simp [RefreshPoint.matched])
    · exact absurd ha (by simp [RefreshPoint.mismatched])
    · obtain ⟨p, hp, -⟩ := ok_of_stored r v ha
      exact ⟨p, hp⟩
  have err_of_failed : ∀ r : Except Error TokenPair, (RefreshPoint.done r).failed →
      r = .error (.New "refresh token mismatch - possible token reuse") := by
    intro r hf
    cases r with
    | ok p => exact absurd hf (by simp [RefreshPoint.failed])
    | error e =>
      have : e = .New "refresh token mismatch - possible token reuse" := hf
      rw [this]
  obtain ⟨-, h0 | ⟨v, ⟨dl, hk, -⟩, h1 | h1⟩ | ⟨hn, h2 | h2⟩⟩ := h
  · rcases h0.1 with ha | ha
    · exact absurd ha (by simp [RefreshPoint.before])
    · exact absurd ha (by simp [RefreshPoint.matched])
  · obtain ⟨pa, hpa, hv⟩ := ok_of_stored ra v h1.1
    obtain ⟨pb, hpb⟩ := ok_of_alive rb h1.2
    exact Or.inl ⟨pa, pb, hpa, hpb, dl, Or.inl (by rw [hv]; exact hk)⟩
  · obtain ⟨pb, hpb, hv⟩ := ok_of_stored rb v h1.1
    obtain ⟨pa, hpa⟩ := ok_of_alive ra h1.2
    exact Or.inl ⟨pa, pb, hpa, hpb, dl, Or.inr (by rw [hv]; exact hk)⟩
  · obtain ⟨⟨v, hs⟩, hfl⟩ := h2
    obtain ⟨pa, hpa, -⟩ := ok_of_stored ra v hs
    exact Or.inr (Or.inl ⟨pa, hpa, err_of_failed rb hfl, hn⟩)
  · obtain ⟨⟨v, hs⟩, hfl⟩ := h2
    obtain ⟨pb, hpb, -⟩ := ok_of_stored rb v hs
    exact Or.inr (Or.inr ⟨pb, err_of_failed ra hfl, hpb, hn⟩)

/-- A schedule that gives each call six steps lets both calls return. -/
theorem interleave_returns (d : Deps) (s : authService) (r0 : String) (σ : List Bool)
    (w : World) (h1 : 6 ≤ σ.count true) (h2 : 6 ≤ σ.count false) :
    ∃ ra rb w1,
      s.interleave d r0 σ { first := .validate, second := .validate, world := w }
        = { first := .done ra, second := .done rb, world := w1 } := by
  obtain ⟨k1, k2⟩ := interleave_rank d s r0 σ
    { first := .validate, second := .validate, world := w }
  have e6 : RefreshPoint.validate.rank = 6 := rfl
  have z1 : (s.interleave d r0 σ
      { first := .validate, second := .validate, world := w }).first.rank = 0 := by
    have k1a : (s.interleave d r0 σ
        { first := .validate, second := .validate, world := w }).first.rank
        ≤ RefreshPoint.validate.rank - σ.count true := k1
    omega
  have z2 : (s.interleave d r0 σ
      { first := .validate, second := .validate, world := w }).second.rank = 0 := by
    have k2a : (s.interleave d r0 σ
        { first := .validate, second := .validate, world := w }).second.rank
        ≤ RefreshPoint.validate.rank - σ.count false := k2
    omega
  obtain ⟨ra, hra⟩ := RefreshPoint.done_of_rank _ z1
  obtain ⟨rb, hrb⟩ := RefreshPoint.done_of_rank _ z2
  refine ⟨ra, rb, (s.interleave d r0 σ
    { first := .validate, second := .validate, world := w }).world, ?_⟩
  rw [← hra, ← hrb]

/-- C12 (amended): two concurrent calls of `RefreshToken` present the refresh token the
session record holds; the token does not expire during the run, the run is shorter than the
refresh lifetime, and Redis does not fail. Under every schedule that lets both calls run to
their end, both calls return, and there are two outcomes. Either both calls return a new pair
(both had read the record before the other stored), and the session record holds the refresh
token of one of the pairs. Or one call returns a new pair and the other the mismatch error
(it read the record after the first had stored), and the session record is absent: the
failing call has deleted it, so the refresh token of the successful call is no longer
accepted. Under no schedule does exactly one call succeed with its token left in the
record. -/
theorem C12_concurrent_refresh_outcomes (d : Deps) (hl : d.jwt.Lawful) (s : authService)
    (u : String) (exp iat : Int) (w : World) (σ : List Bool)
    (hu : u ≠ "") (hf : w.faults = [])
    (hexp : exp = 0 ∨ horizon w < exp * Second)
    (hlife : horizon w < w.now + s.jwtService.refreshExpiry)
    (hsess : ∃ dl, w.keys ("refresh:" ++ u)
        = some { value := mint d.jwt s.jwtService.secret u exp iat, expireAt := dl } ∧
      ∀ x, dl = some x → horizon w < x)
    (h1 : 6 ≤ σ.count true) (h2 : 6 ≤ σ.count false) :
    ∃ ra rb w1,
      s.interleave d (mint d.jwt s.jwtService.secret u exp iat) σ
          { first := .validate, second := .validate, world := w }
        = { first := .done ra, second := .done rb, world := w1 } ∧
      ((∃ pa pb, ra = .ok pa ∧ rb = .ok pb ∧
          ∃ dl, w1.keys ("refresh:" ++ u)
              = some { value := pa.RefreshToken, expireAt := dl } ∨
            w1.keys ("refresh:" ++ u)
              = some { value := pb.RefreshToken, expireAt := dl }) ∨
        (∃ pa, ra = .ok pa ∧
          rb = .error (.New "refresh token mismatch - possible token reuse") ∧
          w1.keys ("refresh:" ++ u) = none) ∨
        (∃ pb, ra = .error (.New "refresh token mismatch - possible token reuse") ∧
          rb = .ok pb ∧ w1.keys ("refresh:" ++ u) = none)) := by
  obtain ⟨hS, hI⟩ := refreshing_start d hl s u exp iat w hu hf hexp hlife hsess
  obtain ⟨ra, rb, w1, he⟩ :=
    interleave_returns d s (mint d.jwt s.jwtService.secret u exp iat) σ w h1 h2
  have hI1 := interleave_inv hS σ _ hI
  rw [he] at hI1
  exact ⟨ra, rb, w1, he, hI1.outcome ra rb w1⟩

section both

variable {d : Deps} {s : authService} {u r0 : String} {exp lo hi : Int}

theorem interleave_append (d : Deps) (s : authService) (r0 : String) (σ1 σ2 : List Bool) :
    ∀ c : Concurrent,
      s.interleave d r0 (σ1 ++ σ2) c = s.interleave d r0 σ2 (s.interleave d r0 σ1 c) := by
  induction σ1 with
  | nil => intro c; rfl
  | cons b σ ih =>
    intro c
    cases b
    · rw [List.cons_append, interleave_false, interleave_false, ih]
    · rw [List.cons_append, interleave_true, interleave_true, ih]

/-- A schedule that gives each call the steps it has left lets both calls return. -/
theorem interleave_returns_from (d : Deps) (s : authService) (r0 : String) (σ : List Bool)
    (c : Concurrent) (h1 : c.first.rank ≤ σ.count true) (h2 : c.second.rank ≤ σ.count false) :
    ∃ ra rb w1, s.interleave d r0 σ c = { first := .done ra, second := .done rb, world := w1 } := by
  obtain ⟨k1, k2⟩ := interleave_rank d s r0 σ c
  obtain ⟨ra, hra⟩ := RefreshPoint.done_of_rank (s.interleave d r0 σ c).first (by omega)
  obtain ⟨rb, hrb⟩ := RefreshPoint.done_of_rank (s.interleave d r0 σ c).second (by omega)
  refine ⟨ra, rb, (s.interleave d r0 σ c).world, ?_⟩
  rw [← hra, ← hrb]

/-- Once both calls have found the presented token in the session record, both go on to store
and to return a pair, whatever the schedule. -/
theorem interleave_matched (hS : Refreshing d s u r0 exp lo hi) (σ : List Bool) :
    ∀ c : Concurrent, c.Inv lo hi u r0 →
      (c.first.matched u ∨ ∃ r, c.first.stored r) →
      (c.second.matched u ∨ ∃ r, c.second.stored r) →
      ((s.interleave d r0 σ c).first.matched u ∨ ∃ r, (s.interleave d r0 σ c).first.stored r) ∧
      ((s.interleave d r0 σ c).second.matched u ∨
        ∃ r, (s.interleave d r0 σ c).second.stored r) := by
  induction σ with
  | nil => intro c _ ha hb; exact ⟨ha, hb⟩
  | cons b σ ih =>
    intro c hI ha hb
    have keep : ∀ (p : RefreshPoint) , (p.matched u ∨ ∃ r, p.stored r) →
        ((s.refreshStep d r0 p c.world).1.matched u ∨
          ∃ r, (s.refreshStep d r0 p c.world).1.stored r) := by
      intro p hp
      rcases hp with hp | ⟨r, hp⟩
      · obtain ⟨-, ⟨hm, -⟩ | ⟨r, hs, -⟩⟩ := refreshStep_matched hS hI.1 p hp
        · exact Or.inl hm
        · exact Or.inr ⟨r, hs⟩
      · exact Or.inr ⟨r, (refreshStep_stored (u := u) hI.1 p r hp).2.1⟩
    cases b
    · rw [interleave_false]
      exact ih _ (Concurrent.Inv.step_second hS c hI) ha (keep _ hb)
    · rw [interleave_true]
      exact ih _ (Concurrent.Inv.step_first hS c hI) (keep _ ha) hb

/-- The first two steps of a call that presents the token the session record holds: it
validates the token and finds it in the record. -/
theorem refreshStep_read (hS : Refreshing d s u r0 exp lo hi) {w : World}
    (hR : Running lo hi w) (hH : Holds hi w u r0) :
    s.refreshStep d r0 .validate w = (.get u, (timeNow w).2) ∧
    s.refreshStep d r0 (.get u) (timeNow w).2
      = (.generateAccess u, (redisGET ("refresh:" ++ u) (timeNow w).2).2) ∧
    Running lo hi (redisGET ("refresh:" ++ u) (timeNow w).2).2 ∧
    (redisGET ("refresh:" ++ u) (timeNow w).2).2.keys = w.keys := by
  obtain ⟨iat, hr0⟩ := hS.minted
  have hcond : exp = 0 ∨ (timeNow w).1 < exp * Second := by
    rcases hS.unexpired with h | h
    · exact Or.inl h
    · have h1 := timeNow_le_horizon w
      have h2 := hR.horizon_eq
      exact Or.inr (by omega)
  have hv : s.jwtService.ValidateRefreshToken d.jwt r0 w
      = (.ok (mintedClaims u exp iat), (timeNow w).2) := by
    unfold jwtService.ValidateRefreshToken
    rw [hr0, validateToken_mint d.jwt hS.lawful, if_pos hcond]
  have hst : s.refreshStep d r0 .validate w = (.get u, (timeNow w).2) := by
    simp only [authService.refreshStep, hv, claimString_mintedClaims]
    simp [hS.subject]
  have hR1 : Running lo hi (timeNow w).2 :=
    hR.step (Step.of_now _ _ (by simpa using timeNow_ge w) (by simp)) (Or.inl (by simp))
  obtain ⟨dl, hk, hdl⟩ := hH
  rcases hg : redisGET ("refresh:" ++ u) (timeNow w).2 with ⟨rg, w2⟩
  obtain ⟨st2, hf2, -, hk2, hr2⟩ := redisGET_step _ _ _ _ hg
  have hlive : liveAt (timeNow w).2.keys w2.now ("refresh:" ++ u)
      = some { value := r0, expireAt := dl } := by
    apply liveAt_of_entry _ _ _ _ (by simpa using hk)
    intro x hx
    have h1 := st2.le_horizon
    have h2 := hR1.horizon_eq
    have h3 := hdl x hx
    omega
  rw [hR1.fails, hlive] at hr2
  simp only [Bool.false_eq_true, if_false] at hr2
  subst hr2
  refine ⟨hst, ?_, hR1.step st2 (Or.inr hf2), by simpa using hk2⟩
  simp only [authService.refreshStep, RedisClient.GetRefreshToken, RedisClient.Get, hg]
  simp

/-- When both calls read the session record before either stores, both return a pair. -/
theorem interleave_both_read_first (hS : Refreshing d s u r0 exp lo hi) (w : World)
    (hR : Running lo hi w) (hH : Holds hi w u r0) (σ : List Bool)
    (h1 : 4 ≤ σ.count true) (h2 : 4 ≤ σ.count false) :
    ∃ pa pb w1,
      s.interleave d r0 ([true, true, false, false] ++ σ)
          { first := .validate, second := .validate, world := w }
        = { first := .done (.ok pa), second := .done (.ok pb), world := w1 } := by
  obtain ⟨e1, e2, hR2, hk2⟩ := refreshStep_read hS hR hH
  have hH2 : Holds hi (redisGET ("refresh:" ++ u) (timeNow w).2).2 u r0 :=
    hH.of_key (congrFun hk2 _)
  obtain ⟨e3, e4, hR4, hk4⟩ := refreshStep_read hS hR2 hH2
  have hH4 := hH2.of_key (congrFun hk4 _)
  have hpre : s.interleave d r0 [true, true, false, false]
      { first := .validate, second := .validate, world := w }
      = { first := .generateAccess u, second := .generateAccess u,
          world := (redisGET ("refresh:" ++ u)
            (timeNow (redisGET ("refresh:" ++ u) (timeNow w).2).2).2).2 } := by
    rw [interleave_true]
    simp only [e1]
    rw [interleave_true]
    simp only [e2]
    rw [interleave_false]
    simp only [e3]
    rw [interleave_false]
    simp only [e4]
    rfl
  rw [interleave_append, hpre]
  have hI : Concurrent.Inv lo hi u r0
      { first := .generateAccess u, second := .generateAccess u,
        world := (redisGET ("refresh:" ++ u)
          (timeNow (redisGET ("refresh:" ++ u) (timeNow w).2).2).2).2 } :=
    ⟨hR4, Or.inl ⟨Or.inr rfl, Or.inr rfl, hH4⟩⟩
  obtain ⟨ra, rb, w1, he⟩ := interleave_returns_from d s r0 σ
    { first := .generateAccess u, second := .generateAccess u,
      world := (redisGET ("refresh:" ++ u)
        (timeNow (redisGET ("refresh:" ++ u) (timeNow w).2).2).2).2 } h1 h2
  obtain ⟨ma, mb⟩ := interleave_matched hS σ _ hI (Or.inl rfl) (Or.inl rfl)
  rw [he] at ma mb
  have ok_of : ∀ r : Except Error TokenPair,
      ((RefreshPoint.done r).matched u ∨ ∃ v, (RefreshPoint.done r).stored v) →
        ∃ p, r = .ok p := by
    intro r h
    rcases h with h | ⟨v, h⟩
    · exact absurd h (by simp [RefreshPoint.matched])
    · cases r with
      | ok p => exact ⟨p, rfl⟩
      | error e => exact absurd h (by simp [RefreshPoint.stored])
  obtain ⟨pa, hpa⟩ := ok_of ra ma
  obtain ⟨pb, hpb⟩ := ok_of rb mb
  exact ⟨pa, pb, w1, by rw [he, hpa, hpb]⟩

end both

/-- Swapping the two calls and their turns. -/
theorem interleave_swap (d : Deps) (s : authService) (t : String) (σ : List Bool) :
    ∀ c : Concurrent,
      s.interleave d t (σ.map not) { first := c.second, second := c.first, world := c.world }
        = { first := (s.interleave d t σ c).second, second := (s.interleave d t σ c).first,
            world := (s.interleave d t σ c).world } := by
  induction σ with
  | nil => intro c; rfl
  | cons b σ ih =>
    intro c
    cases b
    · rw [interleave_false]
      exact ih { first := c.first, second := (s.refreshStep d t c.second c.world).1,
                 world := (s.refreshStep d t c.second c.world).2 }
    · rw [interleave_true]
      exact ih { first := (s.refreshStep d t c.first c.world).1, second := c.second,
                 world := (s.refreshStep d t c.first c.world).2 }

/-- When the first call returns before the second starts, the two calls are two calls of
`RefreshToken` in a row. -/
theorem interleave_one_by_one (d : Deps) (s : authService) (t : String) (w : World) :
    s.interleave d t
        [true, true, true, true, true, true, false, false, false, false, false, false]
        { first := .validate, second := .validate, world := w }
      = { first := .done (s.RefreshToken d t w).1,
          second := .done (s.RefreshToken d t (s.RefreshToken d t w).2).1,
          world := (s.RefreshToken d t (s.RefreshToken d t w).2).2 } := by
  have h1 := interleave_append d s t [true, true, true, true, true, true]
    [false, false, false, false, false, false]
    { first := .validate, second := .validate, world := w }
  rw [interleave_alone] at h1
  have h2 := interleave_swap d s t [true, true, true, true, true, true]
    { first := .validate, second := .done (s.RefreshToken d t w).1,
      world := (s.RefreshToken d t w).2 }
  rw [interleave_alone] at h2
  exact h1.trans h2

section later_second

variable (d : Deps) (s : authService) (u : String) (n m σ exp iat : Int)

/-- `RefreshToken` within the second `σ`, presented with the token the session holds: it
succeeds with the tokens of the second `σ`. -/
theorem refresh_in_second (hl : d.jwt.Lawful) (hu : u ≠ "") (hn : 0 < n)
    (hE : s.jwtService.refreshExpiry = n * Second)
    (hA : s.jwtService.accessExpiry = m * Second) (w : World) (hf : w.faults = [])
    (hlow : σ * Second ≤ w.now) (hhigh : horizon w < (σ + 1) * Second)
    (hexp : horizon w < exp * Second) (dl : Int) (hdl : horizon w < dl)
    (hkey : w.keys ("refresh:" ++ u)
      = some { value := mint d.jwt s.jwtService.secret u exp iat, expireAt := some dl }) :
    ∃ w1, s.RefreshToken d (mint d.jwt s.jwtService.secret u exp iat) w =
        (.ok { AccessToken := mint d.jwt s.jwtService.secret u (σ + m) σ,
               RefreshToken := mint d.jwt s.jwtService.secret u (σ + n) σ }, w1) ∧
      SameSecond w1 u (mint d.jwt s.jwtService.secret u (σ + n) σ) σ := by
  obtain ⟨hv, st1⟩ := validateToken_mint_step d.jwt hl s.jwtService u exp iat w hexp
  rcases hget : redisGET ("refresh:" ++ u) (timeNow w).2 with ⟨rg, w2⟩
  obtain ⟨st2, hf2, -, hk2, hr2⟩ := redisGET_step _ _ _ _ hget
  have b1 := st1.now_le; have c1 := st1.le_horizon; have e1 := st1.horizon_eq
  have b2 := st2.now_le; have c2 := st2.le_horizon; have e2 := st2.horizon_eq
  have hfl1 : fails (timeNow w).2 = false := fails_of_faults_nil _ (by simp [hf])
  have hlive : liveAt (timeNow w).2.keys w2.now ("refresh:" ++ u)
      = some { value := mint d.jwt s.jwtService.secret u exp iat, expireAt := some dl } := by
    unfold liveAt
    rw [timeNow_keys, hkey]
    have : w2.now < dl := by omega
    simp [this]
  rw [hfl1, hlive] at hr2
  simp only [Bool.false_eq_true, if_false] at hr2
  subst hr2
  obtain ⟨w3, w4, w5, ha, hr, hs, hS5, -⟩ :=
    mint_and_store_same_second d s u n m σ hn hE hA w2 (by rw [hf2, timeNow_faults, hf]; rfl)
      (by omega) (by omega)
  exact ⟨_, refreshToken_rotate d s _ w _ w2 (mintedClaims u exp iat) u w3 w4 w5 _ _ hv
    (claimString_mintedClaims _ _ _) hu
    (by simpa [RedisClient.GetRefreshToken, RedisClient.Get] using hget) ha hr hs,
    blacklist_same_second u σ _ _ _ w5 hS5⟩

/-- `RefreshToken` presented with a valid token while the session holds another one: it
returns the mismatch error, and the session record is gone. -/
theorem refresh_stale (hl : d.jwt.Lawful) (hu : u ≠ "") (w : World) (r : String)
    (hS : SameSecond w u r σ) (hexp : horizon w < exp * Second)
    (hne : r ≠ mint d.jwt s.jwtService.secret u exp iat) :
    ∃ w1, s.RefreshToken d (mint d.jwt s.jwtService.secret u exp iat) w =
        (.error (.New "refresh token mismatch - possible token reuse"), w1) ∧
      w1.keys ("refresh:" ++ u) = none := by
  obtain ⟨hf, hlow, hhigh, dl, hdl, hkey⟩ := hS
  obtain ⟨hv, st1⟩ := validateToken_mint_step d.jwt hl s.jwtService u exp iat w hexp
  rcases hget : redisGET ("refresh:" ++ u) (timeNow w).2 with ⟨rg, w2⟩
  obtain ⟨st2, hf2, -, hk2, hr2⟩ := redisGET_step _ _ _ _ hget
  have b1 := st1.now_le; have c1 := st1.le_horizon; have e1 := st1.horizon_eq
  have b2 := st2.now_le; have c2 := st2.le_horizon; have e2 := st2.horizon_eq
  have hfl1 : fails (timeNow w).2 = false := fails_of_faults_nil _ (by simp [hf])
  have hlive : liveAt (timeNow w).2.keys w2.now ("refresh:" ++ u)
      = some { value := r, expireAt := some dl } := by
    unfold liveAt
    rw [timeNow_keys, hkey]
    have : w2.now < dl := by omega
    simp [this]
  rw [hfl1, hlive] at hr2
  simp only [Bool.false_eq_true, if_false] at hr2
  subst hr2
  refine ⟨_, refreshToken_mismatch d s _ w _ w2 (mintedClaims u exp iat) u r hv
    (claimString_mintedClaims _ _ _) hu
    (by simpa [RedisClient.GetRefreshToken, RedisClient.Get] using hget) hne, ?_⟩
  have hfl2 : fails w2 = false :=
    fails_of_faults_nil _ (by rw [hf2, timeNow_faults, hf]; rfl)
  simp [RedisClient.DeleteRefreshToken, RedisClient.Del, redisDEL_keys, hfl2]

end later_second

theorem Demo.racing_session : Demo.racing.keys ("refresh:" ++ "u1")
    = some { value := Demo.pair0.RefreshToken, expireAt := some (1700604800 * Second) } := by
  show (if ("refresh:" ++ "u1") = "refresh:u1" then
      some ({ value := Demo.pair0.RefreshToken,
              expireAt := some (1700604800 * Second) } : RedisEntry)
    else none) = _
  exact if_pos (by decide)

/-- The state `racing` meets the conditions of the concurrent calls: the session holds the
refresh token of the login, which is valid for another week. -/
theorem Demo.racing_ready :
    Demo.racing.faults = [] ∧
    ((1700604800 : Int) = 0 ∨ horizon Demo.racing < 1700604800 * Second) ∧
    horizon Demo.racing < Demo.racing.now + Demo.svc.jwtService.refreshExpiry ∧
    (∃ dl, Demo.racing.keys ("refresh:" ++ "u1")
        = some { value := mint Ref.deps.jwt Demo.svc.jwtService.secret "u1" 1700604800
                   1700000000,
                 expireAt := dl } ∧
      ∀ x, dl = some x → horizon Demo.racing < x) := by
  refine ⟨rfl, Or.inr (by decide), by decide, some (1700604800 * Second),
    Demo.racing_session, ?_⟩
  intro x hx
  simp only [Option.some.injEq] at hx
  rw [← hx]
  decide

/-- Witness of C12: a hundred seconds after her login, two calls present the refresh token of
`ann`, which the session record holds, and take turns step by step. -/
theorem C12_witness :
    (Demo.racing.faults = [] ∧
      ((1700604800 : Int) = 0 ∨ horizon Demo.racing < 1700604800 * Second) ∧
      horizon Demo.racing < Demo.racing.now + Demo.svc.jwtService.refreshExpiry ∧
      Demo.racing.keys ("refresh:" ++ "u1")
        = some { value := Demo.pair0.RefreshToken, expireAt := some (1700604800 * Second) } ∧
      6 ≤ Demo.inTurn.count true ∧ 6 ≤ Demo.inTurn.count false) ∧
    ∃ ra rb w1,
      Demo.svc.interleave Ref.deps Demo.pair0.RefreshToken Demo.inTurn
          { first := .validate, second := .validate, world := Demo.racing }
        = { first := .done ra, second := .done rb, world := w1 } ∧
      ((∃ pa pb, ra = .ok pa ∧ rb = .ok pb ∧
          ∃ dl, w1.keys ("refresh:" ++ "u1")
              = some { value := pa.RefreshToken, expireAt := dl } ∨
            w1.keys ("refresh:" ++ "u1")
              = some { value := pb.RefreshToken, expireAt := dl }) ∨
        (∃ pa, ra = .ok pa ∧
          rb = .error (.New "refresh token mismatch - possible token reuse") ∧
          w1.keys ("refresh:" ++ "u1") = none) ∨
        (∃ pb, ra = .error (.New "refresh token mismatch - possible token reuse") ∧
          rb = .ok pb ∧ w1.keys ("refresh:" ++ "u1") = none)) :=
  ⟨⟨Demo.racing_ready.1, Demo.racing_ready.2.1, Demo.racing_ready.2.2.1, Demo.racing_session,
      by decide, by decide⟩,
    C12_concurrent_refresh_outcomes Ref.deps Ref.codec_lawful Demo.svc "u1" 1700604800
      1700000000 Demo.racing Demo.inTurn (by decide) Demo.racing_ready.1 Demo.racing_ready.2.1
      Demo.racing_ready.2.2.1 Demo.racing_ready.2.2.2 (by decide) (by decide)⟩

/-- C12 as stated fails under both schedules. When both calls read the session record before
either stores, both return a pair, where the claim has one of them fail. When the first call
returns before the second starts, the first returns a pair and the second the mismatch error,
and the second has deleted the session record, where the claim has the record hold the
refresh token of the first. -/
theorem C12_counterexample_both_succeed_or_session_deleted :
    (∃ pa pb w1,
      Demo.svc.interleave Ref.deps Demo.pair0.RefreshToken Demo.readFirst
          { first := .validate, second := .validate, world := Demo.racing }
        = { first := .done (.ok pa), second := .done (.ok pb), world := w1 }) ∧
    (∃ pa w1,
      Demo.svc.interleave Ref.deps Demo.pair0.RefreshToken Demo.oneByOne
          { first := .validate, second := .validate, world := Demo.racing }
        = { first := .done (.ok pa),
            second := .done (.error (.New "refresh token mismatch - possible token reuse")),
            world := w1 } ∧
      w1.keys ("refresh:" ++ "u1") = none) := by
  constructor
  · obtain ⟨hS, -⟩ := refreshing_start Ref.deps Ref.codec_lawful Demo.svc "u1" 1700604800
      1700000000 Demo.racing (by decide) Demo.racing_ready.1 Demo.racing_ready.2.1
      Demo.racing_ready.2.2.1 Demo.racing_ready.2.2.2
    exact interleave_both_read_first hS Demo.racing ⟨rfl, le_refl _, rfl⟩
      Demo.racing_ready.2.2.2 [true, true, true, true, false, false, false, false]
      (by decide) (by decide)
  · obtain ⟨w1, hA, hS1⟩ := refresh_in_second Ref.deps Demo.svc "u1" 604800 900 1700000100
      1700604800 1700000000 Ref.codec_lawful (by decide) (by decide) rfl rfl Demo.racing rfl
      (le_refl _) (by decide) (by decide) (1700604800 * Second) (by decide)
      Demo.racing_session
    have hne : mint Ref.deps.jwt Demo.svc.jwtService.secret "u1" (1700000100 + 604800)
        1700000100
        ≠ mint Ref.deps.jwt Demo.svc.jwtService.secret "u1" 1700604800 1700000000 := by
      intro h
      have := (mint_inj Ref.codec Ref.codec_lawful h).2.2
      exact absurd this (by decide)
    have hexp : horizon w1 < 1700604800 * Second := by
      have h1 := hS1.high
      have e1 : ((1700000100 : Int) + 1) * Second = 1700000101 * 1000000000 := by decide
      have e2 : (1700604800 : Int) * Second = 1700604800 * 1000000000 := rfl
      omega
    obtain ⟨w2, hB, hk⟩ := refresh_stale Ref.deps Demo.svc "u1" 1700000100 1700604800
      1700000000 Ref.codec_lawful (by decide) w1 _ hS1 hexp hne
    have h := interleave_one_by_one Ref.deps Demo.svc
      (mint Ref.deps.jwt Demo.svc.jwtService.secret "u1" 1700604800 1700000000) Demo.racing
    rw [hA] at h
    simp only at h
    rw [hB] at h
    exact ⟨_, w2, h, hk⟩

/-! ## Blacklisting twice -/

/-- Two calls of `BlacklistToken` in a row: what each returns and what the store holds. -/
theorem blacklist_twice_steps (token : String) (ttl : Int) (w w1 w2 : World)
    (r1 r2 : Option Error) (hf : w.faults = [])
    (h1 : RedisClient.BlacklistToken token ttl w = (r1, w1))
    (h2 : RedisClient.BlacklistToken token ttl w1 = (r2, w2)) :
    r1 = none ∧ r2 = none ∧ w.now ≤ w1.now ∧ w1.now ≤ w2.now ∧
    w1.keys = (fun k => if k = "blacklist:" ++ token then
        some { value := "1", expireAt := setDeadline w.keys w1.now ("blacklist:" ++ token) ttl }
      else w.keys k) ∧
    w2.keys = (fun k => if k = "blacklist:" ++ token then
        some { value := "1", expireAt := setDeadline w1.keys w2.now ("blacklist:" ++ token) ttl }
      else w.keys k) := by
  simp only [RedisClient.BlacklistToken, RedisClient.Set] at h1 h2
  obtain ⟨st1, hf1, -, hr1, hk1⟩ := redisSET_step _ _ _ _ _ _ h1
  obtain ⟨st2, hf2, -, hr2, hk2⟩ := redisSET_step _ _ _ _ _ _ h2
  have hfl : fails w = false := fails_of_faults_nil _ hf
  have hfl1 : fails w1 = false := fails_of_faults_nil _ (by rw [hf1, hf]; rfl)
  simp only [hfl, Bool.false_eq_true, if_false] at hr1 hk1
  simp only [hfl1, Bool.false_eq_true, if_false] at hr2 hk2
  refine ⟨hr1, hr2, st1.now_le, st2.now_le, hk1, ?_⟩
  rw [hk2]
  funext k
  by_cases hk : k = "blacklist:" ++ token
  · simp [hk]
  · simp [hk, hk1]

/-- C13: with Redis executing both commands, two calls of `BlacklistToken(t, ttl)` in a row
return no error, and they leave the store with the same keys and the same values as one call:
after the first call as after the second the blacklist key of `t` holds the marker `1`, every
other key is as it was, and `IsTokenBlacklisted(t)` is true right away and until the deadline
of the key. The deadline of the key is that of the last `SET` (its instant plus `ttl` for a
positive `ttl`); when the clock has not advanced between the calls, the second call leaves
the store exactly as it was. -/
theorem C13_blacklist_twice_same_key_same_marker (token : String) (ttl : Int)
    (w w1 w2 : World) (r1 r2 : Option Error) (hf : w.faults = [])
    (h1 : RedisClient.BlacklistToken token ttl w = (r1, w1))
    (h2 : RedisClient.BlacklistToken token ttl w1 = (r2, w2)) :
    (r1 = none ∧ r2 = none) ∧
    w1.keys ("blacklist:" ++ token)
      = some { value := "1",
               expireAt := setDeadline w.keys w1.now ("blacklist:" ++ token) ttl } ∧
    w2.keys ("blacklist:" ++ token)
      = some { value := "1",
               expireAt := setDeadline w1.keys w2.now ("blacklist:" ++ token) ttl } ∧
    (∀ k, (w2.keys k).map RedisEntry.value = (w1.keys k).map RedisEntry.value) ∧
    (∀ k, k ≠ "blacklist:" ++ token → w1.keys k = w.keys k ∧ w2.keys k = w.keys k) ∧
    (RedisClient.IsTokenBlacklisted token (later w1 0)).1 = (true, none) ∧
    (RedisClient.IsTokenBlacklisted token (later w2 0)).1 = (true, none) ∧
    (∀ dt : Nat,
      (∀ dl, setDeadline w1.keys w2.now ("blacklist:" ++ token) ttl = some dl →
        w2.now + dt < dl) →
      (RedisClient.IsTokenBlacklisted token (later w2 dt)).1 = (true, none)) ∧
    (0 < ttl →
      setDeadline w.keys w1.now ("blacklist:" ++ token) ttl = some (w1.now + ttl) ∧
      setDeadline w1.keys w2.now ("blacklist:" ++ token) ttl = some (w2.now + ttl)) ∧
    (w2.now = w1.now → w2.keys = w1.keys) := by
  obtain ⟨hr1, hr2, hn1, hn2, hk1, hk2⟩ := blacklist_twice_steps token ttl w w1 w2 r1 r2 hf h1 h2
  have e1 : w1.keys ("blacklist:" ++ token)
      = some { value := "1",
               expireAt := setDeadline w.keys w1.now ("blacklist:" ++ token) ttl } := by
    rw [hk1]
    simp
  have e2 : w2.keys ("blacklist:" ++ token)
      = some { value := "1",
               expireAt := setDeadline w1.keys w2.now ("blacklist:" ++ token) ttl } := by
    rw [hk2]
    simp
  have hpos : 0 < ttl →
      setDeadline w.keys w1.now ("blacklist:" ++ token) ttl = some (w1.now + ttl) ∧
      setDeadline w1.keys w2.now ("blacklist:" ++ token) ttl = some (w2.now + ttl) := by
    intro h
    have h' : ttl > 0 := h
    simp [setDeadline, h']
  refine ⟨⟨hr1, hr2⟩, e1, e2, ?_, ?_, ?_, ?_, ?_, hpos, ?_⟩
  · intro k
    by_cases hk : k = "blacklist:" ++ token
    · rw [hk, e1, e2]
      rfl
    · rw [hk1, hk2]
      simp [hk]
  · intro k hk
    rw [hk1, hk2]
    simp [hk]
  · apply isTokenBlacklisted_of_entry token w1 0 _ e1
    intro dl hdl
    have := setDeadline_live _ _ _ _ _ hdl
    simpa using this
  · apply isTokenBlacklisted_of_entry token w2 0 _ e2
    intro dl hdl
    have := setDeadline_live _ _ _ _ _ hdl
    simpa using this
  · intro dt hlive
    exact isTokenBlacklisted_of_entry token w2 dt _ e2 hlive
  · intro hsame
    have hd : setDeadline w1.keys w2.now ("blacklist:" ++ token) ttl
        = setDeadline w.keys w1.now ("blacklist:" ++ token) ttl := by
      rw [hsame]
      by_cases hp : ttl > 0
      · simp [setDeadline, hp]
      · by_cases hkeep : ttl = KeepTTL
        · have hlive := liveAt_of_setDeadline w.keys w1.now ("blacklist:" ++ token) "1" ttl
          rw [← hk1] at hlive
          unfold setDeadline
          rw [if_neg hp, if_pos hkeep, if_neg hp, if_pos hkeep, hlive]
          simp only
          unfold setDeadline
          rw [if_neg hp, if_pos hkeep]
        · simp [setDeadline, hp, hkeep]
    rw [hk2, hd]
    exact hk1.symm

/-- Witness of C13: the token `tok` is blacklisted twice for one second in the empty store
`w0`, at 1 ms and at 2 ms. -/
theorem C13_witness :
    Demo.w0.faults = [] ∧
    ((RedisClient.BlacklistToken "tok" Second Demo.w0).1 = none ∧
      (RedisClient.BlacklistToken "tok" Second Demo.once).1 = none) ∧
    (∀ k, (Demo.twice.keys k).map RedisEntry.value = (Demo.once.keys k).map RedisEntry.value) ∧
    (RedisClient.IsTokenBlacklisted "tok" (later Demo.once 0)).1 = (true, none) ∧
    (RedisClient.IsTokenBlacklisted "tok" (later Demo.twice 0)).1 = (true, none) :=
  ⟨rfl,
    (C13_blacklist_twice_same_key_same_marker "tok" Second Demo.w0 Demo.once Demo.twice
      (RedisClient.BlacklistToken "tok" Second Demo.w0).1
      (RedisClient.BlacklistToken "tok" Second Demo.once).1 rfl rfl rfl).1,
    (C13_blacklist_twice_same_key_same_marker "tok" Second Demo.w0 Demo.once Demo.twice
      (RedisClient.BlacklistToken "tok" Second Demo.w0).1
      (RedisClient.BlacklistToken "tok" Second Demo.once).1 rfl rfl rfl).2.2.2.1,
    (C13_blacklist_twice_same_key_same_marker "tok" Second Demo.w0 Demo.once Demo.twice
      (RedisClient.BlacklistToken "tok" Second Demo.w0).1
      (RedisClient.BlacklistToken "tok" Second Demo.once).1 rfl rfl rfl).2.2.2.2.2.1,
    (C13_blacklist_twice_same_key_same_marker "tok" Second Demo.w0 Demo.once Demo.twice
      (RedisClient.BlacklistToken "tok" Second Demo.w0).1
      (RedisClient.BlacklistToken "tok" Second Demo.once).1 rfl rfl rfl).2.2.2.2.2.2.1⟩

/-- The deadline of the blacklist key is that of the last call: blacklisting `tok` for one
second at 1 ms and again at 2 ms leaves the key with the deadline 1.002 s, where one call
leaves it with the deadline 1.001 s, so that at 1.0015 s the token is still blacklisted after
two calls and no longer after one. And a call on which Redis fails returns the error. -/
theorem Demo.second_blacklist_moves_deadline :
    Demo.once.keys "blacklist:tok"
      = some { value := "1", expireAt := some (1700000001 * Second + 1 * Demo.ms) } ∧
    Demo.twice.keys "blacklist:tok"
      = some { value := "1", expireAt := some (1700000001 * Second + 2 * Demo.ms) } ∧
    Demo.once.now + ((1000 * Demo.ms + 500000 : Nat) : Int)
      = Demo.twice.now + ((999 * Demo.ms + 500000 : Nat) : Int) ∧
    (RedisClient.IsTokenBlacklisted "tok" (later Demo.once (1000 * Demo.ms + 500000))).1
      = (false, none) ∧
    (RedisClient.IsTokenBlacklisted "tok" (later Demo.twice (999 * Demo.ms + 500000))).1
      = (true, none) ∧
    (RedisClient.BlacklistToken "tok" Second
      (RedisClient.BlacklistToken "tok" Second (Demo.stale [false, true])).2).1
      = some .RedisDown := by
  refine ⟨by decide, by decide, by decide, by decide, by decide, by decide⟩

/-! ## One validation for both kinds of token -/

/-- `VerifyToken` and `AuthRequired` on a token minted under the secret of the service that
is not blacklisted and has not expired: both accept it for its subject. -/
theorem verifyToken_minted (d : Deps) (hl : d.jwt.Lawful) (s : authService)
    (sub : String) (exp iat : Int) (v v1 : World)
    (hb : RedisClient.IsTokenBlacklisted (mint d.jwt s.jwtService.secret sub exp iat) v
      = ((false, none), v1))
    (hexp : exp = 0 ∨ (timeNow v1).1 < exp * Second) :
    s.VerifyToken d (mint d.jwt s.jwtService.secret sub exp iat) v
      = (.ret (.ok sub), (timeNow v1).2) ∧
    Middleware.AuthRequired d.jwt ⟨s.jwtService⟩
        ("Bearer " ++ mint d.jwt s.jwtService.secret sub exp iat) v
      = (.ret (.Next sub (mint d.jwt s.jwtService.secret sub exp iat)), (timeNow v1).2) := by
  have hv : s.jwtService.ValidateAccessToken d.jwt (mint d.jwt s.jwtService.secret sub exp iat)
      v1 = (.ok (mintedClaims sub exp iat), (timeNow v1).2) := by
    unfold jwtService.ValidateAccessToken
    rw [validateToken_mint d.jwt hl, if_pos hexp]
  constructor
  · unfold authService.VerifyToken
    rw [hb]
    simp only [Bool.false_eq_true, if_false]
    rw [hv]
    simp only [claimString_mintedClaims]
  · unfold Middleware.AuthRequired
    have hne : "Bearer " ++ mint d.jwt s.jwtService.secret sub exp iat ≠ "" := by
      intro h
      have := congrArg String.length h
      simp only [String.length_append] at this
      have h7 : "Bearer ".length = 7 := rfl
      have h0 : "".length = 0 := rfl
      omega
    rw [if_neg hne, sliceFrom_bearer]
    simp only
    rw [hb]
    simp only [Bool.false_eq_true, if_false]
    rw [hv]
    simp only [claimString_mintedClaims]
    simp

/-- C14: `ValidateAccessToken` and `ValidateRefreshToken` are the same function of the token
text. So the refresh token of the pair a successful `Login` or `RefreshToken` returns, which
carries the subject of the login (of the presented token) and the `exp` of the refresh
lifetime, is accepted as an access token: as long as it is not blacklisted and the clock is
before its `exp`, `VerifyToken` returns its subject and `AuthRequired` lets the request
through with that subject. -/
theorem C14_refresh_token_accepted_as_access_token (d : Deps) (hl : d.jwt.Lawful)
    (s : authService) :
    (∀ t w, s.jwtService.ValidateAccessToken d.jwt t w
      = s.jwtService.ValidateRefreshToken d.jwt t w) ∧
    (∀ email password w pair, (s.Login d email password w).1 = .ok pair →
      ∃ user t1 iat, s.FindByEmail email = .ok (some user) ∧ w.now ≤ t1 ∧
        pair.RefreshToken = mint d.jwt s.jwtService.secret user.ID
          (Unix (t1 + s.jwtService.refreshExpiry)) iat ∧
        ∀ v v1, RedisClient.IsTokenBlacklisted pair.RefreshToken v = ((false, none), v1) →
          (Unix (t1 + s.jwtService.refreshExpiry) = 0 ∨
            (timeNow v1).1 < Unix (t1 + s.jwtService.refreshExpiry) * Second) →
          s.VerifyToken d pair.RefreshToken v = (.ret (.ok user.ID), (timeNow v1).2) ∧
          Middleware.AuthRequired d.jwt ⟨s.jwtService⟩ ("Bearer " ++ pair.RefreshToken) v
            = (.ret (.Next user.ID pair.RefreshToken), (timeNow v1).2)) ∧
    (∀ t w pair, (s.RefreshToken d t w).1 = .ok pair →
      ∃ claims sub t1 iat, (s.jwtService.ValidateRefreshToken d.jwt t w).1 = .ok claims ∧
        claimString claims "sub" = (sub, true) ∧ w.now ≤ t1 ∧
        pair.RefreshToken = mint d.jwt s.jwtService.secret sub
          (Unix (t1 + s.jwtService.refreshExpiry)) iat ∧
        ∀ v v1, RedisClient.IsTokenBlacklisted pair.RefreshToken v = ((false, none), v1) →
          (Unix (t1 + s.jwtService.refreshExpiry) = 0 ∨
            (timeNow v1).1 < Unix (t1 + s.jwtService.refreshExpiry) * Second) →
          s.VerifyToken d pair.RefreshToken v = (.ret (.ok sub), (timeNow v1).2) ∧
          Middleware.AuthRequired d.jwt ⟨s.jwtService⟩ ("Bearer " ++ pair.RefreshToken) v
            = (.ret (.Next sub pair.RefreshToken), (timeNow v1).2)) := by
  refine ⟨fun _ _ => rfl, ?_, ?_⟩
  · intro email password w pair h
    obtain ⟨user, hf, -, -, hr, -, -⟩ := login_ok_inv d s email password w pair h
    obtain ⟨t1, h1, -, h3⟩ := GenerateRefreshToken_fst d.jwt s.jwtService user.ID
      (s.jwtService.GenerateAccessToken d.jwt user.ID w).2
    rw [hr] at h3
    simp only [Except.ok.injEq] at h3
    refine ⟨user, t1, _, hf,
      le_trans (GenerateAccessToken_now_ge d.jwt s.jwtService user.ID w) h1, h3, ?_⟩
    intro v v1 hb hexp
    rw [h3] at hb ⊢
    exact verifyToken_minted d hl s user.ID _ _ v v1 hb hexp
  · intro t w pair h
    obtain ⟨claims, sub, w1, w2, w3, w4, w5, hv, hc, -, hg, ha, hr, -, -⟩ :=
      refreshToken_ok_inv d s t w pair h
    obtain ⟨-, -, -, -, t1, h1, -, h3⟩ := GenerateRefreshToken_step _ _ _ _ _ _ hr
    simp only [Except.ok.injEq] at h3
    have s1 : w.now ≤ w1.now := by
      have := validateToken_now_ge d.jwt s.jwtService t w
      have e : s.jwtService.validateToken d.jwt t w = (.ok claims, w1) := hv
      rw [e] at this
      exact this
    have s2 : w1.now ≤ w2.now := by
      simp only [RedisClient.GetRefreshToken, RedisClient.Get] at hg
      exact (redisGET_step _ _ _ _ hg).1.now_le
    have s3 : w2.now ≤ w3.now := (GenerateAccessToken_step _ _ _ _ _ _ ha).1.now_le
    refine ⟨claims, sub, t1, _, by rw [hv], hc, by omega, h3, ?_⟩
    intro v v1 hb hexp
    rw [h3] at hb ⊢
    exact verifyToken_minted d hl s sub _ _ v v1 hb hexp

/-- A successful `Login` leaves the blacklist keys as they were. -/
theorem login_keys_blacklist (d : Deps) (s : authService) (email password : String)
    (w : World) (pair : TokenPair) (h : (s.Login d email password w).1 = .ok pair)
    (token : String) :
    (s.Login d email password w).2.keys ("blacklist:" ++ token)
      = w.keys ("blacklist:" ++ token) := by
  obtain ⟨user, -, -, -, -, hst, hw⟩ := login_ok_inv d s email password w pair h
  rw [hw]
  simp only [RedisClient.StoreRefreshToken, RedisClient.Set] at hst ⊢
  have hfl := redisSET_ok _ _ _ _ hst
  rw [redisSET_keys]
  have hne : "blacklist:" ++ token ≠ "refresh:" ++ user.ID :=
    fun hc => refresh_key_ne_blacklist_key _ _ hc.symm
  simp [hfl, hne]

theorem Demo.afterLogin_not_blacklisted (token : String) :
    RedisClient.IsTokenBlacklisted token (later Demo.afterLogin 0)
      = ((false, none), (redisEXISTS ("blacklist:" ++ token) (later Demo.afterLogin 0)).2) := by
  refine Prod.ext ?_ (isTokenBlacklisted_snd token _)
  rw [isTokenBlacklisted_fst token _ (fails_later _ _)]
  simp only [later_keys]
  have hk : Demo.afterLogin.keys ("blacklist:" ++ token) = none :=
    login_keys_blacklist Ref.deps Demo.svc "ann@example.org" "pw-ann" Demo.w0 Demo.pair0
      Demo.login_w0 token
  simp [liveAt, hk]

theorem Demo.afterLogin_before_exp (token : String) :
    (timeNow (redisEXISTS ("blacklist:" ++ token) (later Demo.afterLogin 0)).2).1
      < 1700604800 * Second := by
  have h := timeNow_le_horizon (redisEXISTS ("blacklist:" ++ token) (later Demo.afterLogin 0)).2
  rw [redisEXISTS_horizon] at h
  have h1 : horizon (later Demo.afterLogin 0) = Demo.afterLogin.now := by
    simp [horizon, later]
  have h2 := now_le_horizon Demo.afterLogin
  have h3 := Demo.afterLogin_same_second.high
  have e1 : ((1700000000 : Int) + 1) * Second = 1700000001 * 1000000000 := by decide
  have e2 : (1700604800 : Int) * Second = 1700604800 * 1000000000 := rfl
  omega

/-- Witness of C14: the reference text layer; the refresh token of the login of `ann` in `w0`
is accepted right after the login, by `VerifyToken` and by `AuthRequired`, for `u1`. -/
theorem C14_witness :
    Ref.deps.jwt.Lawful ∧
    (Demo.svc.Login Ref.deps "ann@example.org" "pw-ann" Demo.w0).1 = .ok Demo.pair0 ∧
    (Demo.svc.VerifyToken Ref.deps Demo.pair0.RefreshToken (later Demo.afterLogin 0)).1
      = .ret (.ok "u1") ∧
    (Middleware.AuthRequired Ref.deps.jwt ⟨Demo.svc.jwtService⟩
      ("Bearer " ++ Demo.pair0.RefreshToken) (later Demo.afterLogin 0)).1
      = .ret (.Next "u1" Demo.pair0.RefreshToken) := by
  obtain ⟨user, t1, iat, hfind, -, hmint, hacc⟩ :=
    (C14_refresh_token_accepted_as_access_token Ref.deps Ref.codec_lawful Demo.svc).2.1
      "ann@example.org" "pw-ann" Demo.w0 Demo.pair0 Demo.login_w0
  have hu : user = Demo.ann := by
    rw [Demo.find_ann] at hfind
    simp only [Except.ok.injEq, Option.some.injEq] at hfind
    exact hfind.symm
  have hm := mint_inj Ref.codec Ref.codec_lawful
    (show mint Ref.codec "k" "u1" 1700604800 1700000000 = mint _ _ _ _ _ from hmint)
  obtain ⟨h1, h2⟩ := hacc (later Demo.afterLogin 0) _
    (Demo.afterLogin_not_blacklisted _)
    (Or.inr (by rw [← hm.2.1]; exact Demo.afterLogin_before_exp _))
  rw [hu] at h1 h2
  exact ⟨Ref.codec_lawful, Demo.login_w0, congrArg Prod.fst h1, congrArg Prod.fst h2⟩

/-! ## Logout with a token that outlives its blacklist entry -/

/-- After a `Logout` without error the blacklist key of the token holds the marker with the
deadline of its `SET`, and that `SET` came before the end of the call. -/
theorem logout_blacklist_entry (s : authService) (userID accessToken : String) (w : World)
    (h : (s.Logout userID accessToken w).1 = none) :
    (s.Logout userID accessToken w).2.keys ("blacklist:" ++ accessToken)
      = some { value := "1",
               expireAt := setDeadline w.keys
                 (RedisClient.BlacklistToken accessToken s.jwtService.GetAccessExpiry w).2.now
                 ("blacklist:" ++ accessToken) s.jwtService.GetAccessExpiry } ∧
    (RedisClient.BlacklistToken accessToken s.jwtService.GetAccessExpiry w).2.now
      ≤ (s.Logout userID accessToken w).2.now := by
  obtain ⟨hb, hd⟩ := logout_ok_inv s userID accessToken w h
  rw [logout_blacklist_ok s userID accessToken w hb]
  simp only [RedisClient.BlacklistToken, RedisClient.DeleteRefreshToken, RedisClient.Set,
    RedisClient.Del] at hb hd ⊢
  have hf1 := redisSET_ok _ _ _ _ hb
  have hf2 := redisDEL_ok _ _ hd
  have hk1 := redisSET_keys ("blacklist:" ++ accessToken) "1" s.jwtService.GetAccessExpiry w
  simp only [hf1, Bool.false_eq_true, if_false] at hk1
  have hk2 := redisDEL_keys ("refresh:" ++ userID)
    (redisSET ("blacklist:" ++ accessToken) "1" s.jwtService.GetAccessExpiry w).2
  simp only [hf2, Bool.false_eq_true, if_false, hk1] at hk2
  have hne : "blacklist:" ++ accessToken ≠ "refresh:" ++ userID :=
    fun hc => refresh_key_ne_blacklist_key _ _ hc.symm
  constructor
  · rw [hk2]
    simp [hne]
  · rw [redisDEL_now]
    exact timeNow_ge _

/-- C5 as stated fails. `ann` logs out right after the login in `w0` and passes the refresh
token of the login as the token to invalidate (`VerifyToken` and `AuthRequired` accept it as
an access token). `Logout` returns no error. 901 seconds later the blacklist entry, which
lives for the access lifetime of 900 seconds, has expired, the token is valid for another
week, and `VerifyToken` returns the subject `u1` instead of an error. -/
theorem C5_counterexample_token_outlives_blacklist_entry :
    (Demo.svc.Logout "u1" Demo.pair0.RefreshToken Demo.afterLogin).1 = none ∧
    (Demo.svc.VerifyToken Ref.deps Demo.pair0.RefreshToken
      (later (Demo.svc.Logout "u1" Demo.pair0.RefreshToken Demo.afterLogin).2 0)).1
      = .ret (.error (.New "token is invalidated")) ∧
    (RedisClient.IsTokenBlacklisted Demo.pair0.RefreshToken
      (later (Demo.svc.Logout "u1" Demo.pair0.RefreshToken Demo.afterLogin).2
        901000000000)).1 = (false, none) ∧
    (Demo.svc.VerifyToken Ref.deps Demo.pair0.RefreshToken
      (later (Demo.svc.Logout "u1" Demo.pair0.RefreshToken Demo.afterLogin).2
        901000000000)).1
      = .ret (.ok "u1") := by
  have hok : (Demo.svc.Logout "u1" Demo.pair0.RefreshToken Demo.afterLogin).1 = none :=
    logout_ok_of_faults_nil _ _ _ _ Demo.afterLogin_same_second.faults
  obtain ⟨hk, hle⟩ := logout_blacklist_entry Demo.svc "u1" Demo.pair0.RefreshToken
    Demo.afterLogin hok
  obtain ⟨h1, h2⟩ := logout_instants Demo.svc "u1" Demo.pair0.RefreshToken Demo.afterLogin hok
  have hlow := Demo.afterLogin_same_second.low
  have hhigh := Demo.afterLogin_same_second.high
  have hA : Demo.svc.jwtService.GetAccessExpiry = 900 * Second := rfl
  rw [hA] at hk hle h1
  have hpos : (900 * Second : Int) > 0 := by decide
  have hdl : setDeadline Demo.afterLogin.keys
      (RedisClient.BlacklistToken Demo.pair0.RefreshToken (900 * Second) Demo.afterLogin).2.now
      ("blacklist:" ++ Demo.pair0.RefreshToken) (900 * Second)
      = some ((RedisClient.BlacklistToken Demo.pair0.RefreshToken (900 * Second)
          Demo.afterLogin).2.now + 900 * Second) := by
    simp only [setDeadline, hpos, if_true]
  rw [hdl] at hk
  have e1 : ((1700000000 : Int) + 1) * Second = 1700000001 * 1000000000 := by decide
  have e2 : (1700604800 : Int) * Second = 1700604800 * 1000000000 := rfl
  have e3 : (900 : Int) * Second = 900 * 1000000000 := rfl
  have e4 : (1700000000 : Int) * Second = 1700000000 * 1000000000 := rfl
  have hbl0 : (RedisClient.IsTokenBlacklisted Demo.pair0.RefreshToken
      (later (Demo.svc.Logout "u1" Demo.pair0.RefreshToken Demo.afterLogin).2 0)).1
      = (true, none) := by
    apply isTokenBlacklisted_of_entry _ _ 0 _ hk
    intro dl h
    simp only [Option.some.injEq] at h
    simp only [Nat.cast_zero, add_zero]
    omega
  have hbl : (RedisClient.IsTokenBlacklisted Demo.pair0.RefreshToken
      (later (Demo.svc.Logout "u1" Demo.pair0.RefreshToken Demo.afterLogin).2
        901000000000)).1 = (false, none) := by
    apply isTokenBlacklisted_expired _ _ 901000000000 "1" _ hk
    simp only [Nat.cast_ofNat]
    omega
  have hexp : (timeNow (redisEXISTS ("blacklist:" ++ Demo.pair0.RefreshToken)
      (later (Demo.svc.Logout "u1" Demo.pair0.RefreshToken Demo.afterLogin).2
        901000000000)).2).1 < 1700604800 * Second := by
    have h := timeNow_le_horizon (redisEXISTS ("blacklist:" ++ Demo.pair0.RefreshToken)
      (later (Demo.svc.Logout "u1" Demo.pair0.RefreshToken Demo.afterLogin).2
        901000000000)).2
    rw [redisEXISTS_horizon] at h
    have h3 : horizon (later (Demo.svc.Logout "u1" Demo.pair0.RefreshToken
        Demo.afterLogin).2 901000000000)
        = (Demo.svc.Logout "u1" Demo.pair0.RefreshToken Demo.afterLogin).2.now
          + 901000000000 := by
      simp [horizon, later]
    omega
  have hb : RedisClient.IsTokenBlacklisted Demo.pair0.RefreshToken
      (later (Demo.svc.Logout "u1" Demo.pair0.RefreshToken Demo.afterLogin).2 901000000000)
      = ((false, none), (redisEXISTS ("blacklist:" ++ Demo.pair0.RefreshToken)
          (later (Demo.svc.Logout "u1" Demo.pair0.RefreshToken Demo.afterLogin).2
            901000000000)).2) :=
    Prod.ext hbl (isTokenBlacklisted_snd _ _)
  have hv := verifyToken_minted Ref.deps Ref.codec_lawful Demo.svc "u1" 1700604800 1700000000
    (later (Demo.svc.Logout "u1" Demo.pair0.RefreshToken Demo.afterLogin).2 901000000000)
    (redisEXISTS ("blacklist:" ++ Demo.pair0.RefreshToken)
      (later (Demo.svc.Logout "u1" Demo.pair0.RefreshToken Demo.afterLogin).2
        901000000000)).2 hb (Or.inr hexp)
  refine ⟨hok, ?_, hbl, congrArg Prod.fst hv.1⟩
  apply verifyToken_blacklisted Ref.deps Demo.svc Demo.pair0.RefreshToken _ 0
  exact liveAt_of_entry _ _ _ _ hk (by
    intro dl h
    simp only [Option.some.injEq] at h
    simp only [Nat.cast_zero, add_zero]
    omega)

/-! ## The slice of the `Authorization` header -/

/-- C15 (what the code does): `AuthRequired` slices the header with `authHeader[7:]` without
looking at its length or at its first seven bytes. For a non-empty header shorter than seven
bytes the slice is out of bounds and the handler panics, before any other call; these are the
only headers on which it panics. For a header of at least seven bytes the token it looks up
and passes on is the header from byte seven on, which is the header without its `Bearer `
prefix when the header has that prefix, and the tail of the header otherwise. -/
theorem C15_authorization_header_slice (lib : JWTCodec) (m : Middleware) (authHeader : String)
    (w : World) :
    ((m.AuthRequired lib authHeader w).1 = .panic ↔
      authHeader ≠ "" ∧ authHeader.utf8ByteSize < 7) ∧
    (authHeader ≠ "" → authHeader.utf8ByteSize < 7 →
      m.AuthRequired lib authHeader w = (.panic, w)) ∧
    m.AuthRequired lib "abc" w = (.panic, w) ∧
    (7 ≤ authHeader.utf8ByteSize →
      (m.AuthRequired lib authHeader w).2.log
        = w.log ++ [.Exists ("blacklist:" ++ authHeader.extract ⟨7⟩ authHeader.endPos)] ∧
      ∀ userID token, (m.AuthRequired lib authHeader w).1 = .ret (.Next userID token) →
        token = authHeader.extract ⟨7⟩ authHeader.endPos) ∧
    (∀ t, sliceFrom ("Bearer " ++ t) 7 = .ret t) ∧
    sliceFrom "Basic QWxhZGRpbg==" 7 = .ret "WxhZGRpbg==" := by
  refine ⟨?_, authRequired_short lib m authHeader w, ?_, ?_, sliceFrom_bearer, by decide⟩
  · constructor
    · intro hp
      by_cases hne : authHeader = ""
      · rw [hne] at hp
        simp [Middleware.AuthRequired] at hp
      · refine ⟨hne, ?_⟩
        by_contra h7
        exact (authRequired_long lib m authHeader w (by omega)).1 hp
    · rintro ⟨hne, h7⟩
      rw [authRequired_short lib m authHeader w hne h7]
  · exact authRequired_short lib m "abc" w (by decide) (by decide)
  · intro h7
    exact (authRequired_long lib m authHeader w h7).2

end AuthService
